import Mathlib

/-! go-metronome: domain model and transport (metronome/models.go, metronome/jobs.go)

A shallow embedding of the value types and validating constructors of
`metronome/models.go`, of the schedule translator and the client operations of
`metronome/jobs.go`, and of what `encoding/json` does with the struct tags of
the entities.

Conventions of the embedding
* A Go `string` and a `[]byte` holding text are a Lean `String`; `len(s)` is the
  UTF-8 byte length `String.utf8ByteSize`.
* Go `int` is `Int`; the one subtraction that can wrap (`int(x) - 1` in the
  token-table lookups) goes through `wrapInt`.
* A Go `float64` is its IEEE-754 bit pattern (`Float64`), with the two
  comparisons against `0.0` the source uses.
* A pointer that may be nil (`*Run`, `*Labels`, `*Docker`, ...) is an `Option`.
* A constructor returning `(T, error)` with the Go idiom "value or error" is an
  `Except Error T`; a function of jobs.go returns the pair of its two results,
  the error being an `Option`; a method that writes through its receiver
  returns the new receiver next to the returned `error`.
* A run-time panic (array index out of range) is `none` of an `Option`.
* Slices and maps are lists (association lists); nil and empty are not told
  apart, and the capacity of a slice is not modelled.
* What lies outside the repository and is not a fixed function of its input
  (the clock, the ISO-8601 duration library, the request primitives of the
  client, `http.StatusText`, `json.Marshal` of a raw message) is a parameter.
-/

namespace metronome

/-! ## Errors -/

/-- Go `error` values met in models.go: `errors.New(msg)` and the errors of
`encoding/json` (a syntax error or a type mismatch; their text is not modelled). -/
inductive Error where
  | errorString (msg : String)
  | jsonError
  deriving DecidableEq, Repr

/-- Message of an error, `err.Error()`; for the errors of `encoding/json` only a
placeholder, since their text is not modelled. -/
def Error.message : Error → String
  | .errorString msg => msg
  | .jsonError => "json: error"

def constraintViol : Error := .errorString "Bad constraint.  Must be EQ,LIKE,UNLIKE"
def mountViol : Error := .errorString "Mount point must designate RW,RO"
def containerPathViol : Error := .errorString "Bad container path.  Must match `^/[^/].*$`"

/-- The string type under a name that the `String()` methods below do not shadow. -/
abbrev GoString := String

/-- Go `len(s)` of a string: its length in bytes. -/
def len (s : String) : Nat := s.utf8ByteSize

/-- Source: `func required(msg string) error`. -/
def required (msg : String) : Error :=
  if len msg = 0 then .errorString "Missing Required message"
  else .errorString (msg ++ " is required by metronome api")

deriving instance DecidableEq for Except

/-! ## Machine integers and floats -/

/-- Two's-complement wrap of an integer result into the 64-bit `int` range. -/
def wrapInt (x : Int) : Int := (x + 2 ^ 63) % 2 ^ 64 - 2 ^ 63

/-- An IEEE-754 binary64 value, as its bit pattern (`math.Float64bits`). -/
structure Float64 where
  bits : Nat
  deriving DecidableEq, Repr

namespace Float64

def sign (x : Float64) : Nat := (x.bits / 2 ^ 63) % 2
def expo (x : Float64) : Nat := (x.bits / 2 ^ 52) % 2 ^ 11
def frac (x : Float64) : Nat := x.bits % 2 ^ 52

def isNaN (x : Float64) : Bool := x.expo == 2047 && x.frac != 0
def isZero (x : Float64) : Bool := x.expo == 0 && x.frac == 0

/-- Go `x <= 0.0`: false for NaN, true for both zeros and every negative value. -/
def leZero (x : Float64) : Bool := !x.isNaN && (x.sign == 1 || x.isZero)

/-- Go `x > 0.0`: false for NaN, true for every positive value (infinity included). -/
def gtZero (x : Float64) : Bool := !x.isNaN && x.sign == 0 && !x.isZero

/-- Value of `math.NaN()`: bit pattern 0x7FF8000000000001. -/
def NaN : Float64 := ⟨0x7FF8000000000001⟩

/-- Value 1.5: bit pattern 0x3FF8000000000000. -/
def onePointFive : Float64 := ⟨0x3FF8000000000000⟩

end Float64

/-! ## encoding/json: decoding a JSON value into a Go string -/

def quoteChar : Char := Char.ofNat 34
def backslashChar : Char := Char.ofNat 92

/-- JSON insignificant whitespace: space, tab, carriage return, line feed. -/
def isSpace (c : Char) : Bool :=
  c == ' ' || c == Char.ofNat 9 || c == Char.ofNat 13 || c == Char.ofNat 10

def hexDigit (c : Char) : Option Nat :=
  if '0' ≤ c ∧ c ≤ '9' then some (c.toNat - '0'.toNat)
  else if 'a' ≤ c ∧ c ≤ 'f' then some (c.toNat - 'a'.toNat + 10)
  else if 'A' ≤ c ∧ c ≤ 'F' then some (c.toNat - 'A'.toNat + 10)
  else none

/-- Four hexadecimal digits at the head of the input, as a number (`getu4`
after the `\u` marker). -/
def hex4 : List Char → Option Nat
  | a :: b :: c :: d :: _ =>
    match hexDigit a, hexDigit b, hexDigit c, hexDigit d with
    | some x, some y, some z, some w => some (((x * 16 + y) * 16 + z) * 16 + w)
    | _, _, _, _ => none
  | _ => none

def replacementChar : Char := Char.ofNat 0xFFFD

/-- One escape sequence, the input standing right after the backslash: the
decoded character and how many input characters the escape takes after the
backslash. A `\u` escape of a high surrogate joins a following `\u` low
surrogate; a lone surrogate decodes to U+FFFD. -/
def decodeEscape : List Char → Option (Char × Nat)
  | [] => none
  | c :: rest =>
    if c = quoteChar then some (quoteChar, 1)
    else if c = backslashChar then some (backslashChar, 1)
    else if c = '/' then some ('/', 1)
    else if c = 'b' then some (Char.ofNat 8, 1)
    else if c = 'f' then some (Char.ofNat 12, 1)
    else if c = 'n' then some (Char.ofNat 10, 1)
    else if c = 'r' then some (Char.ofNat 13, 1)
    else if c = 't' then some (Char.ofNat 9, 1)
    else if c = 'u' then
      match hex4 rest with
      | none => none
      | some rr =>
        if 0xD800 ≤ rr ∧ rr < 0xE000 then
          match rest.drop 4 with
          | e :: u :: more =>
            if e = backslashChar ∧ u = 'u' then
              match hex4 more with
              | some rr1 =>
                if rr < 0xDC00 ∧ 0xDC00 ≤ rr1 ∧ rr1 < 0xE000 then
                  some (Char.ofNat ((rr - 0xD800) * 1024 + (rr1 - 0xDC00) + 0x10000), 11)
                else some (replacementChar, 5)
              | none => some (replacementChar, 5)
            else some (replacementChar, 5)
          | _ => some (replacementChar, 5)
        else some (Char.ofNat rr, 5)
    else none

/-- Body of a JSON string literal, the input standing right after the opening
quote: the decoded text and the input left after the closing quote. The first
argument counts input characters already taken by an escape sequence. -/
def unquoteBody : Nat → List Char → Option (List Char × List Char)
  | _, [] => none
  | skip + 1, _ :: rest => unquoteBody skip rest
  | 0, c :: rest =>
    if c = quoteChar then some ([], rest)
    else if c = backslashChar then
      match decodeEscape rest with
      | none => none
      | some (r, n) =>
        match unquoteBody n rest with
        | none => none
        | some (out, tl) => some (r :: out, tl)
    else if c.toNat < 0x20 then none
    else
      match unquoteBody 0 rest with
      | none => none
      | some (out, tl) => some (c :: out, tl)

/-- Go `json.Unmarshal(raw, &s)` for a `string` variable `s` that holds `""`
before the call: the decoded text of a JSON string literal (whitespace around
it allowed), `""` left in place for the JSON value `null`, and an error for
every other input (another kind of JSON value, or no JSON value at all). -/
def jsonUnmarshalString (raw : String) : Except Error String :=
  match raw.data.dropWhile isSpace with
  | [] => .error .jsonError
  | c :: rest =>
    if c = quoteChar then
      match unquoteBody 0 rest with
      | none => .error .jsonError
      | some (out, tl) => if tl.all isSpace then .ok (String.mk out) else .error .jsonError
    else if (c :: rest).takeWhile (fun x => !isSpace x) = "null".data
        ∧ ((c :: rest).dropWhile (fun x => !isSpace x)).all isSpace then .ok ""
    else .error .jsonError

/-- Go `fmt.Sprintf("\"%s\"", s)`: the text between two double quotes, nothing escaped. -/
def sprintfQuoted (s : String) : String :=
  String.mk (quoteChar :: (s.data ++ [quoteChar]))

/-! ## Docker -/

structure Docker where
  Image_ : String
  deriving DecidableEq, Repr

/-- Source: `func NewDockerImage(image string) (*Docker, error)`. -/
def NewDockerImage (image : String) : Except Error Docker :=
  if len image = 0 then .error (required "Docker.Image requires a value")
  else .ok { Image_ := image }

def Docker.Image (self : Docker) : String := self.Image_

/-! ## Operator and Constraint -/

/-- Source: `type Operator int`. -/
abbrev Operator := Int

def EQ : Operator := 1
def LIKE : Operator := 2
def UNLIKE : Operator := 3

def constraint_operators : List String := ["EQ", "LIKE", "UNLIKE"]

/-- Go array indexing `table[i]`: the entry, or `none` for the run-time panic
"index out of range". -/
def index (table : List String) (i : Int) : Option String :=
  if 0 ≤ i then table.get? i.toNat else none

/-- Source: `func (self *Operator) String() string`, the table entry at
`int(*self) - 1`. -/
def Operator.String (self : Operator) : Option String :=
  index constraint_operators (wrapInt (self - 1))

/-- Source: `func (self *Operator) UnmarshalJSON(raw []byte) error`. The result
is the receiver after the call and the returned error (the message printed in
the default branch is not modelled). -/
def Operator.UnmarshalJSON (self : Operator) (raw : GoString) : Operator × Option Error :=
  match jsonUnmarshalString raw with
  | .error err => (self, some err)
  | .ok s =>
    if s = "EQ" then (EQ, none)
    else if s = "LIKE" then (LIKE, none)
    else if s = "UNLIKE" then (UNLIKE, none)
    else (self, some constraintViol)

/-- Source: `func (self *Operator) MarshalJSON() ([]byte, error)`; `none` when
`String()` panics. -/
def Operator.MarshalJSON (self : Operator) : Option (GoString × Option Error) :=
  match Operator.String self with
  | none => none
  | some s => some (sprintfQuoted s, none)

structure Constraint where
  Attribute_ : String
  Operator_ : Operator
  Value_ : String
  deriving DecidableEq, Repr

/-- Source: `func NewConstraint(attribute string, op Operator, value string) (*Constraint, error)`. -/
def NewConstraint (attr : String) (op : Operator) (value : String) : Except Error Constraint :=
  if attr = "" then .error (required "Constraint.attribute")
  else .ok { Attribute_ := attr, Operator_ := op, Value_ := value }

def Constraint.Attribute (self : Constraint) : String := self.Attribute_
def Constraint.Operator (self : Constraint) : Operator := self.Operator_
def Constraint.Value (self : Constraint) : String := self.Value_

structure Placement where
  Constraints_ : List Constraint
  deriving DecidableEq, Repr

/-! ## MountMode, ContainerPath and Volume -/

/-- Source: `type MountMode int`. -/
abbrev MountMode := Int

/-- Source: `type ContainerPath string`. -/
abbrev ContainerPath := String

def RO : MountMode := 1
def RW : MountMode := 2

def mount_modes : List String := ["RO", "RW"]

/-- Source: `func (self MountMode) String() string`. -/
def MountMode.String (self : MountMode) : Option String :=
  index mount_modes (wrapInt (self - 1))

/-- Source: `func (self *MountMode) MarshalJSON() ([]byte, error)`, which indexes
`mount_modes` itself. -/
def MountMode.MarshalJSON (self : MountMode) : Option (GoString × Option Error) :=
  match index mount_modes (wrapInt (self - 1)) with
  | none => none
  | some s => some (sprintfQuoted s, none)

/-- Source: `func (self *MountMode) UnmarshalJSON(raw []byte) error`. -/
def MountMode.UnmarshalJSON (self : MountMode) (raw : GoString) : MountMode × Option Error :=
  match jsonUnmarshalString raw with
  | .error err => (self, some err)
  | .ok s =>
    if s = "RO" then (RO, none)
    else if s = "RW" then (RW, none)
    else (self, some mountViol)

/-- Whether a text matches the pattern `^/[^/].*$` as Go's regexp package reads
it: the first character is `/`, the second one is any character but `/` (a line
feed included), and no line feed follows (`.` excludes it and `$` is the end of
the text). -/
def matchesContainerPathPattern (s : String) : Bool :=
  match s.data with
  | a :: b :: rest => a == '/' && b != '/' && !rest.contains (Char.ofNat 10)
  | _ => false

/-- Go `regexp.MatchString("^/[^/].*$", s)`: the pair `(matched, err)`. The
error is non-nil only when the pattern fails to compile; this pattern
compiles, so the error is always nil. -/
def regexpMatchString (s : String) : Bool × Option Error :=
  (matchesContainerPathPattern s, none)

/-- Source: `func (self *ContainerPath) UnmarshalJSON(raw []byte) error`: only
the error of `MatchString` is inspected, and the receiver takes the raw bytes. -/
def ContainerPath.UnmarshalJSON (self : ContainerPath) (raw : GoString) :
    ContainerPath × Option Error :=
  match (regexpMatchString raw).2 with
  | some _ => (self, some containerPathViol)
  | none => (raw, none)

/-- Source: `func (self *ContainerPath) String() string`. -/
def ContainerPath.String (self : ContainerPath) : GoString := self

/-- Source: `func NewContainerPath(path string) (self *ContainerPath, err error)`. -/
def NewContainerPath (path : String) : Except Error ContainerPath :=
  match (regexpMatchString path).2 with
  | some err => .error err
  | none => .ok path

structure Volume where
  ContainerPath_ : ContainerPath
  HostPath_ : String
  Mode_ : MountMode
  deriving DecidableEq, Repr

/-- Source: `func NewVolume(raw_path string, hostPath string, mode MountMode) (*Volume, error)`. -/
def NewVolume (raw_path : String) (hostPath : String) (mode : MountMode) : Except Error Volume :=
  match NewContainerPath raw_path with
  | .error err => .error err
  | .ok cpath =>
    let vol : Volume := { ContainerPath_ := cpath, HostPath_ := hostPath, Mode_ := mode }
    if vol.HostPath_ = "" then .error (required "host path")
    else .ok vol

/-! ## Restart -/

structure Restart where
  ActiveDeadlineSeconds_ : Int
  Policy_ : String
  deriving DecidableEq, Repr

def Restart.ActiveDeadlineSeconds (self : Restart) : Int := self.ActiveDeadlineSeconds_
def Restart.Policy (self : Restart) : String := self.Policy_

/-- Source: `func NewRestart(activeDeadlineSeconds int, policy string) (*Restart, error)`. -/
def NewRestart (activeDeadlineSeconds : Int) (policy : String) : Except Error Restart :=
  if len policy = 0 then .error (required "length(Restart.policy)>0")
  else .ok { ActiveDeadlineSeconds_ := activeDeadlineSeconds, Policy_ := policy }

/-! ## Run and Job -/

structure Artifact where
  Uri_ : String
  Executable_ : Bool
  Extract_ : Bool
  Cache_ : Bool
  deriving DecidableEq, Repr

structure Run where
  Artifacts_ : List Artifact
  Cmd_ : String
  Args_ : List String
  Cpus_ : Float64
  Mem_ : Int
  Disk_ : Int
  Docker_ : Option Docker
  Env_ : List (String × String)
  MaxLaunchDelay_ : Int
  Placement_ : Option Placement
  Restart_ : Option Restart
  User_ : String
  Volumes_ : List Volume
  deriving DecidableEq, Repr

def Run.Cpus (self : Run) : Float64 := self.Cpus_
def Run.Mem (self : Run) : Int := self.Mem_
def Run.Disk (self : Run) : Int := self.Disk_

/-- Source: `func NewRun(cpus float64, mem int, disk int) (*Run, error)`. -/
def NewRun (cpus : Float64) (mem : Int) (disk : Int) : Except Error Run :=
  if mem ≤ 0 then .error (required "Run.memory")
  else if disk ≤ 0 then .error (required "Run.disk")
  else if cpus.leZero then .error (required "Run.cpus")
  else
    let vg : Run :=
      { Artifacts_ := [], Cmd_ := "", Args_ := [], Cpus_ := cpus, Mem_ := mem, Disk_ := disk,
        Docker_ := none, Env_ := [], MaxLaunchDelay_ := 0, Placement_ := none,
        Restart_ := none, User_ := "", Volumes_ := [] }
    .ok { vg with Args_ := vg.Args_ ++ ["foo"] }

structure Labels where
  Location : String
  Owner : String
  deriving DecidableEq, Repr

structure Job where
  Description_ : String
  ID_ : String
  Labels_ : Option Labels
  Run_ : Option Run
  deriving DecidableEq, Repr

/-- Source: `func NewJob(id string, description string, labels *Labels, run *Run) (*Job, error)`. -/
def NewJob (id : String) (description : String) (labels : Option Labels) (run : Option Run) :
    Except Error Job :=
  if len id = 0 then .error (required "Job.Id")
  else
    match run with
    | none => .error (required "Job.run")
    | some r => .ok { ID_ := id, Description_ := description, Labels_ := labels, Run_ := some r }

def Job.Description (self : Job) : String := self.Description_
def Job.Run (self : Job) : Option Run := self.Run_
def Job.Labels (self : Job) : Option Labels := self.Labels_

/-- Whether a call returned an error. -/
def failed {α : Type} (r : Except Error α) : Bool :=
  match r with
  | .error _ => true
  | .ok _ => false

/-! ## jobs.go: library functions used by the schedule translator -/

/-- Decimal text of an integer, as the verb `%d` and `fmt.Sprint` write it. -/
def formatInt (n : Int) : String :=
  if n < 0 then "-" ++ Nat.repr n.natAbs else Nat.repr n.toNat

/-- Go `strings.Split(s, "/")` on the characters of `s`: the pieces between the
slashes, one more than there are slashes. -/
def splitSlash : List Char → List (List Char)
  | [] => [[]]
  | c :: cs =>
    if c = '/' then [] :: splitSlash cs
    else
      match splitSlash cs with
      | [] => [[c]]
      | seg :: segs => (c :: seg) :: segs

/-- Go `strings.Split(isoRep, "/")`. -/
def stringsSplit (s : String) : List String :=
  (splitSlash s.data).map String.mk

/-- Source: `repeatRegex = regexp.MustCompile("R((?P<repeat>\d*))")`, through
`FindStringSubmatch`: `none` when the text has no `R` (no match), otherwise the
group `repeat` of the leftmost match, the longest run of ASCII digits right
after the first `R` (possibly empty). `MatchString` holds exactly when this is
not `none`. -/
def repeatRegexFind (dur : String) : Option String :=
  match dur.data.dropWhile (fun c => c != 'R') with
  | [] => none
  | _ :: rest => some (String.mk (rest.takeWhile Char.isDigit))

/-- Go `strconv.Atoi(s)`: an optional sign and decimal digits, within the range
of a 64-bit `int`. The quoting of `s` in the messages is the plain one. -/
def Atoi (s : String) : Except Error Int :=
  let signed : Bool × List Char :=
    match s.data with
    | c :: r => if c = '-' then (true, r) else if c = '+' then (false, r) else (false, c :: r)
    | [] => (false, [])
  if signed.2 = [] ∨ signed.2.all Char.isDigit = false then
    .error (.errorString ("strconv.Atoi: parsing " ++ sprintfQuoted s ++ ": invalid syntax"))
  else
    let n : Nat := signed.2.foldl (fun acc c => acc * 10 + (c.toNat - 48)) 0
    let v : Int := if signed.1 then -(n : Int) else (n : Int)
    if v < -2 ^ 63 ∨ 2 ^ 63 - 1 < v then
      .error (.errorString ("strconv.Atoi: parsing " ++ sprintfQuoted s ++ ": value out of range"))
    else .ok v

/-- A reading of the clock, `time.Now()`: the calendar fields in the local zone
and the offset of that zone from UTC in seconds. -/
structure Time where
  year : Int
  month : Int
  day : Int
  hour : Int
  minute : Int
  second : Int
  zoneOffset : Int
  deriving DecidableEq, Repr

/-- Whether the fields are those of a real instant (a four-digit year, a day
that exists in the month is not checked beyond 1..31). -/
def Time.wellFormed (t : Time) : Bool :=
  decide (0 ≤ t.year ∧ t.year ≤ 9999 ∧ 1 ≤ t.month ∧ t.month ≤ 12 ∧ 1 ≤ t.day ∧ t.day ≤ 31 ∧
    0 ≤ t.hour ∧ t.hour ≤ 23 ∧ 0 ≤ t.minute ∧ t.minute ≤ 59 ∧ 0 ≤ t.second ∧ t.second ≤ 59)

/-- The six numbers `y, M, d, h, m, s` that `Sscanf` stores. -/
structure Scanned where
  y : Int
  M : Int
  d : Int
  h : Int
  m : Int
  s : Int
  deriving DecidableEq, Repr

/-- Go `fmt.Sscanf(time.Now().Format(time.RFC3339), "%d-%d-%dT%d:%d:%dZ", &y, &M,
&d, &h, &m, &s)`. The RFC 3339 text of an instant ends in `Z` only in a zone
with offset zero; with any other offset it ends in `+hh:mm` or `-hh:mm`, the
literal `Z` of the format meets a sign and the scan returns the error "input
does not match format". With offset zero the six numbers read back are the
calendar fields. -/
def scanNow (now : Time) : Except Error Scanned :=
  if now.zoneOffset = 0 then
    .ok { y := now.year, M := now.month, d := now.day, h := now.hour, m := now.minute,
          s := now.second }
  else .error (.errorString "input does not match format")

/-- Go `fmt.Sprint("%d %d %d %d * %d%", m, h, d, M, y)`: `Sprint` has no format;
it writes its operands one after the other, with a space between two operands
when neither is a string. -/
def sprintCron (v : Scanned) : String :=
  "%d %d %d %d * %d%" ++ formatInt v.m ++ " " ++ formatInt v.h ++ " " ++ formatInt v.d ++ " " ++
    formatInt v.M ++ " " ++ formatInt v.y

/-- Go `fmt.Sprintf("%s-%d%d%d%d%d%d", y, M, d, h, m, s)`: the verb `%s` meets the
integer `y` and writes `%!s(int=y)`, the next five `%d` write `M, d, h, m, s`,
and the last `%d` has no operand left and writes `%!d(MISSING)`. -/
def sprintfScheduleID (v : Scanned) : String :=
  "%!s(int=" ++ formatInt v.y ++ ")-" ++ formatInt v.M ++ formatInt v.d ++ formatInt v.h ++
    formatInt v.m ++ formatInt v.s ++ "%!d(MISSING)"

/-! ## jobs.go: schedules -/

/-- Modelled from the spec: the declaration of `Schedule` is not among the
sources; its fields are those the spec lists (id, cron, concurrencyPolicy,
enabled, startingDeadlineSeconds, timezone) under the names `ImmediateSchedule`
uses. -/
structure Schedule where
  ID : String
  Cron : String
  ConcurrencyPolicy : String
  Enabled : Bool
  StartingDeadlineSeconds : Int
  Timezone : String
  deriving DecidableEq, Repr

/-- Source: `func ConvertIso8601ToCron(isoRep string) (string, error)`. The
first argument stands for `duration.FromString(interval)` followed by
`ToDuration()` of the package github.com/ChannelMeter/iso8601duration, which is
outside the repository: `none` when `FromString` returns an error, otherwise
the duration in nanoseconds (`int64(time_t)`). The second is the clock. -/
def ConvertIso8601ToCron (FromString : String → Option Int) (now : Time) (isoRep : String) :
    String × Option Error :=
  match stringsSplit isoRep with
  | [dur, _, interval] =>
    match repeatRegexFind dur with
    | some part =>
      match (if part = "" then Except.ok 0 else Atoi part) with
      | .error err => ("", some err)
      | .ok repeatTimes =>
        match FromString interval with
        | none => ("", some (.errorString "Illegal duration"))
        | some slot =>
          if repeatTimes ≠ 0 ∧ slot < 1 then ("", some (.errorString "Too small a duration"))
          else ("", some (.errorString "Unknown error"))
    | none => ("", some (.errorString "No repeat pattern"))
  | _ =>
    match scanNow now with
    | .error err => ("", some err)
    | .ok v => (sprintCron v, none)

/-- Source: `func ImmediateCrontab() string`. -/
def ImmediateCrontab (now : Time) : String :=
  match scanNow now with
  | .error _ => ""
  | .ok v => sprintCron v

/-- Source: `func RunOnceNowSchedule() string`. -/
def RunOnceNowSchedule (now : Time) : String := ImmediateCrontab now

/-- Source: `func ImmediateSchedule() (*Schedule, error)`. -/
def ImmediateSchedule (now : Time) : Option Schedule × Option Error :=
  match scanNow now with
  | .error err => (none, some err)
  | .ok v =>
    let cronstr := sprintCron v
    (some { ID := sprintfScheduleID v, Cron := cronstr, ConcurrencyPolicy := "ALLOW",
            Enabled := true, StartingDeadlineSeconds := 60, Timezone := "GMT" }, none)

/-- A stand-in for the ISO-8601 duration library on a few intervals, in
nanoseconds; every other text is taken as ill-formed. -/
def sampleFromString (interval : String) : Option Int :=
  if interval = "PT2M" then some 120000000000
  else if interval = "PT1M" then some 60000000000
  else if interval = "PT30S" then some 30000000000
  else if interval = "PT1S" then some 1000000000
  else if interval = "PT0S" then some 0
  else none

/-- The instant 2016-11-19 01:35:28 UTC. -/
def sampleNow : Time :=
  { year := 2016, month := 11, day := 19, hour := 1, minute := 35, second := 28, zoneOffset := 0 }

/-! ## jobs.go: transport layer -/

/-- Go `json.RawMessage`: the bytes of a JSON value. -/
abbrev RawMessage := String

/-- Go `map[string][]string`, the query parameters of a request. -/
abbrev QueryParams := List (String × List String)

/-- Modelled from the spec: the declaration of `JobStatus` is not among the
sources; the spec gives it as id, jobId, status, createdAt, completedAt
(optional) and tasks, a sequence of values the client does not interpret. -/
structure JobStatus where
  Id : String
  JobId : String
  Status : String
  CreatedAt : String
  CompletedAt : Option String
  Tasks : List RawMessage
  deriving DecidableEq, Repr

/-- What a request primitive hands back: the status code and the error it
returns, and the value it leaves in the result variable. -/
structure Reply (α : Type) where
  status : Int
  err : Option Error
  result : α

/-- The dynamic type of the result variable handed to a request primitive (a
pointer to a value of that type), which the primitive can inspect. -/
inductive ResultType where
  | job
  | jobs
  | jobStatus
  | jobStatuses
  | schedule
  | schedules
  | rawMessage
  | string
  deriving DecidableEq, Repr

/-- The values a result variable of the given dynamic type holds. -/
@[reducible] def ResultType.type : ResultType → Type
  | .job => Job
  | .jobs => List Job
  | .jobStatus => JobStatus
  | .jobStatuses => List JobStatus
  | .schedule => Schedule
  | .schedules => List Schedule
  | .rawMessage => RawMessage
  | .string => GoString

/-- The request body handed to `apiPost` and `apiPut` as `postData interface{}`:
a `*Job`, a `*Schedule` or a string. -/
inductive PostData where
  | job (v : Option Job)
  | schedule (v : Option Schedule)
  | string (v : GoString)
  deriving DecidableEq, Repr

/-- Modelled from the spec: the type `Client` and its request primitives
`apiGet`, `apiPost`, `apiPut`, `apiDelete` are not among the sources. Following
the spec's transport layer, a primitive takes the path, the query parameters,
the request body where there is one, and the result variable (here its dynamic
type and the value it holds before the call); it issues one request and returns
the status code and an error, leaving the decoded reply in the result variable.
The state of the network and of the service is the type `World`, threaded
through every call. -/
structure Client (World : Type) where
  apiGet : (k : ResultType) → String → QueryParams → k.type → World → Reply k.type × World
  apiPost : (k : ResultType) → String → QueryParams → PostData → k.type → World →
    Reply k.type × World
  apiPut : (k : ResultType) → String → QueryParams → PostData → k.type → World →
    Reply k.type × World
  apiDelete : (k : ResultType) → String → QueryParams → k.type → World → Reply k.type × World

/-- A value of type `interface{}` returned by an operation, by its dynamic type. -/
inductive Any where
  | job (v : Job)
  | jobStatus (v : JobStatus)
  | schedule (v : Schedule)
  | schedulePtr (v : Option Schedule)
  | rawMessage (v : RawMessage)
  | rawMessagePtr (v : RawMessage)
  | string (v : GoString)
  deriving DecidableEq, Repr

/-- The zero value of `Job`, what `var reply Job` declares. -/
def Job.zero : Job := { Description_ := "", ID_ := "", Labels_ := none, Run_ := none }

/-- The zero value of `JobStatus`. -/
def JobStatus.zero : JobStatus :=
  { Id := "", JobId := "", Status := "", CreatedAt := "", CompletedAt := none, Tasks := [] }

/-- The zero value of `Schedule`. -/
def Schedule.zero : Schedule :=
  { ID := "", Cron := "", ConcurrencyPolicy := "", Enabled := false,
    StartingDeadlineSeconds := 0, Timezone := "" }

/-- Modelled from the spec: the path constants `MetronomeAPI...` are not among
the sources; the spec's table of HTTP bindings gives the paths. `fmt.Sprintf`
of `MetronomeAPIJobGet`, `MetronomeAPIJobUpdate` and `MetronomeAPIJobDelete`
with the job id, `/v1/jobs/{id}`. -/
def pathJob (jobId : String) : String := "/v1/jobs/" ++ jobId

/-- Modelled from the spec: `MetronomeAPIJobCreate` and `MetronomeAPIJobList`,
`/v1/jobs`. -/
def pathJobs : String := "/v1/jobs"

/-- Modelled from the spec: `fmt.Sprintf` of `MetronomeAPIJobRunStart` (and of
`MetronomeAPIJobRunList`, named by the comment `GET /v1/jobs/$jobId/runs`) with
the job id, `/v1/jobs/{id}/runs`. -/
def pathRuns (jobId : String) : String := "/v1/jobs/" ++ jobId ++ "/runs"

/-- Modelled from the spec: `fmt.Sprintf` of `MetronomeAPIJobRunStatus` with
the job id and the run id, `/v1/jobs/{id}/runs/{runId}`. -/
def pathRun (jobId runId : String) : String := "/v1/jobs/" ++ jobId ++ "/runs/" ++ runId

/-- Modelled from the spec: `fmt.Sprintf` of `MetronomeAPIJobRunStop`,
`/v1/jobs/{id}/runs/{runId}/action/stop`. -/
def pathRunStop (jobId runId : String) : String :=
  "/v1/jobs/" ++ jobId ++ "/runs/" ++ runId ++ "/action/stop"

/-- Modelled from the spec: `fmt.Sprintf` of `MetronomeAPIJobScheduleCreate` and
`MetronomeAPIJobScheduleList`, `/v1/jobs/{id}/schedules`. -/
def pathSchedules (jobId : String) : String := "/v1/jobs/" ++ jobId ++ "/schedules"

/-- Modelled from the spec: `fmt.Sprintf` of `MetronomeAPIJobScheduleStatus`,
`MetronomeAPIJobScheduleUpdate` and `MetronomeAPIJobScheduleDelete`,
`/v1/jobs/{id}/schedules/{scheduleId}`. -/
def pathSchedule (jobId schedId : String) : String :=
  "/v1/jobs/" ++ jobId ++ "/schedules/" ++ schedId

/-- Modelled from the spec: `MetronomeAPIMetrics`, `/v1/metrics`. -/
def pathMetrics : String := "/v1/metrics"

/-- Modelled from the spec: `MetronomeAPIPing`, `/v1/ping`. -/
def pathPing : String := "/v1/ping"

section operations

variable {World : Type}

/-- Source: `func (client *Client) CreateJob(job *Job) (*Job, error)`. -/
def Client.CreateJob (client : Client World) (job : Option Job) (w : World) :
    (Option Job × Option Error) × World :=
  let r := client.apiPost .job pathJobs [] (.job job) Job.zero w
  match r.1.err with
  | some err => ((none, some err), r.2)
  | none => ((some r.1.result, none), r.2)

/-- Source: `func (client *Client) DeleteJob(jobId string) (interface{}, error)`. -/
def Client.DeleteJob (client : Client World) (jobId : String) (w : World) :
    (Option Any × Option Error) × World :=
  let r := client.apiDelete .job (pathJob jobId) [] Job.zero w
  match r.1.err with
  | some err => ((none, some err), r.2)
  | none => ((some (.job r.1.result), none), r.2)

/-- Source: `func (client *Client) GetJob(jobId string) (*Job, error)`. -/
def Client.GetJob (client : Client World) (jobId : String) (w : World) :
    (Option Job × Option Error) × World :=
  let queryParams : QueryParams := [("embed", ["historySummary", "activeRuns", "schedules"])]
  let r := client.apiGet .job (pathJob jobId) queryParams Job.zero w
  match r.1.err with
  | some err => ((none, some err), r.2)
  | none => ((some r.1.result, none), r.2)

/-- Source: `func (client *Client) Jobs() (*[]Job, error)`. -/
def Client.Jobs (client : Client World) (w : World) :
    (Option (List Job) × Option Error) × World :=
  let jobs : List Job := []
  let queryParams : QueryParams := [("embed", ["historySummary", "activeRuns"])]
  let r := client.apiGet .jobs pathJobs queryParams jobs w
  match r.1.err with
  | some err => ((none, some err), r.2)
  | none => ((some r.1.result, none), r.2)

/-- Source: `func (client *Client) UpdateJob(jobId string, job *Job) (interface{}, error)`.
The first argument stands for `json.Marshal(msg)` on the `json.RawMessage`
value `msg`, a function of the standard library. -/
def Client.UpdateJob (jsonMarshal : RawMessage → Except Error String) (client : Client World)
    (jobId : String) (job : Option Job) (w : World) : (Option Any × Option Error) × World :=
  let msg : RawMessage := ""
  let r := client.apiPut .rawMessage (pathJob jobId) [] (.job job) msg w
  match r.1.err with
  | some err =>
    match jsonMarshal r.1.result with
    | .error err2 =>
      ((none, some (.errorString
        ("JobUpdate error " ++ err.message ++ "\n\tAnd " ++ err2.message ++ "\n"))), r.2)
    | .ok bbb =>
      ((none, some (.errorString ("JobUpdate error " ++ err.message ++ "\n" ++ bbb ++ "\n"))), r.2)
  | none => ((some (.rawMessagePtr r.1.result), none), r.2)

/-- Source: `func (client *Client) Runs(jobId string, since int64) (*Job, error)`. -/
def Client.Runs (client : Client World) (jobId : String) (since : Int) (w : World) :
    (Option Job × Option Error) × World :=
  let queryParams : QueryParams :=
    [("_timestamp", [formatInt since]),
     ("embed", ["history", "historySummary", "activeRuns", "schedules"])]
  let r := client.apiGet .job (pathJob jobId) queryParams Job.zero w
  match r.1.err with
  | some err => ((none, some err), r.2)
  | none => ((some r.1.result, none), r.2)

/-- Source: `func (client *Client) RunLs(jobId string) (*[]JobStatus, error)`. -/
def Client.RunLs (client : Client World) (jobId : String) (w : World) :
    (Option (List JobStatus) × Option Error) × World :=
  let jobs : List JobStatus := []
  let r := client.apiGet .jobStatuses (pathRuns jobId) [] jobs w
  match r.1.err with
  | some err => ((none, some err), r.2)
  | none => ((some r.1.result, none), r.2)

/-- Source: `func (client *Client) StartJob(jobId string) (interface{}, error)`. -/
def Client.StartJob (client : Client World) (jobId : String) (w : World) :
    (Option Any × Option Error) × World :=
  let r := client.apiPost .jobStatus (pathRuns jobId) [] (.string jobId) JobStatus.zero w
  match r.1.err with
  | some err => ((none, some err), r.2)
  | none => ((some (.jobStatus r.1.result), none), r.2)

/-- Source: `func (client *Client) StatusJob(jobId string, runId string) (*JobStatus, error)`. -/
def Client.StatusJob (client : Client World) (jobId runId : String) (w : World) :
    (Option JobStatus × Option Error) × World :=
  let r := client.apiGet .jobStatus (pathRun jobId runId) [] JobStatus.zero w
  match r.1.err with
  | some err => ((none, some err), r.2)
  | none => ((some r.1.result, none), r.2)

/-- Source: `func (client *Client) StopJob(jobId string, runId string) (interface{}, error)`. -/
def Client.StopJob (client : Client World) (jobId runId : String) (w : World) :
    (Option Any × Option Error) × World :=
  let msg : RawMessage := ""
  let r := client.apiPost .rawMessage (pathRunStop jobId runId) [] (.string jobId) msg w
  match r.1.err with
  | some err => ((none, some err), r.2)
  | none => ((some (.rawMessage r.1.result), none), r.2)

/-- Source: `func (client *Client) CreateSchedule(jobId string, sched *Schedule) (interface{}, error)`
(the debug log line is not modelled). -/
def Client.CreateSchedule (client : Client World) (jobId : String) (sched : Option Schedule)
    (w : World) : (Option Any × Option Error) × World :=
  let r := client.apiPost .schedule (pathSchedules jobId) [] (.schedule sched) Schedule.zero w
  match r.1.err with
  | some err => ((none, some err), r.2)
  | none => ((some (.schedule r.1.result), none), r.2)

/-- Source: `func (client *Client) GetSchedule(jobId string, schedId string) (*Schedule, error)`
(the line printed on success is not modelled). -/
def Client.GetSchedule (client : Client World) (jobId schedId : String) (w : World) :
    (Option Schedule × Option Error) × World :=
  let r := client.apiGet .schedule (pathSchedule jobId schedId) [] Schedule.zero w
  match r.1.err with
  | some err => ((none, some err), r.2)
  | none => ((some r.1.result, none), r.2)

/-- Source: `func (client *Client) Schedules(jobId string) (*[]Schedule, error)`. -/
def Client.Schedules (client : Client World) (jobId : String) (w : World) :
    (Option (List Schedule) × Option Error) × World :=
  let scheds : List Schedule := []
  let r := client.apiGet .schedules (pathSchedules jobId) [] scheds w
  match r.1.err with
  | some err => ((none, some err), r.2)
  | none => ((some r.1.result, none), r.2)

/-- Source: `func (client *Client) DeleteSchedule(jobId string, schedId string) (interface{}, error)`.
The first argument stands for `http.StatusText` of the standard library. -/
def Client.DeleteSchedule (StatusText : Int → String) (client : Client World)
    (jobId schedId : String) (w : World) : (Option Any × Option Error) × World :=
  let msg : RawMessage := ""
  let r := client.apiDelete .rawMessage (pathSchedule jobId schedId) [] msg w
  match r.1.err with
  | some err => ((none, some err), r.2)
  | none =>
    if len r.1.result = 0 then ((some (.string (StatusText r.1.status)), none), r.2)
    else ((some (.rawMessage r.1.result), none), r.2)

/-- Source: `func (client *Client) UpdateSchedule(jobId string, schedId string, sched *Schedule)
(interface{}, error)`. The first argument stands for `json.Marshal(msg)`. -/
def Client.UpdateSchedule (jsonMarshal : RawMessage → Except Error String)
    (client : Client World) (jobId schedId : String) (sched : Option Schedule) (w : World) :
    (Option Any × Option Error) × World :=
  let msg : RawMessage := ""
  let r := client.apiPut .rawMessage (pathSchedule jobId schedId) [] (.schedule sched) msg w
  match r.1.err with
  | some err =>
    match jsonMarshal r.1.result with
    | .error err2 =>
      ((none, some (.errorString
        ("JobScheduleUpdate error " ++ err.message ++ "\n\tAnd " ++ err2.message ++ "\n"))), r.2)
    | .ok bbb =>
      ((none, some (.errorString
        ("JobScheduleUpdate error " ++ err.message ++ "\n\tAnd" ++ bbb ++ "\n"))), r.2)
  | none => ((some (.schedulePtr sched), none), r.2)

/-- Source: `func (client *Client) Metrics() (interface{}, error)`. -/
def Client.Metrics (client : Client World) (w : World) : (Option Any × Option Error) × World :=
  let msg : RawMessage := ""
  let r := client.apiGet .rawMessage pathMetrics [] msg w
  match r.1.err with
  | some err => ((none, some err), r.2)
  | none => ((some (.rawMessagePtr r.1.result), none), r.2)

/-- Source: `func (client *Client) Ping() (*string, error)`; `fmt.Sprintf("%s", s)` of
a string is the string. -/
def Client.Ping (client : Client World) (w : World) : (Option GoString × Option Error) × World :=
  let val : GoString := ""
  let r := client.apiGet .string pathPing [] val w
  match r.1.err with
  | some err => ((none, some err), r.2)
  | none => ((some r.1.result, none), r.2)

end operations

/-- The reply of the example client: status 200 and no error; the reply body
`body` is left in a result variable of type `json.RawMessage`, a variable of
another type is left as it is. -/
def sampleReply (body : RawMessage) : (k : ResultType) → k.type → Reply k.type
  | .rawMessage, _ => { status := 200, err := none, result := body }
  | .job, r => { status := 200, err := none, result := r }
  | .jobs, r => { status := 200, err := none, result := r }
  | .jobStatus, r => { status := 200, err := none, result := r }
  | .jobStatuses, r => { status := 200, err := none, result := r }
  | .schedule, r => { status := 200, err := none, result := r }
  | .schedules, r => { status := 200, err := none, result := r }
  | .string, r => { status := 200, err := none, result := r }

/-- A client for examples: the world is the log of the requests issued (method
and path), and every request is answered by `sampleReply`. -/
def sampleClient (body : RawMessage) : Client (List (String × String)) where
  apiGet := fun k path _ result w => (sampleReply body k result, w ++ [("GET", path)])
  apiPost := fun k path _ _ result w => (sampleReply body k result, w ++ [("POST", path)])
  apiPut := fun k path _ _ result w => (sampleReply body k result, w ++ [("PUT", path)])
  apiDelete := fun k path _ result w => (sampleReply body k result, w ++ [("DELETE", path)])

/-- A client for examples whose every request fails with the error `e` and
status 0, leaving the result variable as it is. -/
def failingClient (e : Error) : Client (List (String × String)) where
  apiGet := fun _ path _ result w =>
    ({ status := 0, err := some e, result := result }, w ++ [("GET", path)])
  apiPost := fun _ path _ _ result w =>
    ({ status := 0, err := some e, result := result }, w ++ [("POST", path)])
  apiPut := fun _ path _ _ result w =>
    ({ status := 0, err := some e, result := result }, w ++ [("PUT", path)])
  apiDelete := fun _ path _ result w =>
    ({ status := 0, err := some e, result := result }, w ++ [("DELETE", path)])

/-- A stand-in for `http.StatusText` on a few codes. -/
def sampleStatusText (code : Int) : String :=
  if code = 200 then "OK"
  else if code = 404 then "Not Found"
  else ""

/-- The error discipline of an operation built on one request primitive: when
the primitive returns an error the operation returns a nil result with that
same error, and when it returns none the operation returns the value `wrap`
makes of the decoded reply, with no error; the world after the operation is the
world after the one request. -/
def Propagates {α β World : Type} (r : Reply α × World)
    (out : (Option β × Option Error) × World) (wrap : α → β) : Prop :=
  (∀ e, r.1.err = some e → out = ((none, some e), r.2)) ∧
  (r.1.err = none → out = ((some (wrap r.1.result), none), r.2))

/-! ## encoding/json: encoding the entities

`json.Marshal` walks a value by reflection, guided by the struct tags. Here
each struct has its own encoder, written from its tags in models.go; the result
is the tree of JSON values that is then written out as text. -/

/-- The JSON value `json.Marshal` writes, before it is rendered as text: an
`int` stands for its decimal text, a `float` for the text of a finite float64,
a `string` for the quoted and escaped text, `raw` for text returned by a
`MarshalJSON` method; the members of an object are in the order written. -/
inductive Encoded where
  | null
  | bool (b : Bool)
  | int (n : Int)
  | float (x : Float64)
  | string (s : GoString)
  | raw (text : GoString)
  | array (elems : List Encoded)
  | object (members : List (GoString × Encoded))

/-- Outcome of an encoding: `none` for a run-time panic, otherwise the error
`json.Marshal` returns or the value it writes. -/
abbrev Marshaled (α : Type) := Option (Except Error α)

/-- Whether the float is an infinity. -/
def Float64.isInf (x : Float64) : Bool := x.expo == 2047 && x.frac == 0

/-- Value of `math.Inf(1)`: bit pattern 0x7FF0000000000000. -/
def Float64.posInf : Float64 := ⟨0x7FF0000000000000⟩

/-- Encoding of a `float64`: `json.Marshal` returns an `UnsupportedValueError`
for NaN and for the infinities. -/
def encodeFloat (x : Float64) : Marshaled Encoded :=
  if x.isNaN || x.isInf then some (.error .jsonError) else some (.ok (.float x))

/-- Encoding of the elements of a slice, in order, stopping at the first
element that fails. -/
def encodeList {α : Type} (enc : α → Marshaled Encoded) : List α → Marshaled (List Encoded)
  | [] => some (.ok [])
  | a :: as =>
    match enc a with
    | none => none
    | some (.error e) => some (.error e)
    | some (.ok v) =>
      match encodeList enc as with
      | none => none
      | some (.error e) => some (.error e)
      | some (.ok vs) => some (.ok (v :: vs))

/-- Encoding of a slice field. -/
def encodeSlice {α : Type} (enc : α → Marshaled Encoded) (xs : List α) : Marshaled Encoded :=
  match encodeList enc xs with
  | none => none
  | some (.error e) => some (.error e)
  | some (.ok vs) => some (.ok (.array vs))

/-- One field of a struct as the encoder meets it: the name from the tag,
whether the field is left out (the tag says `omitempty` and the value is
empty), and the encoding of its value. -/
structure FieldEnc where
  name : GoString
  omitted : Bool
  value : Marshaled Encoded

/-- Encoding of the fields of a struct, in the order of declaration: a field
left out adds nothing, and the first field whose value fails ends the
encoding. -/
def encodeFields : List FieldEnc → Marshaled (List (GoString × Encoded))
  | [] => some (.ok [])
  | f :: fs =>
    if f.omitted then encodeFields fs
    else
      match f.value with
      | none => none
      | some (.error e) => some (.error e)
      | some (.ok v) =>
        match encodeFields fs with
        | none => none
        | some (.error e) => some (.error e)
        | some (.ok ms) => some (.ok ((f.name, v) :: ms))

/-- Encoding of a struct from its fields. -/
def encodeStruct (fields : List FieldEnc) : Marshaled Encoded :=
  match encodeFields fields with
  | none => none
  | some (.error e) => some (.error e)
  | some (.ok ms) => some (.ok (.object ms))

/-- Encoding through a `MarshalJSON` method: a panic of the method, the error
it returns, or the text it returns. -/
def encodeByMethod (r : Option (GoString × Option Error)) : Marshaled Encoded :=
  match r with
  | none => none
  | some (_, some e) => some (.error e)
  | some (text, none) => some (.ok (.raw text))

/-- Source: the tags of `Artifact`. -/
def Artifact.encode (a : Artifact) : Marshaled Encoded :=
  encodeStruct
    [{ name := "uri", omitted := false, value := some (.ok (.string a.Uri_)) },
     { name := "executable", omitted := false, value := some (.ok (.bool a.Executable_)) },
     { name := "extract", omitted := false, value := some (.ok (.bool a.Extract_)) },
     { name := "cache", omitted := false, value := some (.ok (.bool a.Cache_)) }]

/-- Source: the tag of `Docker`. -/
def Docker.encode (d : Docker) : Marshaled Encoded :=
  encodeStruct [{ name := "image", omitted := false, value := some (.ok (.string d.Image_)) }]

/-- Source: the tags of `Constraint`; the operator is reached through a slice
element, so it is addressable and its `MarshalJSON` method is used. -/
def Constraint.encode (c : Constraint) : Marshaled Encoded :=
  encodeStruct
    [{ name := "attribute", omitted := false, value := some (.ok (.string c.Attribute_)) },
     { name := "operator", omitted := false,
       value := encodeByMethod (Operator.MarshalJSON c.Operator_) },
     { name := "value", omitted := false, value := some (.ok (.string c.Value_)) }]

/-- Source: the tag of `Placement`, `constraints,omitempty`. -/
def Placement.encode (p : Placement) : Marshaled Encoded :=
  encodeStruct
    [{ name := "constraints", omitted := p.Constraints_.isEmpty,
       value := encodeSlice Constraint.encode p.Constraints_ }]

/-- Source: the tags of `Volume`; `ContainerPath` has no `MarshalJSON` method in
models.go and is written as a string, `MountMode` has one. -/
def Volume.encode (v : Volume) : Marshaled Encoded :=
  encodeStruct
    [{ name := "containerPath", omitted := false, value := some (.ok (.string v.ContainerPath_)) },
     { name := "hostPath", omitted := false, value := some (.ok (.string v.HostPath_)) },
     { name := "mode", omitted := false, value := encodeByMethod (MountMode.MarshalJSON v.Mode_) }]

/-- Source: the tags of `Restart`. -/
def Restart.encode (r : Restart) : Marshaled Encoded :=
  encodeStruct
    [{ name := "activeDeadlineSeconds", omitted := false,
       value := some (.ok (.int r.ActiveDeadlineSeconds_)) },
     { name := "policy", omitted := false, value := some (.ok (.string r.Policy_)) }]

/-- Insertion of a map entry into entries sorted by key. -/
def insertSorted (e : GoString × GoString) : List (GoString × GoString) → List (GoString × GoString)
  | [] => [e]
  | x :: xs => if e.1 < x.1 then e :: x :: xs else x :: insertSorted e xs

/-- Encoding of a `map[string]string`: an object whose members are sorted by
key. -/
def encodeMap (m : List (GoString × GoString)) : Marshaled Encoded :=
  some (.ok (.object ((m.foldr insertSorted []).map (fun e => (e.1, Encoded.string e.2)))))

/-- Encoding of a pointer: `null` when it is nil, otherwise the value it points to. -/
def encodePtr {α : Type} (enc : α → Marshaled Encoded) (p : Option α) : Marshaled Encoded :=
  match p with
  | none => some (.ok .null)
  | some v => enc v

/-- Source: the tags of `Run`. -/
def Run.fields (r : Run) : List FieldEnc :=
  [{ name := "artifacts", omitted := r.Artifacts_.isEmpty,
     value := encodeSlice Artifact.encode r.Artifacts_ },
   { name := "cmd", omitted := r.Cmd_ == "", value := some (.ok (.string r.Cmd_)) },
   { name := "args", omitted := r.Args_.isEmpty,
     value := encodeSlice (fun s => some (.ok (.string s))) r.Args_ },
   { name := "cpus", omitted := false, value := encodeFloat r.Cpus_ },
   { name := "mem", omitted := false, value := some (.ok (.int r.Mem_)) },
   { name := "disk", omitted := false, value := some (.ok (.int r.Disk_)) },
   { name := "docker", omitted := r.Docker_.isNone, value := encodePtr Docker.encode r.Docker_ },
   { name := "env", omitted := r.Env_.isEmpty, value := encodeMap r.Env_ },
   { name := "maxLaunchDelay", omitted := false, value := some (.ok (.int r.MaxLaunchDelay_)) },
   { name := "placement", omitted := r.Placement_.isNone,
     value := encodePtr Placement.encode r.Placement_ },
   { name := "restart", omitted := r.Restart_.isNone,
     value := encodePtr Restart.encode r.Restart_ },
   { name := "user", omitted := r.User_ == "", value := some (.ok (.string r.User_)) },
   { name := "volumes", omitted := r.Volumes_.isEmpty,
     value := encodeSlice Volume.encode r.Volumes_ }]

/-- Go `json.Marshal` of a `Run`. -/
def Run.encode (r : Run) : Marshaled Encoded := encodeStruct r.fields

/-- Source: the tags of `Labels`. -/
def Labels.encode (l : Labels) : Marshaled Encoded :=
  encodeStruct
    [{ name := "location", omitted := false, value := some (.ok (.string l.Location)) },
     { name := "owner", omitted := false, value := some (.ok (.string l.Owner)) }]

/-- Source: the tags of `Job`: `labels` has `omitempty`, `run` has not and is
written as `null` when the pointer is nil. -/
def Job.fields (j : Job) : List FieldEnc :=
  [{ name := "description", omitted := false, value := some (.ok (.string j.Description_)) },
   { name := "id", omitted := false, value := some (.ok (.string j.ID_)) },
   { name := "labels", omitted := j.Labels_.isNone, value := encodePtr Labels.encode j.Labels_ },
   { name := "run", omitted := false, value := encodePtr Run.encode j.Run_ }]

/-- Go `json.Marshal` of a `Job`. -/
def Job.encode (j : Job) : Marshaled Encoded := encodeStruct j.fields

/-- The keys of an encoded object, in the order written; no keys for a value
that is not an object. -/
def Encoded.keys : Encoded → List GoString
  | .object members => members.map (fun m => m.1)
  | _ => []

/-- The zero value of `Run`. -/
def Run.zero : Run :=
  { Artifacts_ := [], Cmd_ := "", Args_ := [], Cpus_ := ⟨0⟩, Mem_ := 0, Disk_ := 0,
    Docker_ := none, Env_ := [], MaxLaunchDelay_ := 0, Placement_ := none, Restart_ := none,
    User_ := "", Volumes_ := [] }

/-- A Run for examples: the command "nuke", cpus 1.5, mem 128, disk 32, and
every other field empty or absent. -/
def sampleRun : Run :=
  { Run.zero with Cmd_ := "nuke", Cpus_ := Float64.onePointFive, Mem_ := 128, Disk_ := 32 }

/-! ## encoding/json: decoding the entities

`json.Unmarshal` checks the syntax of the whole input, then walks it and fills
the target by reflection. Here the input is a JSON value already parsed, each
node keeping the text it was written as where a decoder needs it, and each
struct has its own decoder, written from its tags in models.go. -/

/-- A JSON value of the input. A number keeps its literal and what
`strconv.ParseFloat` makes of it (`none` when that fails); a string keeps its
literal, quotes included; an array and an object keep their source text, which
is what an `UnmarshalJSON` method receives. The keys of an object are decoded. -/
inductive JSON where
  | null
  | bool (b : Bool)
  | number (lit : GoString) (asFloat : Option Float64)
  | string (lit : GoString)
  | array (raw : GoString) (elems : List JSON)
  | object (raw : GoString) (members : List (GoString × JSON))

/-- The source text of a value, as handed to an `UnmarshalJSON` method. -/
def JSON.raw : JSON → GoString
  | .null => "null"
  | .bool true => "true"
  | .bool false => "false"
  | .number lit _ => lit
  | .string lit => lit
  | .array raw _ => raw
  | .object raw _ => raw

/-- The text of a JSON string literal: the literal starts and ends with a
double quote, with no space around. -/
def jsonUnquote (lit : GoString) : Option GoString :=
  match lit.data with
  | [] => none
  | c :: rest =>
    if c = quoteChar then
      match unquoteBody 0 rest with
      | some (out, []) => some (String.mk out)
      | _ => none
    else none

/-- Case folding of one character of a key, `foldRune` of encoding/json: a
lower-case ASCII letter becomes upper-case, and the two letters outside ASCII
that fold to an ASCII letter, the long s and the Kelvin sign, become `S` and
`K`. -/
def foldChar (c : Char) : Char :=
  if 'a' ≤ c ∧ c ≤ 'z' then Char.ofNat (c.toNat - 32)
  else if c = Char.ofNat 0x17F then 'S'
  else if c = Char.ofNat 0x212A then 'K'
  else c

/-- Whether an object key selects the field with the given name: the names are
equal, or equal after case folding. -/
def matchKey (name key : GoString) : Bool :=
  key == name || key.data.map foldChar == name.data.map foldChar

/-- State of a decoding that goes on: the value so far and the first type
mismatch met, which `json.Unmarshal` reports at the end. An `Except.error` is
an error that stops the decoding at once (one returned by an `UnmarshalJSON`
method, or a literal that cannot be read). -/
abbrev Decoding (α : Type) := Except Error (α × Option Error)

/-- The first of two recorded errors. -/
def keepFirst (saved new : Option Error) : Option Error :=
  match saved with
  | some e => some e
  | none => new

/-- Decoding into a `string`: `null` leaves it, a string sets it, any other
value is a type mismatch. -/
def decodeString (old : GoString) : JSON → Decoding GoString
  | .null => .ok (old, none)
  | .string lit =>
    match jsonUnquote lit with
    | some s => .ok (s, none)
    | none => .error .jsonError
  | _ => .ok (old, some .jsonError)

/-- Decoding into a `bool`. -/
def decodeBool (old : Bool) : JSON → Decoding Bool
  | .null => .ok (old, none)
  | .bool b => .ok (b, none)
  | _ => .ok (old, some .jsonError)

/-- Decoding into an `int`: the literal goes through `strconv.ParseInt`, and a
literal that is not an integer of the range is a type mismatch. -/
def decodeInt (old : Int) : JSON → Decoding Int
  | .null => .ok (old, none)
  | .number lit _ =>
    match Atoi lit with
    | .ok n => .ok (n, none)
    | .error _ => .ok (old, some .jsonError)
  | _ => .ok (old, some .jsonError)

/-- Decoding into a `float64`. -/
def decodeFloat (old : Float64) : JSON → Decoding Float64
  | .null => .ok (old, none)
  | .number _ (some x) => .ok (x, none)
  | _ => .ok (old, some .jsonError)

/-- Decoding of the members of an object into a struct, one after the other;
`field` decodes one member into the struct. -/
def decodeMembers {α : Type} (field : α → GoString → JSON → Decoding α) :
    α → Option Error → List (GoString × JSON) → Decoding α
  | v, saved, [] => .ok (v, saved)
  | v, saved, m :: ms =>
    match field v m.1 m.2 with
    | .error e => .error e
    | .ok (v1, s1) => decodeMembers field v1 (keepFirst saved s1) ms

/-- Decoding into a struct: `null` leaves it, an object fills it, any other
value is a type mismatch. -/
def decodeStruct {α : Type} (field : α → GoString → JSON → Decoding α) (old : α) :
    JSON → Decoding α
  | .null => .ok (old, none)
  | .object _ members => decodeMembers field old none members
  | _ => .ok (old, some .jsonError)

/-- Decoding into a pointer to a struct: `null` sets it to nil; for any other
value a nil pointer is first given a fresh zero struct. -/
def decodePtr {α : Type} (field : α → GoString → JSON → Decoding α) (zero : α)
    (old : Option α) : JSON → Decoding (Option α)
  | .null => .ok (none, none)
  | .object _ members =>
    match decodeMembers field (old.getD zero) none members with
    | .error e => .error e
    | .ok (v, s) => .ok (some v, s)
  | _ => .ok (some (old.getD zero), some .jsonError)

/-- Decoding of the elements of an array into a slice: element `i` is decoded
into the element the slice already has at `i`, or into a zero value. -/
def decodeElems {α : Type} (elem : α → JSON → Decoding α) (zero : α) :
    List α → Option Error → List JSON → Decoding (List α)
  | _, saved, [] => .ok ([], saved)
  | old, saved, j :: js =>
    match elem (old.headD zero) j with
    | .error e => .error e
    | .ok (v, s) =>
      match decodeElems elem zero old.tail (keepFirst saved s) js with
      | .error e => .error e
      | .ok (vs, s1) => .ok (v :: vs, s1)

/-- Decoding into a slice: `null` sets it to nil, an array replaces it, any
other value is a type mismatch. -/
def decodeSlice {α : Type} (elem : α → JSON → Decoding α) (zero : α) (old : List α) :
    JSON → Decoding (List α)
  | .null => .ok ([], none)
  | .array _ elems => decodeElems elem zero old none elems
  | _ => .ok (old, some .jsonError)

/-- Setting of a key in a map. -/
def mapSet (k v : GoString) : List (GoString × GoString) → List (GoString × GoString)
  | [] => [(k, v)]
  | e :: es => if e.1 = k then (k, v) :: es else e :: mapSet k v es

/-- Decoding of the members of an object into a `map[string]string`: each
value is decoded into a fresh string and stored under its key. -/
def decodeEntries :
    List (GoString × GoString) → Option Error → List (GoString × JSON) →
      Decoding (List (GoString × GoString))
  | m, saved, [] => .ok (m, saved)
  | m, saved, e :: es =>
    match decodeString "" e.2 with
    | .error err => .error err
    | .ok (v, s) => decodeEntries (mapSet e.1 v m) (keepFirst saved s) es

/-- Decoding into a `map[string]string`: `null` sets it to nil, an object adds
its members to the map, any other value is a type mismatch. -/
def decodeMap (old : List (GoString × GoString)) : JSON → Decoding (List (GoString × GoString))
  | .null => .ok ([], none)
  | .object _ members => decodeEntries old none members
  | _ => .ok (old, some .jsonError)

/-- Decoding through an `UnmarshalJSON` method, which is called for every
value, `null` included; its error stops the decoding. -/
def decodeByMethod {α : Type} (r : α × Option Error) : Decoding α :=
  match r.2 with
  | some e => .error e
  | none => .ok (r.1, none)

/-- Keeps the struct and records nothing: a member whose key selects no field
is skipped. -/
def skipMember {α : Type} (v : α) : Decoding α := .ok (v, none)

/-- Stores a decoded field value into the struct. -/
def store {α β : Type} (d : Decoding β) (set : β → α) : Decoding α :=
  match d with
  | .error e => .error e
  | .ok (b, s) => .ok (set b, s)

/-- Source: the tags of `Artifact`. -/
def Artifact.field (a : Artifact) (key : GoString) (j : JSON) : Decoding Artifact :=
  if matchKey "uri" key then store (decodeString a.Uri_ j) (fun x => { a with Uri_ := x })
  else if matchKey "executable" key then
    store (decodeBool a.Executable_ j) (fun x => { a with Executable_ := x })
  else if matchKey "extract" key then
    store (decodeBool a.Extract_ j) (fun x => { a with Extract_ := x })
  else if matchKey "cache" key then store (decodeBool a.Cache_ j) (fun x => { a with Cache_ := x })
  else skipMember a

/-- Source: the tag of `Docker`. -/
def Docker.field (d : Docker) (key : GoString) (j : JSON) : Decoding Docker :=
  if matchKey "image" key then store (decodeString d.Image_ j) (fun x => { d with Image_ := x })
  else skipMember d

/-- Source: the tags of `Constraint`; the operator is decoded by
`Operator.UnmarshalJSON`. -/
def Constraint.field (c : Constraint) (key : GoString) (j : JSON) : Decoding Constraint :=
  if matchKey "attribute" key then
    store (decodeString c.Attribute_ j) (fun x => { c with Attribute_ := x })
  else if matchKey "operator" key then
    store (decodeByMethod (Operator.UnmarshalJSON c.Operator_ j.raw))
      (fun x => { c with Operator_ := x })
  else if matchKey "value" key then
    store (decodeString c.Value_ j) (fun x => { c with Value_ := x })
  else skipMember c

/-- The zero value of `Constraint`. -/
def Constraint.zero : Constraint := { Attribute_ := "", Operator_ := 0, Value_ := "" }

/-- Source: the tag of `Placement`. -/
def Placement.field (p : Placement) (key : GoString) (j : JSON) : Decoding Placement :=
  if matchKey "constraints" key then
    store (decodeSlice (decodeStruct Constraint.field) Constraint.zero p.Constraints_ j)
      (fun x => { p with Constraints_ := x })
  else skipMember p

/-- Source: the tags of `Volume`; the container path and the mode are decoded
by their `UnmarshalJSON` methods. -/
def Volume.field (v : Volume) (key : GoString) (j : JSON) : Decoding Volume :=
  if matchKey "containerPath" key then
    store (decodeByMethod (ContainerPath.UnmarshalJSON v.ContainerPath_ j.raw))
      (fun x => { v with ContainerPath_ := x })
  else if matchKey "hostPath" key then
    store (decodeString v.HostPath_ j) (fun x => { v with HostPath_ := x })
  else if matchKey "mode" key then
    store (decodeByMethod (MountMode.UnmarshalJSON v.Mode_ j.raw)) (fun x => { v with Mode_ := x })
  else skipMember v

/-- The zero value of `Volume`. -/
def Volume.zero : Volume := { ContainerPath_ := "", HostPath_ := "", Mode_ := 0 }

/-- Source: the tags of `Restart`. -/
def Restart.field (r : Restart) (key : GoString) (j : JSON) : Decoding Restart :=
  if matchKey "activeDeadlineSeconds" key then
    store (decodeInt r.ActiveDeadlineSeconds_ j) (fun x => { r with ActiveDeadlineSeconds_ := x })
  else if matchKey "policy" key then
    store (decodeString r.Policy_ j) (fun x => { r with Policy_ := x })
  else skipMember r

/-- Source: the tags of `Run`. -/
def Run.field (r : Run) (key : GoString) (j : JSON) : Decoding Run :=
  if matchKey "artifacts" key then
    store (decodeSlice (decodeStruct Artifact.field) ⟨"", false, false, false⟩ r.Artifacts_ j)
      (fun x => { r with Artifacts_ := x })
  else if matchKey "cmd" key then store (decodeString r.Cmd_ j) (fun x => { r with Cmd_ := x })
  else if matchKey "args" key then
    store (decodeSlice decodeString "" r.Args_ j) (fun x => { r with Args_ := x })
  else if matchKey "cpus" key then store (decodeFloat r.Cpus_ j) (fun x => { r with Cpus_ := x })
  else if matchKey "mem" key then store (decodeInt r.Mem_ j) (fun x => { r with Mem_ := x })
  else if matchKey "disk" key then store (decodeInt r.Disk_ j) (fun x => { r with Disk_ := x })
  else if matchKey "docker" key then
    store (decodePtr Docker.field ⟨""⟩ r.Docker_ j) (fun x => { r with Docker_ := x })
  else if matchKey "env" key then store (decodeMap r.Env_ j) (fun x => { r with Env_ := x })
  else if matchKey "maxLaunchDelay" key then
    store (decodeInt r.MaxLaunchDelay_ j) (fun x => { r with MaxLaunchDelay_ := x })
  else if matchKey "placement" key then
    store (decodePtr Placement.field ⟨[]⟩ r.Placement_ j) (fun x => { r with Placement_ := x })
  else if matchKey "restart" key then
    store (decodePtr Restart.field ⟨0, ""⟩ r.Restart_ j) (fun x => { r with Restart_ := x })
  else if matchKey "user" key then store (decodeString r.User_ j) (fun x => { r with User_ := x })
  else if matchKey "volumes" key then
    store (decodeSlice (decodeStruct Volume.field) Volume.zero r.Volumes_ j)
      (fun x => { r with Volumes_ := x })
  else skipMember r

/-- Source: the tags of `Labels`. -/
def Labels.field (l : Labels) (key : GoString) (j : JSON) : Decoding Labels :=
  if matchKey "location" key then
    store (decodeString l.Location j) (fun x => { l with Location := x })
  else if matchKey "owner" key then store (decodeString l.Owner j) (fun x => { l with Owner := x })
  else skipMember l

/-- Source: the tags of `Job`. -/
def Job.field (job : Job) (key : GoString) (j : JSON) : Decoding Job :=
  if matchKey "description" key then
    store (decodeString job.Description_ j) (fun x => { job with Description_ := x })
  else if matchKey "id" key then store (decodeString job.ID_ j) (fun x => { job with ID_ := x })
  else if matchKey "labels" key then
    store (decodePtr Labels.field ⟨"", ""⟩ job.Labels_ j) (fun x => { job with Labels_ := x })
  else if matchKey "run" key then
    store (decodePtr Run.field Run.zero job.Run_ j) (fun x => { job with Run_ := x })
  else skipMember job

/-- Go `json.Unmarshal(payload, &job)` for a `Job` variable holding the zero
value: the decoded Job, or the error returned (the error that stopped the
decoding, or else the first type mismatch). What the variable holds after an
error is not modelled. -/
def jsonUnmarshalJob (payload : JSON) : Except Error Job :=
  match decodeStruct Job.field Job.zero payload with
  | .error e => .error e
  | .ok (_, some e) => .error e
  | .ok (job, none) => .ok job

/-- The keys of a Run object that `C14` takes as absent. -/
def optionalRunKeys : List GoString :=
  ["docker", "placement", "restart", "volumes", "artifacts", "args"]

/-- Whether an object key selects none of the optional fields of `Run`. -/
def notOptionalRunKey (key : GoString) : Bool :=
  optionalRunKeys.all (fun name => !matchKey name key)

/-- Whether, in a Job payload, every value given for `run` that is an object
has none of the optional keys. -/
def runLacksOptionalKeys : JSON → Bool
  | .object _ members =>
    members.all (fun m =>
      !matchKey "run" m.1 ||
        match m.2 with
        | .object _ ms => ms.all (fun e => notOptionalRunKey e.1)
        | _ => true)
  | _ => true

/-- Whether, in a Job payload, every value given under the key `run` that is an
object has none of the optional keys, the keys compared letter for letter. -/
def runHasNoOptionalKey : JSON → Bool
  | .object _ members =>
    members.all (fun m =>
      !(m.1 == "run") ||
        match m.2 with
        | .object _ ms => ms.all (fun e => !optionalRunKeys.contains e.1)
        | _ => true)
  | _ => true

/-- The optional fields of a Run that `C14` speaks of: docker, placement,
restart, volumes, artifacts and args. -/
def Run.optionals (r : Run) :
    Option Docker × Option Placement × Option Restart × List Volume × List Artifact ×
      List GoString :=
  (r.Docker_, r.Placement_, r.Restart_, r.Volumes_, r.Artifacts_, r.Args_)

/-! ## Texts within texts -/

/-- Whether the second list of characters stands at the head of the first. -/
def startsWithChars : List Char → List Char → Bool
  | _, [] => true
  | [], _ :: _ => false
  | c :: cs, d :: ds => c == d && startsWithChars cs ds

/-- Whether the second list of characters stands somewhere in the first. -/
def containsChars : List Char → List Char → Bool
  | [], sub => sub.isEmpty
  | c :: cs, sub => startsWithChars (c :: cs) sub || containsChars cs sub

/-- Go `strings.Contains(msg, s)`: whether the text `s` occurs in `msg`. -/
def containsText (msg s : String) : Bool := containsChars msg.data s.data

/-! ## Setters and getters of Run and Job

A setter writes one field through its receiver and returns the receiver; its
result here is the entity after the call, which is also what the returned
pointer designates. -/

/-- Source: `func (self *Run) SetArtifacts(artifacts []Artifact) *Run`. -/
def Run.SetArtifacts (self : Run) (artifacts : List Artifact) : Run :=
  { self with Artifacts_ := artifacts }

/-- Source: `func (self *Run) SetCmd(cmd string) *Run`. -/
def Run.SetCmd (self : Run) (cmd : GoString) : Run := { self with Cmd_ := cmd }

/-- Source: `func (self *Run) AddArg(item string)`. -/
def Run.AddArg (self : Run) (item : GoString) : Run := { self with Args_ := self.Args_ ++ [item] }

/-- Source: `func (self *Run) SetArgs(newargs [] string) *Run`. -/
def Run.SetArgs (self : Run) (newargs : List GoString) : Run := { self with Args_ := newargs }

/-- Source: `func (self *Run) SetCpus(p float64) *Run`. -/
def Run.SetCpus (self : Run) (p : Float64) : Run := { self with Cpus_ := p }

/-- Source: `func (self *Run) SetMem(p int) *Run`. -/
def Run.SetMem (self : Run) (p : Int) : Run := { self with Mem_ := p }

/-- Source: `func (self *Run) SetDisk(p int) *Run`. -/
def Run.SetDisk (self : Run) (p : Int) : Run := { self with Disk_ := p }

/-- Source: `func (self *Run) SetDocker(docker *Docker) *Run`. -/
def Run.SetDocker (self : Run) (docker : Option Docker) : Run := { self with Docker_ := docker }

/-- Source: `func (self *Run) SetEnv(mp map[string]string) *Run`. -/
def Run.SetEnv (self : Run) (mp : List (GoString × GoString)) : Run := { self with Env_ := mp }

/-- Source: `func (self *Run) SetMaxLaunchDelay(p int) *Run`. -/
def Run.SetMaxLaunchDelay (self : Run) (p : Int) : Run := { self with MaxLaunchDelay_ := p }

/-- Source: `func (self *Run) SetPlacement(p *Placement) *Run`. -/
def Run.SetPlacement (self : Run) (p : Option Placement) : Run := { self with Placement_ := p }

/-- Source: `func (self *Run) SetRestart(restart *Restart) *Run`. -/
def Run.SetRestart (self : Run) (restart : Option Restart) : Run :=
  { self with Restart_ := restart }

/-- Source: `func (self *Run) SetUser(user string) *Run`. -/
def Run.SetUser (self : Run) (user : GoString) : Run := { self with User_ := user }

/-- Source: `func (self *Run) SetVolumes(vols []Volume) *Run`. -/
def Run.SetVolumes (self : Run) (vols : List Volume) : Run := { self with Volumes_ := vols }

/-- Source: `func (self *Run) Artifacts() []Artifact`. -/
def Run.Artifacts (self : Run) : List Artifact := self.Artifacts_

/-- Source: `func (self *Run) Cmd() string`. -/
def Run.Cmd (self : Run) : GoString := self.Cmd_

/-- Source: `func (self *Run) Args() *[]string`, the list the pointer designates. -/
def Run.Args (self : Run) : List GoString := self.Args_

/-- Source: `func (self *Run) Env() map[string]string`. -/
def Run.Env (self : Run) : List (GoString × GoString) := self.Env_

/-- Source: `func (self *Run) MaxLaunchDelay() int`. -/
def Run.MaxLaunchDelay (self : Run) : Int := self.MaxLaunchDelay_

/-- Source: `func (self *Run) User() string`. -/
def Run.User (self : Run) : GoString := self.User_

/-- Source: `func (self *Run) Volumes() *[]Volume`, the list the pointer designates. -/
def Run.Volumes (self : Run) : List Volume := self.Volumes_

/-- Source: `func (self *Run) Docker() *Docker`. -/
def Run.Docker (self : Run) : Option Docker := self.Docker_

/-- Source: `func (self *Run) Placement() *Placement`. -/
def Run.Placement (self : Run) : Option Placement := self.Placement_

/-- Source: `func (self *Run) Restart() *Restart`. -/
def Run.Restart (self : Run) : Option Restart := self.Restart_

/-- Source: `func (self *Job) SetDescription(desc string) *Job`. -/
def Job.SetDescription (self : Job) (desc : GoString) : Job := { self with Description_ := desc }

/-- Source: `func (self *Job) SetRun(run *Run) *Job`. -/
def Job.SetRun (self : Job) (run : Option metronome.Run) : Job := { self with Run_ := run }

/-- Source: `func (self *Job) SetLabel(label Labels) *Job`, which stores the
address of its copy of the argument. -/
def Job.SetLabel (self : Job) (label : metronome.Labels) : Job :=
  { self with Labels_ := some label }

/-- The value of decimal digits, read from the left, as `Atoi` computes it. -/
def digitsValue (ds : List Char) : Nat := ds.foldl (fun acc c => acc * 10 + (c.toNat - 48)) 0

/-- The pieces of a text between its spaces, one more than there are spaces. -/
def splitSpace : List Char → List (List Char)
  | [] => [[]]
  | c :: cs =>
    if c = ' ' then [] :: splitSpace cs
    else
      match splitSpace cs with
      | [] => [[c]]
      | seg :: segs => (c :: seg) :: segs

/-- The fields of a recurrence expression: the pieces of the text between its
spaces. -/
def cronFields (s : String) : List String := (splitSpace s.data).map String.mk

/-- A request as a recording client logs it: the method, the path and the
query parameters. -/
structure Request where
  method : String
  path : String
  queryParams : QueryParams
  deriving DecidableEq, Repr

/-- A client that records: the world is the list of the requests issued so
far, each primitive adds its request at the end, and `answer` gives the reply
to a request from the result variable. -/
def recordingClient (answer : (k : ResultType) → Request → k.type → Reply k.type) :
    Client (List Request) where
  apiGet := fun k path q result w =>
    (answer k ⟨"GET", path, q⟩ result, w ++ [⟨"GET", path, q⟩])
  apiPost := fun k path q _ result w =>
    (answer k ⟨"POST", path, q⟩ result, w ++ [⟨"POST", path, q⟩])
  apiPut := fun k path q _ result w =>
    (answer k ⟨"PUT", path, q⟩ result, w ++ [⟨"PUT", path, q⟩])
  apiDelete := fun k path q result w =>
    (answer k ⟨"DELETE", path, q⟩ result, w ++ [⟨"DELETE", path, q⟩])

/-! ## Job payloads

The payloads that decode without error: the values found under the keys of
`Job`, `Labels` and `Run` have the JSON type of their field. -/

/-- The value of the last member of an object whose key satisfies `sel`. The
decoder meets the members in order, so when several members select one field
the last one decides. -/
def lastValue (sel : GoString → Bool) : List (GoString × JSON) → Option JSON
  | [] => none
  | m :: ms =>
    match lastValue sel ms with
    | some v => some v
    | none => if sel m.1 then some m.2 else none

/-- Whether the value has the JSON type of a `string` field: `null`, or a
string whose literal can be read. -/
def JSON.fitsString : JSON → Bool
  | .null => true
  | .string lit => (jsonUnquote lit).isSome
  | _ => false

/-- Whether the value has the JSON type of an `int` field: `null`, or a number
whose literal is an integer of the range. -/
def JSON.fitsInt : JSON → Bool
  | .null => true
  | .number lit _ =>
    match Atoi lit with
    | .ok _ => true
    | .error _ => false
  | _ => false

/-- Whether the value has the JSON type of a `float64` field: `null`, or a
number that `strconv.ParseFloat` reads. -/
def JSON.fitsFloat : JSON → Bool
  | .null => true
  | .number _ (some _) => true
  | _ => false

/-- Whether the value has the JSON type of a `map[string]string` field: `null`,
or an object whose values fit a string. -/
def JSON.fitsStringMap : JSON → Bool
  | .null => true
  | .object _ entries => entries.all (fun e => e.2.fitsString)
  | _ => false

/-- Whether a member of a labels object fits the field its key selects. -/
def labelsMemberFits (key : GoString) (j : JSON) : Bool :=
  if matchKey "location" key || matchKey "owner" key then j.fitsString else true

/-- Whether the value has the JSON type of the `labels` field. -/
def JSON.fitsLabels : JSON → Bool
  | .null => true
  | .object _ members => members.all (fun m => labelsMemberFits m.1 m.2)
  | _ => false

/-- Whether a member of a run object fits the field its key selects, for the
keys cmd, cpus, mem, disk, env, maxLaunchDelay and user. -/
def runMemberFits (key : GoString) (j : JSON) : Bool :=
  if matchKey "cmd" key || matchKey "user" key then j.fitsString
  else if matchKey "cpus" key then j.fitsFloat
  else if matchKey "mem" key || matchKey "disk" key || matchKey "maxLaunchDelay" key then j.fitsInt
  else if matchKey "env" key then j.fitsStringMap
  else true

/-- Whether the value has the JSON type of the `run` field. -/
def JSON.fitsRun : JSON → Bool
  | .null => true
  | .object _ members => members.all (fun m => runMemberFits m.1 m.2)
  | _ => false

/-- Whether a member of a Job object fits the field its key selects. -/
def jobMemberFits (key : GoString) (j : JSON) : Bool :=
  if matchKey "description" key || matchKey "id" key then j.fitsString
  else if matchKey "labels" key then j.fitsLabels
  else if matchKey "run" key then j.fitsRun
  else true

/-- Whether the members of a Job object all fit the fields their keys select. -/
def isJobPayload (members : List (GoString × JSON)) : Bool :=
  members.all (fun m => jobMemberFits m.1 m.2)

/-- The members of a Job payload for examples: the second Job of the response
in jobs_test.go without its docker and restart members. -/
def sampleJobMembers : List (GoString × JSON) :=
  [("description", .string "\"Job without arguments\""),
   ("id", .string "\"job.without.arguments\""),
   ("labels", .object "\x7b\"location\":\"olympus\",\"owner\":\"zeus\"\x7d"
     [("location", .string "\"olympus\""), ("owner", .string "\"zeus\"")]),
   ("run", .object
     "\x7b\"cmd\":\"run\",\"cpus\":0.5,\"disk\":128,\"env\":\x7b\"CONNECT\":\"direct\",\"MON\":\"test\"\x7d,\"maxLaunchDelay\":3600,\"mem\":32,\"user\":\"root\"\x7d"
     [("cmd", .string "\"run\""), ("cpus", .number "0.5" (some ⟨0x3FE0000000000000⟩)),
      ("disk", .number "128" (some ⟨0x4060000000000000⟩)),
      ("env", .object "\x7b\"CONNECT\":\"direct\",\"MON\":\"test\"\x7d"
        [("CONNECT", .string "\"direct\""), ("MON", .string "\"test\"")]),
      ("maxLaunchDelay", .number "3600" (some ⟨0x40AC200000000000⟩)),
      ("mem", .number "32" (some ⟨0x4040000000000000⟩)),
      ("user", .string "\"root\"")])]

/-- The source text of the payload whose members are `sampleJobMembers`. -/
def sampleJobRaw : GoString :=
  "\x7b\"description\":\"Job without arguments\",\"id\":\"job.without.arguments\",\"labels\":\x7b\"location\":\"olympus\",\"owner\":\"zeus\"\x7d,\"run\":\x7b\"cmd\":\"run\",\"cpus\":0.5,\"disk\":128,\"env\":\x7b\"CONNECT\":\"direct\",\"MON\":\"test\"\x7d,\"maxLaunchDelay\":3600,\"mem\":32,\"user\":\"root\"\x7d\x7d"

/-! ## Shared lemmas -/

theorem len_eq_zero_iff (s : String) : len s = 0 ↔ s = "" := by
  cases s with
  | mk cs =>
    unfold len
    rw [String.utf8ByteSize_mk, String.utf8Len_eq_zero]
    constructor
    · intro h; rw [h]
    · intro h; exact congrArg String.data h

theorem len_empty : len "" = 0 := rfl

theorem regexpMatchString_err (s : String) : (regexpMatchString s).2 = none := rfl

theorem NewContainerPath_eq (path : String) : NewContainerPath path = .ok path := rfl

theorem ContainerPath_UnmarshalJSON_eq (self : ContainerPath) (raw : String) :
    ContainerPath.UnmarshalJSON self raw = (raw, none) := rfl

theorem NewVolume_eq (raw_path hostPath : String) (mode : MountMode) :
    NewVolume raw_path hostPath mode =
      if hostPath = "" then .error (required "host path")
      else .ok { ContainerPath_ := raw_path, HostPath_ := hostPath, Mode_ := mode } := rfl

/-! ## Enumerations -/

/-- C1: round-trip law of the two closed enumerations. Encoding EQ, LIKE, UNLIKE
(resp. RO, RW) yields a text that decodes, without error and whatever the
receiver held, to the same value; and decoding a quoted canonical token and
encoding the result gives back exactly that quoted token. -/
theorem enum_codec_roundtrip (self : Int) :
    (∀ x ∈ [EQ, LIKE, UNLIKE], ∃ b, Operator.MarshalJSON x = some (b, none) ∧
        Operator.UnmarshalJSON self b = (x, none)) ∧
    (∀ m ∈ [RO, RW], ∃ b, MountMode.MarshalJSON m = some (b, none) ∧
        MountMode.UnmarshalJSON self b = (m, none)) ∧
    (∀ t ∈ ["EQ", "LIKE", "UNLIKE"], ∃ v, Operator.UnmarshalJSON self (sprintfQuoted t) = (v, none) ∧
        Operator.MarshalJSON v = some (sprintfQuoted t, none)) ∧
    (∀ t ∈ ["RO", "RW"], ∃ v, MountMode.UnmarshalJSON self (sprintfQuoted t) = (v, none) ∧
        MountMode.MarshalJSON v = some (sprintfQuoted t, none)) := by
  refine ⟨?_, ?_, ?_, ?_⟩
  · intro x hx
    simp only [List.mem_cons, List.mem_singleton, List.not_mem_nil, or_false] at hx
    rcases hx with rfl | rfl | rfl
    · exact ⟨sprintfQuoted "EQ", rfl, rfl⟩
    · exact ⟨sprintfQuoted "LIKE", rfl, rfl⟩
    · exact ⟨sprintfQuoted "UNLIKE", rfl, rfl⟩
  · intro m hm
    simp only [List.mem_cons, List.mem_singleton, List.not_mem_nil, or_false] at hm
    rcases hm with rfl | rfl
    · exact ⟨sprintfQuoted "RO", rfl, rfl⟩
    · exact ⟨sprintfQuoted "RW", rfl, rfl⟩
  · intro t ht
    simp only [List.mem_cons, List.mem_singleton, List.not_mem_nil, or_false] at ht
    rcases ht with rfl | rfl | rfl
    · exact ⟨EQ, rfl, rfl⟩
    · exact ⟨LIKE, rfl, rfl⟩
    · exact ⟨UNLIKE, rfl, rfl⟩
  · intro t ht
    simp only [List.mem_cons, List.mem_singleton, List.not_mem_nil, or_false] at ht
    rcases ht with rfl | rfl
    · exact ⟨RO, rfl, rfl⟩
    · exact ⟨RW, rfl, rfl⟩

/-- C2: decoding rejects exactly the tokens outside the closed set. For a raw
input that is a JSON string with text `s`, `Operator.UnmarshalJSON` returns no
error exactly when `s` is EQ, LIKE or UNLIKE and returns `constraintViol`
exactly otherwise, `MountMode.UnmarshalJSON` likewise with RO, RW and
`mountViol`; a rejected token leaves the receiver as it was. -/
theorem enum_decode_rejects_exactly (self : Int) (raw s : String)
    (h : jsonUnmarshalString raw = .ok s) :
    ((Operator.UnmarshalJSON self raw).2 = none ↔ (s = "EQ" ∨ s = "LIKE" ∨ s = "UNLIKE")) ∧
    ((Operator.UnmarshalJSON self raw).2 = some constraintViol ↔
        ¬ (s = "EQ" ∨ s = "LIKE" ∨ s = "UNLIKE")) ∧
    (¬ (s = "EQ" ∨ s = "LIKE" ∨ s = "UNLIKE") → (Operator.UnmarshalJSON self raw).1 = self) ∧
    ((MountMode.UnmarshalJSON self raw).2 = none ↔ (s = "RO" ∨ s = "RW")) ∧
    ((MountMode.UnmarshalJSON self raw).2 = some mountViol ↔ ¬ (s = "RO" ∨ s = "RW")) ∧
    (¬ (s = "RO" ∨ s = "RW") → (MountMode.UnmarshalJSON self raw).1 = self) := by
  unfold Operator.UnmarshalJSON MountMode.UnmarshalJSON
  rw [h]
  by_cases h1 : s = "EQ"
  · subst h1; simp
  by_cases h2 : s = "LIKE"
  · subst h2; simp
  by_cases h3 : s = "UNLIKE"
  · subst h3; simp
  by_cases h4 : s = "RO"
  · subst h4; simp
  by_cases h5 : s = "RW"
  · subst h5; simp
  simp [h1, h2, h3, h4, h5]

/-- Witness for C2: the token " EQ " (surrounding blanks inside the quotes) is
a JSON string outside both closed sets, so both decoders reject it. -/
theorem enum_decode_rejects_exactly_witness :
    jsonUnmarshalString "\" EQ \"" = .ok " EQ " ∧
    (Operator.UnmarshalJSON EQ "\" EQ \"").2 = some constraintViol ∧
    (MountMode.UnmarshalJSON RO "\" EQ \"").2 = some mountViol :=
  ⟨rfl,
   (enum_decode_rejects_exactly EQ "\" EQ \"" " EQ " rfl).2.1.mpr (by decide),
   (enum_decode_rejects_exactly RO "\" EQ \"" " EQ " rfl).2.2.2.2.1.mpr (by decide)⟩

/-! ## ContainerPath -/

/-- C3: the pattern is not enforced. The paths "relative/path" and "/" do not
match `^/[^/].*$`, yet `NewContainerPath` returns each of them without error,
and `ContainerPath.UnmarshalJSON` accepts "relative/path", bare or as a JSON
string literal, returning no error. -/
theorem containerPath_pattern_not_enforced :
    matchesContainerPathPattern "relative/path" = false ∧
    matchesContainerPathPattern "/" = false ∧
    NewContainerPath "relative/path" = .ok "relative/path" ∧
    NewContainerPath "/" = .ok "/" ∧
    ContainerPath.UnmarshalJSON "" "relative/path" = ("relative/path", none) ∧
    ContainerPath.UnmarshalJSON "" "\"relative/path\"" = ("\"relative/path\"", none) := by
  refine ⟨by decide, by decide, rfl, rfl, rfl, rfl⟩

/-- C4: for every path `p` matching `^/[^/].*$`, `NewContainerPath p` succeeds
and `String()` of the returned path is exactly `p`. -/
theorem NewContainerPath_of_match (p : String) (h : matchesContainerPathPattern p = true) :
    ∃ cp, NewContainerPath p = .ok cp ∧ ContainerPath.String cp = p :=
  ⟨p, NewContainerPath_eq p, rfl⟩

/-- Witness for C4: the path "/mnt/test". -/
theorem NewContainerPath_of_match_witness :
    matchesContainerPathPattern "/mnt/test" = true ∧
    ∃ cp, NewContainerPath "/mnt/test" = .ok cp ∧ ContainerPath.String cp = "/mnt/test" :=
  ⟨by decide, NewContainerPath_of_match "/mnt/test" (by decide)⟩

/-- C5: decoding keeps the JSON quotes. The JSON string literal of "/mnt/test"
(which `encoding/json` decodes to the text "/mnt/test") is stored by
`ContainerPath.UnmarshalJSON` as it stands, quotes included, so the decoded
path differs from "/mnt/test". -/
theorem containerPath_decode_keeps_quotes :
    jsonUnmarshalString "\"/mnt/test\"" = .ok "/mnt/test" ∧
    ContainerPath.UnmarshalJSON "" "\"/mnt/test\"" = ("\"/mnt/test\"", none) ∧
    (ContainerPath.UnmarshalJSON "" "\"/mnt/test\"").1 ≠ "/mnt/test" := by
  refine ⟨rfl, rfl, by decide⟩

/-! ## Run -/

theorem NewRun_failed_iff (cpus : Float64) (mem disk : Int) :
    failed (NewRun cpus mem disk) = true ↔ (mem ≤ 0 ∨ disk ≤ 0 ∨ cpus.leZero = true) := by
  unfold NewRun
  by_cases hm : mem ≤ 0
  · simp [hm, failed]
  by_cases hd : disk ≤ 0
  · simp [hm, hd, failed]
  by_cases hc : cpus.leZero = true
  · simp [hm, hd, hc, failed]
  · simp [hm, hd, hc, failed]

theorem Float64.leZero_eq_not_gtZero (x : Float64) (h : x.isNaN = false) :
    x.leZero = !x.gtZero := by
  unfold Float64.leZero Float64.gtZero
  rw [h]
  have hs : x.sign = 0 ∨ x.sign = 1 := by unfold Float64.sign; omega
  rcases hs with hs | hs <;> simp [hs]

/-- For every `cpus` that is a number (not NaN), `NewRun` fails exactly when one
of the three quantities is not strictly positive, and otherwise returns a Run
holding the three quantities. -/
theorem NewRun_of_number (cpus : Float64) (mem disk : Int) (h : cpus.isNaN = false) :
    (failed (NewRun cpus mem disk) = true ↔ ¬ (cpus.gtZero = true ∧ 0 < mem ∧ 0 < disk)) ∧
    ((cpus.gtZero = true ∧ 0 < mem ∧ 0 < disk) →
      ∃ r, NewRun cpus mem disk = .ok r ∧ r.Cpus = cpus ∧ r.Mem = mem ∧ r.Disk = disk) := by
  have hle := Float64.leZero_eq_not_gtZero cpus h
  constructor
  · rw [NewRun_failed_iff, hle]
    cases cpus.gtZero
    · simp
    · simp; omega
  · rintro ⟨hc, hm, hd⟩
    have hm' : ¬ mem ≤ 0 := by omega
    have hd' : ¬ disk ≤ 0 := by omega
    have hc' : cpus.leZero = false := by rw [hle, hc]; rfl
    unfold NewRun
    simp [hm', hd', hc', Run.Cpus, Run.Mem, Run.Disk]

/-- C6: at `cpus = math.NaN()`, `mem = 1`, `disk = 1` the constructor does not
fail although `cpus` is not strictly positive: the guard `cpus <= 0.0` is false
for NaN, and the returned Run holds the NaN. -/
theorem NewRun_accepts_NaN :
    Float64.gtZero Float64.NaN = false ∧
    failed (NewRun Float64.NaN 1 1) = false ∧
    ∃ r, NewRun Float64.NaN 1 1 = .ok r ∧ r.Cpus = Float64.NaN ∧ r.Cpus.gtZero = false := by
  refine ⟨by decide, by decide, ?_⟩
  exact ⟨_, rfl, rfl, by decide⟩

/-! ## Job -/

/-- C7: `NewJob` fails exactly when the id is empty or the run is absent, and
otherwise returns the Job made of exactly the four arguments. -/
theorem NewJob_fails_iff (id description : String) (labels : Option Labels) (run : Option Run) :
    (failed (NewJob id description labels run) = true ↔ (id = "" ∨ run = none)) ∧
    (¬ (id = "" ∨ run = none) →
      NewJob id description labels run =
        .ok { ID_ := id, Description_ := description, Labels_ := labels, Run_ := run }) := by
  unfold NewJob
  by_cases hid : id = ""
  · subst hid
    simp [failed, len_empty]
  · have hlen : ¬ len id = 0 := fun h => hid ((len_eq_zero_iff id).mp h)
    cases run with
    | none => simp [hlen, hid, failed]
    | some r => simp [hlen, hid, failed]

/-! ## Volume -/

/-- C8: `NewVolume` accepts a container path that does not match the pattern:
with the raw path "relative/path", a non-empty host path and mode RW it
returns a Volume, without error, whose container path is "relative/path". -/
theorem NewVolume_accepts_unmatched_path :
    matchesContainerPathPattern "relative/path" = false ∧
    NewVolume "relative/path" "/etc/guest" RW =
      .ok { ContainerPath_ := "relative/path", HostPath_ := "/etc/guest", Mode_ := RW } := by
  refine ⟨by decide, by decide⟩

/-- What `NewVolume` does: it fails exactly when the host path is empty, and
otherwise returns the Volume made of its three arguments. -/
theorem NewVolume_failed_iff (raw_path hostPath : String) (mode : MountMode) :
    (failed (NewVolume raw_path hostPath mode) = true ↔ hostPath = "") ∧
    (hostPath ≠ "" → NewVolume raw_path hostPath mode =
      .ok { ContainerPath_ := raw_path, HostPath_ := hostPath, Mode_ := mode }) := by
  rw [NewVolume_eq]
  by_cases hh : hostPath = ""
  · simp [hh, failed]
  · simp [hh, failed]

/-! ## Constructors with one required string -/

/-- C9: `NewDockerImage`, `NewRestart` and `NewConstraint` fail exactly when the
required string (image, policy, attribute) is empty, and otherwise return an
entity whose getters give back exactly the arguments. -/
theorem required_string_constructors (image policy attr value : String) (deadline : Int)
    (op : Operator) :
    (failed (NewDockerImage image) = true ↔ image = "") ∧
    (image ≠ "" → ∃ d, NewDockerImage image = .ok d ∧ d.Image = image) ∧
    (failed (NewRestart deadline policy) = true ↔ policy = "") ∧
    (policy ≠ "" → ∃ r, NewRestart deadline policy = .ok r ∧
        r.ActiveDeadlineSeconds = deadline ∧ r.Policy = policy) ∧
    (failed (NewConstraint attr op value) = true ↔ attr = "") ∧
    (attr ≠ "" → ∃ c, NewConstraint attr op value = .ok c ∧
        c.Attribute = attr ∧ c.Operator = op ∧ c.Value = value) := by
  have hi := len_eq_zero_iff image
  have hp := len_eq_zero_iff policy
  unfold NewDockerImage NewRestart NewConstraint
  refine ⟨?_, ?_, ?_, ?_, ?_, ?_⟩
  · by_cases h : image = ""
    · subst h; simp [len_empty, failed]
    · simp [h, mt hi.mp h, failed]
  · intro h
    simp [mt hi.mp h, Docker.Image]
  · by_cases h : policy = ""
    · subst h; simp [len_empty, failed]
    · simp [h, mt hp.mp h, failed]
  · intro h
    simp [mt hp.mp h, Restart.ActiveDeadlineSeconds, Restart.Policy]
  · by_cases h : attr = ""
    · simp [h, failed]
    · simp [h, failed]
  · intro h
    simp [h, Constraint.Attribute, Constraint.Operator, Constraint.Value]

/-! ## Operator of a Constraint -/

theorem wrapInt_of_range (x : Int) (h : -2 ^ 63 ≤ x ∧ x < 2 ^ 63) : wrapInt x = x := by
  unfold wrapInt
  norm_num at h ⊢
  omega

theorem Operator_String_none (op : Int) (h : -2 ^ 63 ≤ op ∧ op < 2 ^ 63)
    (h1 : op ≠ 1) (h2 : op ≠ 2) (h3 : op ≠ 3) : Operator.String op = none := by
  unfold Operator.String index
  by_cases hneg : 0 ≤ wrapInt (op - 1)
  · rw [if_pos hneg]
    have h3le : 3 ≤ (wrapInt (op - 1)).toNat := by
      unfold wrapInt at hneg ⊢
      norm_num at h hneg ⊢
      omega
    exact List.get?_eq_none.mpr h3le
  · rw [if_neg hneg]

/-- C10 as stated fails: `NewConstraint "rack" 0 "rack-2"` returns a Constraint
carrying the zero ordinal, and no token is produced when it is encoded, so it
is not true that every returned Constraint encodes to one of the three tokens. -/
theorem NewConstraint_operator_unchecked :
    ¬ (∀ (attr value : String) (op : Operator) (c : Constraint),
        NewConstraint attr op value = .ok c →
        ∃ t ∈ ["EQ", "LIKE", "UNLIKE"],
          Operator.MarshalJSON c.Operator = some (sprintfQuoted t, none)) := by
  intro H
  obtain ⟨t, _, ht⟩ := H "rack" "rack-2" 0
    { Attribute_ := "rack", Operator_ := 0, Value_ := "rack-2" } rfl
  have hnone : Operator.MarshalJSON
      (Constraint.Operator { Attribute_ := "rack", Operator_ := 0, Value_ := "rack-2" }) = none := rfl
  rw [hnone] at ht
  exact Option.noConfusion ht

/-- C10, amended: `NewConstraint` keeps the operator it is given, unchecked. For
a non-empty attribute it returns a Constraint carrying exactly `op`; encoding
that operator yields the quoted token "EQ", "LIKE" or "UNLIKE" when `op` is EQ,
LIKE or UNLIKE, and yields nothing (the table lookup is out of range) for every
other ordinal of the `int` range. -/
theorem NewConstraint_operator_kept (attr value : String) (op : Operator)
    (hattr : attr ≠ "") (hrange : -2 ^ 63 ≤ op ∧ op < 2 ^ 63) :
    ∃ c, NewConstraint attr op value = .ok c ∧ c.Operator = op ∧
      (op = EQ → Operator.MarshalJSON c.Operator = some (sprintfQuoted "EQ", none)) ∧
      (op = LIKE → Operator.MarshalJSON c.Operator = some (sprintfQuoted "LIKE", none)) ∧
      (op = UNLIKE → Operator.MarshalJSON c.Operator = some (sprintfQuoted "UNLIKE", none)) ∧
      (op ≠ EQ → op ≠ LIKE → op ≠ UNLIKE → Operator.MarshalJSON c.Operator = none) := by
  refine ⟨{ Attribute_ := attr, Operator_ := op, Value_ := value }, ?_, rfl, ?_, ?_, ?_, ?_⟩
  · unfold NewConstraint
    rw [if_neg hattr]
  · intro h; subst h; rfl
  · intro h; subst h; rfl
  · intro h; subst h; rfl
  · intro h1 h2 h3
    show Operator.MarshalJSON op = none
    unfold Operator.MarshalJSON
    rw [Operator_String_none op hrange h1 h2 h3]

/-- Witness for C10, amended: attribute "rack", operator EQ, value "rack-2". -/
theorem NewConstraint_operator_kept_witness :
    ∃ c, NewConstraint "rack" EQ "rack-2" = .ok c ∧ c.Operator = EQ ∧
      (EQ = EQ → Operator.MarshalJSON c.Operator = some (sprintfQuoted "EQ", none)) ∧
      (EQ = LIKE → Operator.MarshalJSON c.Operator = some (sprintfQuoted "LIKE", none)) ∧
      (EQ = UNLIKE → Operator.MarshalJSON c.Operator = some (sprintfQuoted "UNLIKE", none)) ∧
      (EQ ≠ EQ → EQ ≠ LIKE → EQ ≠ UNLIKE → Operator.MarshalJSON c.Operator = none) :=
  NewConstraint_operator_kept "rack" "rack-2" EQ (by decide) (by decide)

/-! ## Schedule translator -/

theorem ConvertIso8601ToCron_three (F : String → Option Int) (now : Time) (isoRep : String)
    (dur mid interval : String) (h : stringsSplit isoRep = [dur, mid, interval]) :
    ∃ e, ConvertIso8601ToCron F now isoRep = ("", some e) := by
  unfold ConvertIso8601ToCron
  rw [h]
  simp only
  cases repeatRegexFind dur with
  | none => exact ⟨_, rfl⟩
  | some part =>
    simp only
    cases (if part = "" then Except.ok 0 else Atoi part) with
    | error err => exact ⟨_, rfl⟩
    | ok repeatTimes =>
      simp only
      cases F interval with
      | none => exact ⟨_, rfl⟩
      | some slot =>
        simp only
        split
        · exact ⟨_, rfl⟩
        · exact ⟨_, rfl⟩

theorem ConvertIso8601ToCron_not_three (F : String → Option Int) (now : Time) (isoRep : String)
    (h : (stringsSplit isoRep).length ≠ 3) :
    ConvertIso8601ToCron F now isoRep =
      match scanNow now with
      | .error err => ("", some err)
      | .ok v => (sprintCron v, none) := by
  unfold ConvertIso8601ToCron
  split
  · rename_i heq
    rw [heq] at h
    exact absurd rfl h
  · rfl

/-- C11: the well-formed expression "R5/PT1M/PT2M" is not accepted. Whatever
the duration library answers and whatever the clock, the call returns an empty
text and an error; when the interval "PT2M" is read as two minutes the error
is "Unknown error". -/
theorem ConvertIso8601ToCron_rejects_well_formed :
    stringsSplit "R5/PT1M/PT2M" = ["R5", "PT1M", "PT2M"] ∧
    repeatRegexFind "R5" = some "5" ∧
    (∀ (F : String → Option Int) (now : Time),
      ∃ e, ConvertIso8601ToCron F now "R5/PT1M/PT2M" = ("", some e)) ∧
    (∀ now : Time, ConvertIso8601ToCron sampleFromString now "R5/PT1M/PT2M" =
      ("", some (.errorString "Unknown error"))) := by
  refine ⟨by decide, by decide, ?_, ?_⟩
  · intro F now
    exact ConvertIso8601ToCron_three F now _ "R5" "PT1M" "PT2M" (by decide)
  · intro now
    rfl

/-- C12 as stated fails: the two-segment input "R5/PT2M" is not rejected. At
the instant 2016-11-19 01:35:28 UTC the call returns a non-empty text and no
error, so it is not true that every input without exactly three segments
yields an error and an empty result. -/
theorem ConvertIso8601ToCron_accepts_two_segments :
    ¬ (∀ (F : String → Option Int) (now : Time) (isoRep : String),
        (stringsSplit isoRep).length ≠ 3 →
        (ConvertIso8601ToCron F now isoRep).2 ≠ none ∧
        (ConvertIso8601ToCron F now isoRep).1 = "") := by
  intro H
  have h := (H sampleFromString sampleNow "R5/PT2M" (by decide)).1
  exact h (by decide)

/-- C12, amended: every input of exactly three segments yields an empty text
and an error, which is "No repeat pattern" when the first segment holds no `R`;
"R0//PT2M" is such an input and fails. An input that does not split into
exactly three segments is not rejected: the call returns the text computed
from the clock with no error, or the error of reading the clock. -/
theorem ConvertIso8601ToCron_malformed (F : String → Option Int) (now : Time) (isoRep : String) :
    (∀ dur mid interval : String, stringsSplit isoRep = [dur, mid, interval] →
      (∃ e, ConvertIso8601ToCron F now isoRep = ("", some e)) ∧
      (repeatRegexFind dur = none →
        ConvertIso8601ToCron F now isoRep = ("", some (.errorString "No repeat pattern")))) ∧
    (∃ e, ConvertIso8601ToCron F now "R0//PT2M" = ("", some e)) ∧
    ((stringsSplit isoRep).length ≠ 3 →
      ConvertIso8601ToCron F now isoRep =
        match scanNow now with
        | .error err => ("", some err)
        | .ok v => (sprintCron v, none)) := by
  refine ⟨?_, ?_, ?_⟩
  · intro dur mid interval h
    refine ⟨ConvertIso8601ToCron_three F now isoRep dur mid interval h, ?_⟩
    intro hnone
    unfold ConvertIso8601ToCron
    rw [h]
    simp only
    rw [hnone]
  · exact ConvertIso8601ToCron_three F now _ "R0" "" "PT2M" (by decide)
  · exact ConvertIso8601ToCron_not_three F now isoRep

/-- C13: a three-segment input with a valid repeat segment and an interval
shorter than one minute (fewer than 60 * 10^9 nanoseconds, zero included)
yields an empty text and an error: "Too small a duration" when the repeat count
is not zero and the interval is below one nanosecond, "Unknown error" for the
other repeat counts and intervals, and the error of `Atoi` when the repeat
count does not fit an `int`. -/
theorem ConvertIso8601ToCron_short_interval (F : String → Option Int) (now : Time)
    (isoRep dur mid interval part : String) (slot : Int)
    (hsplit : stringsSplit isoRep = [dur, mid, interval])
    (hrepeat : repeatRegexFind dur = some part)
    (hdur : F interval = some slot) (hshort : slot < 60 * 10 ^ 9) :
    ∃ e, ConvertIso8601ToCron F now isoRep = ("", some e) ∧
      (∀ n, (if part = "" then Except.ok 0 else Atoi part) = .ok n →
        e = .errorString (if n ≠ 0 ∧ slot < 1 then "Too small a duration" else "Unknown error")) ∧
      (∀ err, (if part = "" then Except.ok 0 else Atoi part) = .error err → e = err) := by
  have _ := hshort
  unfold ConvertIso8601ToCron
  rw [hsplit]
  simp only
  rw [hrepeat]
  simp only
  cases (if part = "" then Except.ok 0 else Atoi part) with
  | error err =>
    refine ⟨err, rfl, ?_, ?_⟩
    · intro n hn; cases hn
    · intro e he; cases he; rfl
  | ok repeatTimes =>
    simp only
    rw [hdur]
    simp only
    by_cases hc : repeatTimes ≠ 0 ∧ slot < 1
    · rw [if_pos hc]
      refine ⟨_, rfl, ?_, ?_⟩
      · intro n hn; cases hn; rw [if_pos hc]
      · intro e he; cases he
    · rw [if_neg hc]
      refine ⟨_, rfl, ?_, ?_⟩
      · intro n hn; cases hn; rw [if_neg hc]
      · intro e he; cases he

/-- Witness for C13: "R5/PT1M/PT30S", an interval of thirty seconds. -/
theorem ConvertIso8601ToCron_short_interval_witness :
    ConvertIso8601ToCron sampleFromString sampleNow "R5/PT1M/PT30S" =
      ("", some (.errorString "Unknown error")) ∧
    ∃ e, ConvertIso8601ToCron sampleFromString sampleNow "R5/PT1M/PT30S" = ("", some e) ∧
      (∀ n, (if "5" = "" then Except.ok 0 else Atoi "5") = .ok n →
        e = .errorString (if n ≠ 0 ∧ (30000000000 : Int) < 1 then "Too small a duration"
          else "Unknown error")) ∧
      (∀ err, (if "5" = "" then Except.ok 0 else Atoi "5") = .error err → e = err) :=
  ⟨by decide,
   ConvertIso8601ToCron_short_interval sampleFromString sampleNow "R5/PT1M/PT30S" "R5" "PT1M"
    "PT30S" "5" 30000000000 (by decide) (by decide) (by decide) (by decide)⟩

/-! ## Immediate schedule -/

/-- C17: the generated id is not unique. The instants 2016-01-11 10:00:00 UTC
and 2016-11-01 10:00:00 UTC are distinct, the call succeeds at both, and the
two schedules carry the same id: month 1 with day 11 and month 11 with day 1
are both written `111`. -/
theorem ImmediateSchedule_id_collision :
    let t1 : Time :=
      { year := 2016, month := 1, day := 11, hour := 10, minute := 0, second := 0, zoneOffset := 0 }
    let t2 : Time :=
      { year := 2016, month := 11, day := 1, hour := 10, minute := 0, second := 0, zoneOffset := 0 }
    t1 ≠ t2 ∧ t1.wellFormed = true ∧ t2.wellFormed = true ∧
    ∃ s1 s2, ImmediateSchedule t1 = (some s1, none) ∧ ImmediateSchedule t2 = (some s2, none) ∧
      s1.ID = "%!s(int=2016)-1111000%!d(MISSING)" ∧ s1.ID = s2.ID := by
  refine ⟨by decide, by decide, by decide, _, _, rfl, rfl, by decide, by decide⟩

/-! ## Transport layer -/

theorem propagates_match {α β World : Type} (r : Reply α × World) (wrap : α → β) :
    Propagates r
      (match r.1.err with
        | some err => ((none, some err), r.2)
        | none => ((some (wrap r.1.result), none), r.2)) wrap := by
  unfold Propagates
  cases h : r.1.err with
  | none => simp
  | some e => simp

/-- C18: `DeleteSchedule` on the reply of its one delete request. When the
request returns an error, the result is nil with that error; when it returns
no error and an empty body, the result is the status text of the status code,
with no error; when the body is not empty, the result is that raw body, with no
error. -/
theorem DeleteSchedule_reply {World : Type} (StatusText : Int → String) (client : Client World)
    (jobId schedId : String) (w : World) :
    let r := client.apiDelete .rawMessage (pathSchedule jobId schedId) [] "" w
    (∀ e, r.1.err = some e →
      client.DeleteSchedule StatusText jobId schedId w = ((none, some e), r.2)) ∧
    (r.1.err = none → r.1.result = "" →
      client.DeleteSchedule StatusText jobId schedId w =
        ((some (.string (StatusText r.1.status)), none), r.2)) ∧
    (r.1.err = none → r.1.result ≠ "" →
      client.DeleteSchedule StatusText jobId schedId w =
        ((some (.rawMessage r.1.result), none), r.2)) := by
  unfold Client.DeleteSchedule
  simp only []
  generalize client.apiDelete ResultType.rawMessage (pathSchedule jobId schedId) [] "" w = r
  obtain ⟨⟨status, err, result⟩, w1⟩ := r
  cases err with
  | none =>
    by_cases hb : result = ""
    · subst hb; simp [len_empty]
    · have hlen : ¬ len result = 0 := fun h => hb ((len_eq_zero_iff result).mp h)
      simp [hb, hlen]
  | some e => simp

/-- The three cases of `DeleteSchedule` on example clients: an empty body with
status 200, the body `[1]`, and a failing request. -/
theorem DeleteSchedule_examples :
    (sampleClient "").DeleteSchedule sampleStatusText "j" "s" [] =
      ((some (.string "OK"), none), [("DELETE", "/v1/jobs/j/schedules/s")]) ∧
    (sampleClient "[1]").DeleteSchedule sampleStatusText "j" "s" [] =
      ((some (.rawMessage "[1]"), none), [("DELETE", "/v1/jobs/j/schedules/s")]) ∧
    (failingClient mountViol).DeleteSchedule sampleStatusText "j" "s" [] =
      ((none, some mountViol), [("DELETE", "/v1/jobs/j/schedules/s")]) := by
  refine ⟨by decide, by decide, by decide⟩

/-- C19: the update operations on the reply of their one PUT request. When the
request returns the error `e`, the result is nil and the error is a new one
whose message is built around the message of `e`: followed by the message of
the encoding error when `json.Marshal` of the reply body fails, and by the
encoded reply body otherwise. When the request returns no error, no error is
returned. -/
theorem Update_error_synthesis {World : Type} (jsonMarshal : RawMessage → Except Error String)
    (client : Client World) (jobId schedId : String) (job : Option Job)
    (sched : Option Schedule) (w : World) :
    let rj := client.apiPut .rawMessage (pathJob jobId) [] (.job job) "" w
    let rs := client.apiPut .rawMessage (pathSchedule jobId schedId) [] (.schedule sched) "" w
    (∀ e e2, rj.1.err = some e → jsonMarshal rj.1.result = .error e2 →
      client.UpdateJob jsonMarshal jobId job w =
        ((none, some (.errorString
          ("JobUpdate error " ++ e.message ++ "\n\tAnd " ++ e2.message ++ "\n"))), rj.2)) ∧
    (∀ e bbb, rj.1.err = some e → jsonMarshal rj.1.result = .ok bbb →
      client.UpdateJob jsonMarshal jobId job w =
        ((none, some (.errorString ("JobUpdate error " ++ e.message ++ "\n" ++ bbb ++ "\n"))),
          rj.2)) ∧
    (rj.1.err = none →
      client.UpdateJob jsonMarshal jobId job w = ((some (.rawMessagePtr rj.1.result), none), rj.2)) ∧
    (∀ e e2, rs.1.err = some e → jsonMarshal rs.1.result = .error e2 →
      client.UpdateSchedule jsonMarshal jobId schedId sched w =
        ((none, some (.errorString
          ("JobScheduleUpdate error " ++ e.message ++ "\n\tAnd " ++ e2.message ++ "\n"))), rs.2)) ∧
    (∀ e bbb, rs.1.err = some e → jsonMarshal rs.1.result = .ok bbb →
      client.UpdateSchedule jsonMarshal jobId schedId sched w =
        ((none, some (.errorString
          ("JobScheduleUpdate error " ++ e.message ++ "\n\tAnd" ++ bbb ++ "\n"))), rs.2)) ∧
    (rs.1.err = none →
      client.UpdateSchedule jsonMarshal jobId schedId sched w =
        ((some (.schedulePtr sched), none), rs.2)) := by
  unfold Client.UpdateJob Client.UpdateSchedule
  simp only []
  generalize client.apiPut ResultType.rawMessage (pathJob jobId) [] (PostData.job job) "" w = rj
  generalize client.apiPut ResultType.rawMessage (pathSchedule jobId schedId) []
    (PostData.schedule sched) "" w = rs
  obtain ⟨⟨sj, ej, bj⟩, wj⟩ := rj
  obtain ⟨⟨ss, es, bs⟩, ws⟩ := rs
  refine ⟨?_, ?_, ?_, ?_, ?_, ?_⟩
  · intro e e2 he hm
    simp only at he hm
    subst he
    simp only [hm]
  · intro e bbb he hm
    simp only at he hm
    subst he
    simp only [hm]
  · intro he
    simp only at he
    subst he
    rfl
  · intro e e2 he hm
    simp only at he hm
    subst he
    simp only [hm]
  · intro e bbb he hm
    simp only at he hm
    subst he
    simp only [hm]
  · intro he
    simp only at he
    subst he
    rfl

/-- The update operations on example clients: a failing request that leaves
the reply body nil, which `json.Marshal` writes as `null`; one whose reply body
does not encode; and a request that succeeds. -/
theorem Update_examples :
    (failingClient mountViol).UpdateJob (fun m => .ok (if m = "" then "null" else m)) "j" none [] =
      ((none, some (.errorString "JobUpdate error Mount point must designate RW,RO\nnull\n")),
        [("PUT", "/v1/jobs/j")]) ∧
    (failingClient mountViol).UpdateSchedule (fun _ => .error constraintViol) "j" "s" none [] =
      ((none, some (.errorString ("JobScheduleUpdate error Mount point must designate RW,RO" ++
          "\n\tAnd Bad constraint.  Must be EQ,LIKE,UNLIKE\n"))),
        [("PUT", "/v1/jobs/j/schedules/s")]) ∧
    (sampleClient "[1]").UpdateJob (fun m => .ok (if m = "" then "null" else m)) "j" none [] =
      ((some (.rawMessagePtr "[1]"), none), [("PUT", "/v1/jobs/j")]) := by
  refine ⟨by decide, by decide, by decide⟩

/-- C20 as stated fails for `DeleteSchedule`: with a client whose delete
request returns status 200, no error and an empty body, the operation returns
the text "OK" and not the decoded reply (the empty raw message). -/
theorem DeleteSchedule_not_decoded_reply :
    ¬ (∀ (World : Type) (StatusText : Int → String) (client : Client World)
        (jobId schedId : String) (w : World),
        (client.apiDelete .rawMessage (pathSchedule jobId schedId) [] "" w).1.err = none →
        (client.DeleteSchedule StatusText jobId schedId w).1 =
          (some (.rawMessage
            (client.apiDelete .rawMessage (pathSchedule jobId schedId) [] "" w).1.result),
           none)) := by
  intro H
  have h := H (List (String × String)) sampleStatusText (sampleClient "") "j" "s" [] rfl
  revert h
  decide

/-- C20, amended: no operation swallows an error. For each of the fifteen
operations, when its one request primitive returns an error the operation
returns a nil result with that same error, and when the primitive returns no
error the operation returns no error with the decoded reply (a Job value for
DeleteJob, a JobStatus value for StartJob), except that `DeleteSchedule`
returns the status text of the status code when the decoded body is empty. -/
theorem operations_propagate {World : Type} (StatusText : Int → String) (client : Client World)
    (jobId runId schedId : String) (job : Option Job) (sched : Option Schedule) (since : Int)
    (w : World) :
    Propagates (client.apiPost .job pathJobs [] (.job job) Job.zero w)
      (client.CreateJob job w) id ∧
    Propagates (client.apiDelete .job (pathJob jobId) [] Job.zero w)
      (client.DeleteJob jobId w) Any.job ∧
    Propagates (client.apiGet .job (pathJob jobId)
        [("embed", ["historySummary", "activeRuns", "schedules"])] Job.zero w)
      (client.GetJob jobId w) id ∧
    Propagates (client.apiGet .jobs pathJobs [("embed", ["historySummary", "activeRuns"])] [] w)
      (client.Jobs w) id ∧
    Propagates (client.apiGet .job (pathJob jobId)
        [("_timestamp", [formatInt since]),
         ("embed", ["history", "historySummary", "activeRuns", "schedules"])] Job.zero w)
      (client.Runs jobId since w) id ∧
    Propagates (client.apiGet .jobStatuses (pathRuns jobId) [] [] w)
      (client.RunLs jobId w) id ∧
    Propagates (client.apiPost .jobStatus (pathRuns jobId) [] (.string jobId) JobStatus.zero w)
      (client.StartJob jobId w) Any.jobStatus ∧
    Propagates (client.apiGet .jobStatus (pathRun jobId runId) [] JobStatus.zero w)
      (client.StatusJob jobId runId w) id ∧
    Propagates (client.apiPost .rawMessage (pathRunStop jobId runId) [] (.string jobId) "" w)
      (client.StopJob jobId runId w) Any.rawMessage ∧
    Propagates (client.apiPost .schedule (pathSchedules jobId) [] (.schedule sched)
        Schedule.zero w)
      (client.CreateSchedule jobId sched w) Any.schedule ∧
    Propagates (client.apiGet .schedule (pathSchedule jobId schedId) [] Schedule.zero w)
      (client.GetSchedule jobId schedId w) id ∧
    Propagates (client.apiGet .schedules (pathSchedules jobId) [] [] w)
      (client.Schedules jobId w) id ∧
    Propagates (client.apiDelete .rawMessage (pathSchedule jobId schedId) [] "" w)
      (client.DeleteSchedule StatusText jobId schedId w)
      (fun msg => if len msg = 0
        then Any.string (StatusText
          (client.apiDelete .rawMessage (pathSchedule jobId schedId) [] "" w).1.status)
        else Any.rawMessage msg) ∧
    Propagates (client.apiGet .rawMessage pathMetrics [] "" w)
      (client.Metrics w) Any.rawMessagePtr ∧
    Propagates (client.apiGet .string pathPing [] "" w)
      (client.Ping w) id := by
  refine ⟨?_, ?_, ?_, ?_, ?_, ?_, ?_, ?_, ?_, ?_, ?_, ?_, ?_, ?_, ?_⟩
  · exact propagates_match (client.apiPost .job pathJobs [] (.job job) Job.zero w) id
  · exact propagates_match (client.apiDelete .job (pathJob jobId) [] Job.zero w) Any.job
  · exact propagates_match (client.apiGet .job (pathJob jobId)
      [("embed", ["historySummary", "activeRuns", "schedules"])] Job.zero w) id
  · exact propagates_match
      (client.apiGet .jobs pathJobs [("embed", ["historySummary", "activeRuns"])] [] w) id
  · exact propagates_match (client.apiGet .job (pathJob jobId)
      [("_timestamp", [formatInt since]),
       ("embed", ["history", "historySummary", "activeRuns", "schedules"])] Job.zero w) id
  · exact propagates_match (client.apiGet .jobStatuses (pathRuns jobId) [] [] w) id
  · exact propagates_match
      (client.apiPost .jobStatus (pathRuns jobId) [] (.string jobId) JobStatus.zero w)
      Any.jobStatus
  · exact propagates_match (client.apiGet .jobStatus (pathRun jobId runId) [] JobStatus.zero w) id
  · exact propagates_match
      (client.apiPost .rawMessage (pathRunStop jobId runId) [] (.string jobId) "" w)
      Any.rawMessage
  · exact propagates_match
      (client.apiPost .schedule (pathSchedules jobId) [] (.schedule sched) Schedule.zero w)
      Any.schedule
  · exact propagates_match
      (client.apiGet .schedule (pathSchedule jobId schedId) [] Schedule.zero w) id
  · exact propagates_match (client.apiGet .schedules (pathSchedules jobId) [] [] w) id
  · unfold Client.DeleteSchedule Propagates
    simp only []
    generalize client.apiDelete ResultType.rawMessage (pathSchedule jobId schedId) [] "" w = r
    obtain ⟨⟨status, err, result⟩, w1⟩ := r
    cases err with
    | none =>
      by_cases hlen : len result = 0
      · simp [hlen]
      · simp [hlen]
    | some e => simp
  · exact propagates_match (client.apiGet .rawMessage pathMetrics [] "" w) Any.rawMessagePtr
  · exact propagates_match (client.apiGet .string pathPing [] "" w) id

/-- The operations on example clients: a failing request gives a nil result and
the request's error, a request that succeeds gives the value left in the result
variable and no error. -/
theorem operations_examples :
    (failingClient mountViol).Jobs [] = ((none, some mountViol), [("GET", "/v1/jobs")]) ∧
    (failingClient mountViol).StartJob "j" [] =
      ((none, some mountViol), [("POST", "/v1/jobs/j/runs")]) ∧
    (sampleClient "").DeleteJob "j" [] =
      ((some (.job Job.zero), none), [("DELETE", "/v1/jobs/j")]) ∧
    (sampleClient "").StartJob "j" [] =
      ((some (.jobStatus JobStatus.zero), none), [("POST", "/v1/jobs/j/runs")]) ∧
    (sampleClient "[1]").StopJob "j" "r" [] =
      ((some (.rawMessage "[1]"), none), [("POST", "/v1/jobs/j/runs/r/action/stop")]) := by
  refine ⟨by decide, by decide, by decide, by decide, by decide⟩

/-! ## Encoding -/

/-- The Run with cpus `+Inf`, mem 1, disk 1 and every optional field empty or
absent has no encoding: `json.Marshal` returns an error for an infinite or NaN
float. -/
theorem Run_encode_infinite_cpus :
    Run.encode { Run.zero with Cpus_ := Float64.posInf, Mem_ := 1, Disk_ := 1 } =
      some (.error .jsonError) := rfl

theorem Run_encode_keys (r : Run)
    (hArtifacts : r.Artifacts_ = []) (hArgs : r.Args_ = []) (hEnv : r.Env_ = [])
    (hVolumes : r.Volumes_ = []) (hDocker : r.Docker_ = none) (hPlacement : r.Placement_ = none)
    (hRestart : r.Restart_ = none) (hNaN : r.Cpus_.isNaN = false) (hInf : r.Cpus_.isInf = false) :
    ∃ obj, Run.encode r = some (.ok obj) ∧
      obj.keys = (if r.Cmd_ = "" then [] else ["cmd"]) ++ ["cpus", "mem", "disk", "maxLaunchDelay"] ++
        (if r.User_ = "" then [] else ["user"]) := by
  unfold Run.encode encodeStruct Run.fields
  by_cases hc : r.Cmd_ = "" <;> by_cases hu : r.User_ = "" <;>
    simp [hArtifacts, hArgs, hEnv, hVolumes, hDocker, hPlacement, hRestart, hNaN, hInf, hc, hu,
      encodeFields, encodeFloat, Encoded.keys]

theorem Run_encode_finite (r : Run) (hArtifacts : r.Artifacts_ = []) (hArgs : r.Args_ = [])
    (obj : Encoded) (h : Run.encode r = some (.ok obj)) :
    r.Cpus_.isNaN = false ∧ r.Cpus_.isInf = false := by
  by_cases hfin : r.Cpus_.isNaN = false ∧ r.Cpus_.isInf = false
  · exact hfin
  · exfalso
    have hbad : (r.Cpus_.isNaN || r.Cpus_.isInf) = true := by
      cases hn : r.Cpus_.isNaN <;> cases hi : r.Cpus_.isInf <;> simp [hn, hi] at hfin ⊢
    unfold Run.encode encodeStruct Run.fields at h
    by_cases hc : r.Cmd_ = "" <;>
      simp [hArtifacts, hArgs, hc, encodeFields, encodeFloat, hbad] at h

theorem Job_encode_keys (j : Job) (obj : Encoded) (hlabels : j.Labels_ = none)
    (h : Job.encode j = some (.ok obj)) : obj.keys = ["description", "id", "run"] := by
  unfold Job.encode encodeStruct Job.fields at h
  simp only [encodeFields, hlabels, Option.isNone_none, if_true, Bool.false_eq_true,
    if_false] at h
  cases hr : encodePtr Run.encode j.Run_ with
  | none => rw [hr] at h; simp at h
  | some res =>
    cases res with
    | error e => rw [hr] at h; simp at h
    | ok v =>
      rw [hr] at h
      simp only [Option.some.injEq, Except.ok.injEq] at h
      rw [← h]
      rfl

/-- C15: encoding omits absent optional fields. For every Run whose artifacts,
args, env and volumes are empty and whose docker, placement and restart are
absent, an encoded object exists exactly when cpus is a finite number, and
every encoded object holds none of the keys artifacts, args, docker, env,
placement, restart, volumes, while cpus, mem, disk and maxLaunchDelay are
present; and for every Job with no labels, every encoded object has exactly
the keys description, id and run, so no labels key; such a Job has an encoded
object when its Run is absent, and when its Run is the Run above with a finite
cpus. -/
theorem Run_encode_omits_absent (r : Run)
    (hArtifacts : r.Artifacts_ = []) (hArgs : r.Args_ = []) (hEnv : r.Env_ = [])
    (hVolumes : r.Volumes_ = []) (hDocker : r.Docker_ = none) (hPlacement : r.Placement_ = none)
    (hRestart : r.Restart_ = none) :
    ((∃ obj, Run.encode r = some (.ok obj)) ↔
      (r.Cpus_.isNaN = false ∧ r.Cpus_.isInf = false)) ∧
    (∀ obj, Run.encode r = some (.ok obj) →
      (∀ k ∈ ["artifacts", "args", "docker", "env", "placement", "restart", "volumes"],
        k ∉ obj.keys) ∧
      (∀ k ∈ ["cpus", "mem", "disk", "maxLaunchDelay"], k ∈ obj.keys)) ∧
    (∀ (j : Job) (obj : Encoded), j.Labels_ = none → Job.encode j = some (.ok obj) →
      obj.keys = ["description", "id", "run"] ∧ "labels" ∉ obj.keys) ∧
    (∀ description id : String,
      (∃ obj,
        Job.encode { Description_ := description, ID_ := id, Labels_ := none, Run_ := none } =
          some (.ok obj)) ∧
      (r.Cpus_.isNaN = false → r.Cpus_.isInf = false → ∃ obj,
        Job.encode { Description_ := description, ID_ := id, Labels_ := none, Run_ := some r } =
          some (.ok obj))) := by
  refine ⟨⟨?_, ?_⟩, ?_, ?_, ?_⟩
  · rintro ⟨obj, hobj⟩
    exact Run_encode_finite r hArtifacts hArgs obj hobj
  · rintro ⟨hNaN, hInf⟩
    obtain ⟨obj, hobj, _⟩ :=
      Run_encode_keys r hArtifacts hArgs hEnv hVolumes hDocker hPlacement hRestart hNaN hInf
    exact ⟨obj, hobj⟩
  · intro obj0 hobj0
    obtain ⟨hNaN, hInf⟩ :=
      Run_encode_finite r hArtifacts hArgs obj0 hobj0
    obtain ⟨obj, hobj, hkeys⟩ :=
      Run_encode_keys r hArtifacts hArgs hEnv hVolumes hDocker hPlacement hRestart hNaN hInf
    rw [hobj0] at hobj
    simp only [Option.some.injEq, Except.ok.injEq] at hobj
    subst hobj
    constructor
    · intro k hk
      rw [hkeys]
      simp only [List.mem_cons, List.mem_singleton, List.not_mem_nil, or_false] at hk
      by_cases hc : r.Cmd_ = "" <;> by_cases hu : r.User_ = "" <;>
        rcases hk with rfl | rfl | rfl | rfl | rfl | rfl | rfl <;> simp [hc, hu]
    · intro k hk
      rw [hkeys]
      simp only [List.mem_cons, List.mem_singleton, List.not_mem_nil, or_false] at hk
      by_cases hc : r.Cmd_ = "" <;> by_cases hu : r.User_ = "" <;>
        rcases hk with rfl | rfl | rfl | rfl <;> simp [hc, hu]
  · intro j obj hlabels hobj
    have hkeys := Job_encode_keys j obj hlabels hobj
    refine ⟨hkeys, ?_⟩
    rw [hkeys]
    decide
  · intro description id
    constructor
    · refine ⟨.object [("description", .string description), ("id", .string id), ("run", .null)],
        ?_⟩
      unfold Job.encode encodeStruct Job.fields
      simp [encodeFields, encodePtr]
    · intro hNaN hInf
      obtain ⟨obj, hobj, _⟩ :=
        Run_encode_keys r hArtifacts hArgs hEnv hVolumes hDocker hPlacement hRestart hNaN hInf
      refine ⟨.object [("description", .string description), ("id", .string id), ("run", obj)],
        ?_⟩
      unfold Job.encode encodeStruct Job.fields
      simp [encodeFields, encodePtr, hobj]

/-- Witness for C15: the Run with cpus 1.5, mem 128, disk 32 and the command
"nuke", whose encoded object has the keys cmd, cpus, mem, disk and
maxLaunchDelay. -/
theorem Run_encode_omits_absent_witness :
    Run.encode sampleRun =
      some (.ok (.object [("cmd", .string "nuke"), ("cpus", .float Float64.onePointFive),
        ("mem", .int 128), ("disk", .int 32), ("maxLaunchDelay", .int 0)])) ∧
    (∀ k ∈ ["artifacts", "args", "docker", "env", "placement", "restart", "volumes"],
      k ∉ (Encoded.object [("cmd", .string "nuke"), ("cpus", .float Float64.onePointFive),
        ("mem", .int 128), ("disk", .int 32), ("maxLaunchDelay", .int 0)]).keys) ∧
    (∀ k ∈ ["cpus", "mem", "disk", "maxLaunchDelay"],
      k ∈ (Encoded.object [("cmd", .string "nuke"), ("cpus", .float Float64.onePointFive),
        ("mem", .int 128), ("disk", .int 32), ("maxLaunchDelay", .int 0)]).keys) :=
  ⟨rfl, (Run_encode_omits_absent sampleRun rfl rfl rfl rfl rfl rfl rfl).2.1 _ rfl⟩

/-! ## Decoding -/

theorem store_ok {α β : Type} (d : Decoding β) (set : β → α) (a : α) (s : Option Error)
    (h : store d set = .ok (a, s)) : ∃ b, d = .ok (b, s) ∧ a = set b := by
  unfold store at h
  cases d with
  | error e => cases h
  | ok p =>
    obtain ⟨b, s1⟩ := p
    simp only [Except.ok.injEq, Prod.mk.injEq] at h
    exact ⟨b, by rw [h.2], h.1.symm⟩

theorem Run_field_frame (r r1 : Run) (key : String) (j : JSON) (s : Option Error)
    (hkey : notOptionalRunKey key = true) (h : Run.field r key j = .ok (r1, s)) :
    r1.optionals = r.optionals := by
  simp only [notOptionalRunKey, optionalRunKeys, List.all_cons, List.all_nil, Bool.and_true,
    Bool.and_eq_true, Bool.not_eq_true', ] at hkey
  obtain ⟨hd, hp, hr, hv, ha, hg⟩ := hkey
  unfold Run.field at h
  simp only [hd, hp, hr, hv, ha, hg, Bool.false_eq_true, if_false] at h
  split at h
  · obtain ⟨b, _, rfl⟩ := store_ok _ _ _ _ h; rfl
  split at h
  · obtain ⟨b, _, rfl⟩ := store_ok _ _ _ _ h; rfl
  split at h
  · obtain ⟨b, _, rfl⟩ := store_ok _ _ _ _ h; rfl
  split at h
  · obtain ⟨b, _, rfl⟩ := store_ok _ _ _ _ h; rfl
  split at h
  · obtain ⟨b, _, rfl⟩ := store_ok _ _ _ _ h; rfl
  split at h
  · obtain ⟨b, _, rfl⟩ := store_ok _ _ _ _ h; rfl
  split at h
  · obtain ⟨b, _, rfl⟩ := store_ok _ _ _ _ h; rfl
  · unfold skipMember at h
    simp only [Except.ok.injEq, Prod.mk.injEq] at h
    rw [← h.1]

theorem Run_decodeMembers_frame (ms : List (String × JSON)) :
    ∀ (r r1 : Run) (saved s : Option Error),
      (ms.all (fun e => notOptionalRunKey e.1)) = true →
      decodeMembers Run.field r saved ms = .ok (r1, s) → r1.optionals = r.optionals := by
  induction ms with
  | nil =>
    intro r r1 saved s _ h
    simp only [decodeMembers, Except.ok.injEq, Prod.mk.injEq] at h
    rw [← h.1]
  | cons m ms ih =>
    intro r r1 saved s hall h
    simp only [List.all_cons, Bool.and_eq_true] at hall
    simp only [decodeMembers] at h
    cases hf : Run.field r m.1 m.2 with
    | error e => rw [hf] at h; cases h
    | ok p =>
      obtain ⟨r2, s2⟩ := p
      rw [hf] at h
      simp only at h
      rw [ih r2 r1 _ s hall.2 h]
      exact Run_field_frame r r2 m.1 m.2 s2 hall.1 hf

theorem Job_field_keeps_absent (job job1 : Job) (key : String) (j : JSON) (s : Option Error)
    (hm : (!matchKey "run" key ||
      match j with
      | .object _ ms => ms.all (fun e => notOptionalRunKey e.1)
      | _ => true) = true)
    (hinv : ∀ r, job.Run_ = some r → r.optionals = Run.zero.optionals)
    (h : Job.field job key j = .ok (job1, s)) :
    ∀ r, job1.Run_ = some r → r.optionals = Run.zero.optionals := by
  unfold Job.field at h
  split at h
  · obtain ⟨b, _, rfl⟩ := store_ok _ _ _ _ h; exact hinv
  split at h
  · obtain ⟨b, _, rfl⟩ := store_ok _ _ _ _ h; exact hinv
  split at h
  · obtain ⟨b, _, rfl⟩ := store_ok _ _ _ _ h; exact hinv
  split at h
  · rename_i hrun
    obtain ⟨b, hb, rfl⟩ := store_ok _ _ _ _ h
    simp only [hrun, Bool.not_true, Bool.false_or] at hm
    have hold : (job.Run_.getD Run.zero).optionals = Run.zero.optionals := by
      cases hr : job.Run_ with
      | none => rfl
      | some r0 => exact hinv r0 hr
    intro r hr
    simp only at hr
    subst hr
    cases j with
    | null => simp [decodePtr] at hb
    | bool v =>
      simp only [decodePtr, Except.ok.injEq, Prod.mk.injEq, Option.some.injEq] at hb
      rw [← hb.1]; exact hold
    | number l f =>
      simp only [decodePtr, Except.ok.injEq, Prod.mk.injEq, Option.some.injEq] at hb
      rw [← hb.1]; exact hold
    | string l =>
      simp only [decodePtr, Except.ok.injEq, Prod.mk.injEq, Option.some.injEq] at hb
      rw [← hb.1]; exact hold
    | array raw elems =>
      simp only [decodePtr, Except.ok.injEq, Prod.mk.injEq, Option.some.injEq] at hb
      rw [← hb.1]; exact hold
    | object raw ms =>
      simp only [decodePtr] at hb
      simp only at hm
      cases hd : decodeMembers Run.field (job.Run_.getD Run.zero) none ms with
      | error e => rw [hd] at hb; cases hb
      | ok p =>
        obtain ⟨r2, s2⟩ := p
        rw [hd] at hb
        simp only [Except.ok.injEq, Prod.mk.injEq, Option.some.injEq] at hb
        rw [← hb.1, Run_decodeMembers_frame ms _ r2 none s2 hm hd]
        exact hold
  · unfold skipMember at h
    simp only [Except.ok.injEq, Prod.mk.injEq] at h
    rw [← h.1]
    exact hinv

theorem Job_decodeMembers_keeps_absent (members : List (String × JSON)) :
    ∀ (job job1 : Job) (saved s : Option Error),
      (members.all (fun m =>
        !matchKey "run" m.1 ||
          match m.2 with
          | .object _ ms => ms.all (fun e => notOptionalRunKey e.1)
          | _ => true)) = true →
      (∀ r, job.Run_ = some r → r.optionals = Run.zero.optionals) →
      decodeMembers Job.field job saved members = .ok (job1, s) →
      ∀ r, job1.Run_ = some r → r.optionals = Run.zero.optionals := by
  induction members with
  | nil =>
    intro job job1 saved s _ hinv h
    simp only [decodeMembers, Except.ok.injEq, Prod.mk.injEq] at h
    rw [← h.1]
    exact hinv
  | cons m members ih =>
    intro job job1 saved s hall hinv h
    simp only [List.all_cons, Bool.and_eq_true] at hall
    simp only [decodeMembers] at h
    cases hf : Job.field job m.1 m.2 with
    | error e => rw [hf] at h; cases h
    | ok p =>
      obtain ⟨job2, s2⟩ := p
      rw [hf] at h
      simp only at h
      exact ih job2 job1 _ s hall.2 (Job_field_keeps_absent job job2 m.1 m.2 s2 hall.1 hinv hf) h

/-- For every Job payload in which no value given for `run` has one of the keys
docker, placement, restart, volumes, artifacts, args: when the decoding
succeeds, the Run of the Job (if any) has Docker, Placement and Restart absent
and Volumes, Artifacts and Args empty. -/
theorem jsonUnmarshalJob_absent (payload : JSON) (job : Job) (r : Run)
    (hkeys : runLacksOptionalKeys payload = true) (h : jsonUnmarshalJob payload = .ok job)
    (hr : job.Run_ = some r) :
    r.Docker_ = none ∧ r.Placement_ = none ∧ r.Restart_ = none ∧ r.Volumes_ = [] ∧
      r.Artifacts_ = [] ∧ r.Args_ = [] := by
  have hopt : r.optionals = Run.zero.optionals := by
    unfold jsonUnmarshalJob at h
    cases hd : decodeStruct Job.field Job.zero payload with
    | error e => rw [hd] at h; cases h
    | ok p =>
      obtain ⟨job1, s⟩ := p
      rw [hd] at h
      cases s with
      | some e => cases h
      | none =>
        simp only [Except.ok.injEq] at h
        subst h
        cases payload with
        | null =>
          simp only [decodeStruct, Except.ok.injEq, Prod.mk.injEq] at hd
          rw [← hd.1] at hr; cases hr
        | bool v => simp [decodeStruct] at hd
        | number l f => simp [decodeStruct] at hd
        | string l => simp [decodeStruct] at hd
        | array raw elems => simp [decodeStruct] at hd
        | object raw members =>
          simp only [decodeStruct] at hd
          simp only [runLacksOptionalKeys] at hkeys
          exact Job_decodeMembers_keeps_absent members Job.zero job1 none none hkeys
            (fun r0 h0 => by cases h0) hd r hr
  simp only [Run.optionals, Run.zero, Prod.mk.injEq] at hopt
  exact hopt

/-- The second Job of the response in jobs_test.go, which has the keys docker
and restart and lacks placement, volumes, artifacts and args: it decodes to the
Job the test expects, whatever the source text of its objects. -/
theorem Job_decode_test_response (raw rawLabels rawRun rawDocker rawEnv rawRestart : String) :
    jsonUnmarshalJob (.object raw
      [("description", .string "\"Job without arguments\""),
       ("id", .string "\"job.without.arguments\""),
       ("labels", .object rawLabels
         [("location", .string "\"olympus\""), ("owner", .string "\"zeus\"")]),
       ("run", .object rawRun
         [("cmd", .string
            "\"/usr/local/bin/dcos-tests --debug --term-wait 20 --http-addr :8095\""),
          ("cpus", .number "0.5" (some ⟨0x3FE0000000000000⟩)),
          ("disk", .number "128" (some ⟨0x4060000000000000⟩)),
          ("docker", .object rawDocker [("image", .string "\"f4tq/dcos-tests:v0.31\"")]),
          ("env", .object rawEnv
            [("CONNECT", .string "\"direct\""), ("MON", .string "\"test\"")]),
          ("maxLaunchDelay", .number "3600" (some ⟨0x40AC200000000000⟩)),
          ("mem", .number "32" (some ⟨0x4040000000000000⟩)),
          ("restart", .object rawRestart
            [("activeDeadlineSeconds", .number "120" (some ⟨0x405E000000000000⟩)), ("policy", .string "\"NEVER\"")]),
          ("user", .string "\"root\"")])]) =
      .ok { Description_ := "Job without arguments", ID_ := "job.without.arguments",
            Labels_ := some { Location := "olympus", Owner := "zeus" },
            Run_ := some { Artifacts_ := [],
                           Cmd_ := "/usr/local/bin/dcos-tests --debug --term-wait 20 --http-addr :8095",
                           Args_ := [], Cpus_ := ⟨0x3FE0000000000000⟩, Mem_ := 32, Disk_ := 128,
                           Docker_ := some { Image_ := "f4tq/dcos-tests:v0.31" },
                           Env_ := [("CONNECT", "direct"), ("MON", "test")],
                           MaxLaunchDelay_ := 3600, Placement_ := none,
                           Restart_ := some { ActiveDeadlineSeconds_ := 120, Policy_ := "NEVER" },
                           User_ := "root", Volumes_ := [] } } := by
  rfl

/-- C14 as stated fails: keys are matched without regard to the case of
letters, so the payload whose run object has the single key `Docker` (and so
no key `docker`, `placement`, `restart`, `volumes`, `artifacts` or `args`)
decodes to a Run whose Docker is present. -/
theorem Job_decode_folds_key_case :
    ¬ (∀ (payload : JSON) (job : Job) (r : Run), runHasNoOptionalKey payload = true →
        jsonUnmarshalJob payload = .ok job → job.Run_ = some r →
        r.Docker_ = none ∧ r.Placement_ = none ∧ r.Restart_ = none ∧ r.Volumes_ = [] ∧
          r.Artifacts_ = [] ∧ r.Args_ = []) := by
  intro H
  have h := H
    (.object "\x7b\"run\":\x7b\"Docker\":\x7b\"image\":\"x\"\x7d\x7d\x7d"
      [("run", .object "\x7b\"Docker\":\x7b\"image\":\"x\"\x7d\x7d"
        [("Docker", .object "\x7b\"image\":\"x\"\x7d" [("image", .string "\"x\"")])])])
    { Job.zero with Run_ := some { Run.zero with Docker_ := some { Image_ := "x" } } }
    { Run.zero with Docker_ := some { Image_ := "x" } } (by decide) rfl rfl
  exact absurd h.1 (by decide)

/-- The volume of the first Job of the response in jobs_test.go decodes with
the quotes kept in its container path (see C5), where the test expects
"/mnt/test". -/
theorem Volume_decode_test_response :
    decodeStruct Volume.field Volume.zero
      (.object "\x7b\"containerPath\":\"/mnt/test\",\"hostPath\":\"/etc/guest\",\"mode\":\"RW\"\x7d"
        [("containerPath", .string "\"/mnt/test\""), ("hostPath", .string "\"/etc/guest\""),
         ("mode", .string "\"RW\"")]) =
      .ok ({ ContainerPath_ := "\"/mnt/test\"", HostPath_ := "/etc/guest", Mode_ := RW }, none) := by
  rfl

/-! ## Fresh Run -/

theorem Float64.leZero_of_gtZero (x : Float64) (h : x.gtZero = true) : x.leZero = false := by
  have hnan : x.isNaN = false := by
    unfold Float64.gtZero at h
    cases hx : x.isNaN with
    | false => rfl
    | true => rw [hx] at h; simp at h
  rw [Float64.leZero_eq_not_gtZero x hnan, h]
  rfl

/-- C27: a Run freshly returned by `NewRun` is not empty apart from its
resources. For every strictly positive cpus, mem and disk the call succeeds
and the Run has the argument list `["foo"]`, empty artifacts, env and volumes,
no docker, placement or restart, empty cmd and user, and maxLaunchDelay 0. -/
theorem NewRun_fresh (cpus : Float64) (mem disk : Int)
    (hcpus : cpus.gtZero = true) (hmem : 0 < mem) (hdisk : 0 < disk) :
    NewRun cpus mem disk =
      .ok { Artifacts_ := [], Cmd_ := "", Args_ := ["foo"], Cpus_ := cpus, Mem_ := mem,
            Disk_ := disk, Docker_ := none, Env_ := [], MaxLaunchDelay_ := 0,
            Placement_ := none, Restart_ := none, User_ := "", Volumes_ := [] } := by
  have hm : ¬ mem ≤ 0 := by omega
  have hd : ¬ disk ≤ 0 := by omega
  have hc : cpus.leZero = false := Float64.leZero_of_gtZero cpus hcpus
  unfold NewRun
  simp [hm, hd, hc]

/-- Witness for C27: cpus 1.5, mem 128, disk 32. -/
theorem NewRun_fresh_witness :
    NewRun Float64.onePointFive 128 32 =
      .ok { Artifacts_ := [], Cmd_ := "", Args_ := ["foo"], Cpus_ := Float64.onePointFive,
            Mem_ := 128, Disk_ := 32, Docker_ := none, Env_ := [], MaxLaunchDelay_ := 0,
            Placement_ := none, Restart_ := none, User_ := "", Volumes_ := [] } :=
  NewRun_fresh Float64.onePointFive 128 32 (by decide) (by decide) (by decide)

/-! ## Rendering the enumerations -/

theorem index_three (a b c : String) (i : Int) :
    index [a, b, c] i ≠ none ↔ (i = 0 ∨ i = 1 ∨ i = 2) := by
  unfold index
  by_cases h : 0 ≤ i
  · rw [if_pos h]
    obtain ⟨n, rfl⟩ := Int.eq_ofNat_of_zero_le h
    simp only [Int.toNat_ofNat]
    match n with
    | 0 => simp
    | 1 => simp
    | 2 => simp
    | n + 3 => simp; omega
  · rw [if_neg h]
    simp
    omega

theorem index_two (a b : String) (i : Int) :
    index [a, b] i ≠ none ↔ (i = 0 ∨ i = 1) := by
  unfold index
  by_cases h : 0 ≤ i
  · rw [if_pos h]
    obtain ⟨n, rfl⟩ := Int.eq_ofNat_of_zero_le h
    simp only [Int.toNat_ofNat]
    match n with
    | 0 => simp
    | 1 => simp
    | n + 2 => simp; omega
  · rw [if_neg h]
    simp
    omega

theorem wrapInt_pred (x : Int) (h : -2 ^ 63 ≤ x ∧ x < 2 ^ 63) (k : Int)
    (hk : 0 ≤ k ∧ k < 2 ^ 62) : wrapInt (x - 1) = k ↔ x = k + 1 := by
  unfold wrapInt
  norm_num at h hk ⊢
  omega

/-- C28: rendering is defined exactly on the valid ordinals. For every ordinal
of the `int` range, `Operator.String` and `Operator.MarshalJSON` find their
index in the token table exactly when the ordinal is 1, 2 or 3, and
`MountMode.String` and `MountMode.MarshalJSON` exactly when it is 1 or 2; for
the zero value and every other ordinal the index is out of range and the call
panics. -/
theorem rendering_defined_iff (x : Int) (h : -2 ^ 63 ≤ x ∧ x < 2 ^ 63) :
    (Operator.String x ≠ none ↔ (x = 1 ∨ x = 2 ∨ x = 3)) ∧
    (Operator.MarshalJSON x ≠ none ↔ (x = 1 ∨ x = 2 ∨ x = 3)) ∧
    (MountMode.String x ≠ none ↔ (x = 1 ∨ x = 2)) ∧
    (MountMode.MarshalJSON x ≠ none ↔ (x = 1 ∨ x = 2)) ∧
    Operator.String 0 = none ∧ MountMode.String 0 = none := by
  have h0 := wrapInt_pred x h 0 (by norm_num)
  have h1 := wrapInt_pred x h 1 (by norm_num)
  have h2 := wrapInt_pred x h 2 (by norm_num)
  have hop : Operator.String x ≠ none ↔ (x = 1 ∨ x = 2 ∨ x = 3) := by
    unfold Operator.String constraint_operators
    rw [index_three, h0, h1, h2]
    norm_num
  have hmm : MountMode.String x ≠ none ↔ (x = 1 ∨ x = 2) := by
    unfold MountMode.String mount_modes
    rw [index_two, h0, h1]
    norm_num
  refine ⟨hop, ?_, hmm, ?_, by decide, by decide⟩
  · rw [← hop]
    unfold Operator.MarshalJSON
    cases Operator.String x <;> simp
  · rw [← hmm]
    unfold MountMode.MarshalJSON MountMode.String
    cases index mount_modes (wrapInt (x - 1)) <;> simp

/-- Witness for C28: the ordinal 2, LIKE and RW. -/
theorem rendering_defined_iff_witness :
    Operator.String 2 = some "LIKE" ∧ MountMode.String 2 = some "RW" ∧
    (Operator.String 2 ≠ none ↔ ((2 : Int) = 1 ∨ (2 : Int) = 2 ∨ (2 : Int) = 3)) :=
  ⟨by decide, by decide, (rendering_defined_iff 2 (by decide)).1⟩

/-! ## Messages of the validating constructors -/

theorem required_of_ne (m : String) (h : m ≠ "") :
    required m = .errorString (m ++ " is required by metronome api") := by
  unfold required
  rw [if_neg (fun hl => h ((len_eq_zero_iff m).mp hl))]

/-- C23: the errors of the validating constructors name the violated field.
`required m` has the message `m` followed by " is required by metronome api"
for every non-empty `m`, and the message "Missing Required message" exactly for
the empty `m`; `NewJob` reports "Job.Id" for an empty id and otherwise
"Job.run" for a missing run, `NewConstraint` reports "Constraint.attribute",
and `NewRun` reports the first violated quantity in the order memory, disk,
cpus. -/
theorem required_names_field :
    (∀ m : String, m ≠ "" →
      (required m).message = m ++ " is required by metronome api") ∧
    (∀ m : String, (required m).message = "Missing Required message" ↔ m = "") ∧
    (∀ (description : String) (labels : Option Labels) (run : Option Run),
      NewJob "" description labels run =
        .error (.errorString "Job.Id is required by metronome api")) ∧
    (∀ (id description : String) (labels : Option Labels), id ≠ "" →
      NewJob id description labels none =
        .error (.errorString "Job.run is required by metronome api")) ∧
    (∀ (op : Operator) (value : String),
      NewConstraint "" op value =
        .error (.errorString "Constraint.attribute is required by metronome api")) ∧
    (∀ (cpus : Float64) (mem disk : Int), mem ≤ 0 →
      NewRun cpus mem disk = .error (.errorString "Run.memory is required by metronome api")) ∧
    (∀ (cpus : Float64) (mem disk : Int), 0 < mem → disk ≤ 0 →
      NewRun cpus mem disk = .error (.errorString "Run.disk is required by metronome api")) ∧
    (∀ (cpus : Float64) (mem disk : Int), 0 < mem → 0 < disk → cpus.leZero = true →
      NewRun cpus mem disk = .error (.errorString "Run.cpus is required by metronome api")) := by
  refine ⟨?_, ?_, ?_, ?_, ?_, ?_, ?_, ?_⟩
  · intro m hm
    rw [required_of_ne m hm]
    rfl
  · intro m
    constructor
    · intro h
      by_contra hm
      rw [required_of_ne m hm] at h
      have hlen := congrArg String.length h
      simp only [Error.message, String.length_append] at hlen
      have h1 : " is required by metronome api".length = 29 := by decide
      have h2 : "Missing Required message".length = 24 := by decide
      omega
    · intro h
      subst h
      rfl
  · intro description labels run
    rfl
  · intro id description labels hid
    unfold NewJob
    rw [if_neg (fun hl => hid ((len_eq_zero_iff id).mp hl))]
    rfl
  · intro op value
    rfl
  · intro cpus mem disk hm
    unfold NewRun
    rw [if_pos hm]
    rfl
  · intro cpus mem disk hm hd
    unfold NewRun
    rw [if_neg (by omega), if_pos hd]
    rfl
  · intro cpus mem disk hm hd hc
    unfold NewRun
    rw [if_neg (by omega), if_neg (by omega), if_pos hc]
    rfl

/-- The constructors of C23 on concrete arguments. -/
theorem required_names_field_examples :
    NewJob "" "d" none (some sampleRun) =
      .error (.errorString "Job.Id is required by metronome api") ∧
    NewJob "j" "d" none none = .error (.errorString "Job.run is required by metronome api") ∧
    NewRun Float64.onePointFive 0 0 =
      .error (.errorString "Run.memory is required by metronome api") ∧
    NewRun Float64.onePointFive 1 0 =
      .error (.errorString "Run.disk is required by metronome api") ∧
    NewRun ⟨0⟩ 1 1 = .error (.errorString "Run.cpus is required by metronome api") := by
  refine ⟨by decide, by decide, by decide, by decide, by decide⟩

/-! ## Three-segment inputs of the schedule translator -/

theorem list_length_three {α : Type} (l : List α) (h : l.length = 3) :
    ∃ a b c, l = [a, b, c] := by
  match l, h with
  | [a, b, c], _ => exact ⟨a, b, c, rfl⟩

theorem Atoi_error_message (s : String) (e : Error) (h : Atoi s = .error e) :
    e = .errorString ("strconv.Atoi: parsing " ++ sprintfQuoted s ++ ": invalid syntax") ∨
    e = .errorString ("strconv.Atoi: parsing " ++ sprintfQuoted s ++ ": value out of range") := by
  unfold Atoi at h
  dsimp only at h
  split_ifs at h <;> first
    | (left; simp only [Except.error.injEq] at h; exact h.symm)
    | (right; simp only [Except.error.injEq] at h; exact h.symm)

theorem Atoi_message_ne (a b : String) :
    Error.errorString ("strconv.Atoi: parsing " ++ a ++ b) ≠
      Error.errorString "Too small a duration" := by
  intro h
  simp only [Error.errorString.injEq] at h
  have hd := congrArg (fun s : String => s.data.head?) h
  simp [String.data_append] at hd

theorem Atoi_error_ne_too_small (s : String) (e : Error) (h : Atoi s = .error e) :
    e ≠ .errorString "Too small a duration" := by
  rcases Atoi_error_message s e h with rfl | rfl
  · exact Atoi_message_ne _ _
  · exact Atoi_message_ne _ _

/-- C26: `ConvertIso8601ToCron` never succeeds on a three-segment input. For
every text that splits into exactly three segments the call returns an empty
text and an error, which is "No repeat pattern", the error of the number
conversion, "Illegal duration", "Too small a duration" or "Unknown error"; so
a call that returns no error was made on a text without three segments. -/
theorem ConvertIso8601ToCron_never_succeeds (F : String → Option Int) (now : Time)
    (isoRep : String) (h3 : (stringsSplit isoRep).length = 3) :
    (∃ e, ConvertIso8601ToCron F now isoRep = ("", some e) ∧
      (e = .errorString "No repeat pattern" ∨ (∃ part, Atoi part = .error e) ∨
       e = .errorString "Illegal duration" ∨ e = .errorString "Too small a duration" ∨
       e = .errorString "Unknown error")) ∧
    (∀ (F1 : String → Option Int) (now1 : Time) (text : String),
      (ConvertIso8601ToCron F1 now1 text).2 = none → (stringsSplit text).length ≠ 3) := by
  constructor
  · obtain ⟨dur, mid, interval, hs⟩ := list_length_three _ h3
    unfold ConvertIso8601ToCron
    rw [hs]
    simp only
    cases repeatRegexFind dur with
    | none => exact ⟨_, rfl, Or.inl rfl⟩
    | some part =>
      simp only
      by_cases hp : part = ""
      · rw [if_pos hp]
        simp only
        cases F interval with
        | none => exact ⟨_, rfl, Or.inr (Or.inr (Or.inl rfl))⟩
        | some slot =>
          simp only
          split
          · exact ⟨_, rfl, Or.inr (Or.inr (Or.inr (Or.inl rfl)))⟩
          · exact ⟨_, rfl, Or.inr (Or.inr (Or.inr (Or.inr rfl)))⟩
      · rw [if_neg hp]
        cases ha : Atoi part with
        | error err => exact ⟨err, rfl, Or.inr (Or.inl ⟨part, ha⟩)⟩
        | ok repeatTimes =>
          simp only
          cases F interval with
          | none => exact ⟨_, rfl, Or.inr (Or.inr (Or.inl rfl))⟩
          | some slot =>
            simp only
            split
            · exact ⟨_, rfl, Or.inr (Or.inr (Or.inr (Or.inl rfl)))⟩
            · exact ⟨_, rfl, Or.inr (Or.inr (Or.inr (Or.inr rfl)))⟩
  · intro F1 now1 text hnone hlen
    obtain ⟨dur, mid, interval, hs⟩ := list_length_three _ hlen
    obtain ⟨e, he⟩ := ConvertIso8601ToCron_three F1 now1 text dur mid interval hs
    rw [he] at hnone
    cases hnone

/-- Witness for C26: "R5/PT1M/PT2M", which ends in "Unknown error". -/
theorem ConvertIso8601ToCron_never_succeeds_witness :
    ConvertIso8601ToCron sampleFromString sampleNow "R5/PT1M/PT2M" =
      ("", some (.errorString "Unknown error")) ∧
    ∃ e, ConvertIso8601ToCron sampleFromString sampleNow "R5/PT1M/PT2M" = ("", some e) ∧
      (e = .errorString "No repeat pattern" ∨ (∃ part, Atoi part = .error e) ∨
       e = .errorString "Illegal duration" ∨ e = .errorString "Too small a duration" ∨
       e = .errorString "Unknown error") :=
  ⟨by decide,
   (ConvertIso8601ToCron_never_succeeds sampleFromString sampleNow "R5/PT1M/PT2M"
     (by decide)).1⟩

/-- C29: when "Too small a duration" is returned. The call returns this error
exactly when the input has three segments, the repeat segment gives a repeat
count other than zero, the interval is a duration and that duration is below
one nanosecond, so zero or negative; with a repeat count other than zero, every
interval of at least one nanosecond, among them every positive interval shorter
than one minute, ends in "Unknown error". -/
theorem too_small_iff (F : String → Option Int) (now : Time) (isoRep : String) :
    ((ConvertIso8601ToCron F now isoRep).2 = some (.errorString "Too small a duration") ↔
      ∃ (dur mid interval part : String) (n slot : Int),
        stringsSplit isoRep = [dur, mid, interval] ∧ repeatRegexFind dur = some part ∧
        (if part = "" then Except.ok 0 else Atoi part) = .ok n ∧ n ≠ 0 ∧
        F interval = some slot ∧ slot ≤ 0) ∧
    (∀ (dur mid interval part : String) (n slot : Int),
      stringsSplit isoRep = [dur, mid, interval] → repeatRegexFind dur = some part →
      (if part = "" then Except.ok 0 else Atoi part) = .ok n → n ≠ 0 →
      F interval = some slot → 0 < slot →
      ConvertIso8601ToCron F now isoRep = ("", some (.errorString "Unknown error"))) := by
  constructor
  · constructor
    · intro h
      by_cases h3 : (stringsSplit isoRep).length = 3
      · obtain ⟨dur, mid, interval, hs⟩ := list_length_three _ h3
        unfold ConvertIso8601ToCron at h
        rw [hs] at h
        simp only at h
        cases hr : repeatRegexFind dur with
        | none =>
          rw [hr] at h
          simp only [Option.some.injEq, Error.errorString.injEq] at h
          exact absurd h (by decide)
        | some part =>
          rw [hr] at h
          simp only at h
          cases hn : (if part = "" then Except.ok 0 else Atoi part) with
          | error err =>
            rw [hn] at h
            simp only [Option.some.injEq] at h
            have hpart : part ≠ "" := by
              intro hp
              rw [if_pos hp] at hn
              cases hn
            rw [if_neg hpart] at hn
            exact absurd h (Atoi_error_ne_too_small part err hn)
          | ok n =>
            rw [hn] at h
            simp only at h
            cases hf : F interval with
            | none =>
              rw [hf] at h
              simp only [Option.some.injEq, Error.errorString.injEq] at h
              exact absurd h (by decide)
            | some slot =>
              rw [hf] at h
              simp only at h
              by_cases hc : n ≠ 0 ∧ slot < 1
              · exact ⟨dur, mid, interval, part, n, slot, hs, hr, hn, hc.1, hf, by omega⟩
              · rw [if_neg hc] at h
                simp only [Option.some.injEq, Error.errorString.injEq] at h
                exact absurd h (by decide)
      · rw [ConvertIso8601ToCron_not_three F now isoRep h3] at h
        unfold scanNow at h
        split_ifs at h
        simp at h
    · rintro ⟨dur, mid, interval, part, n, slot, hs, hr, hn, hn0, hf, hslot⟩
      unfold ConvertIso8601ToCron
      rw [hs]
      simp only
      rw [hr]
      simp only
      rw [hn]
      simp only
      rw [hf]
      simp only
      rw [if_pos ⟨hn0, by omega⟩]
  · intro dur mid interval part n slot hs hr hn hn0 hf hslot
    unfold ConvertIso8601ToCron
    rw [hs]
    simp only
    rw [hr]
    simp only
    rw [hn]
    simp only
    rw [hf]
    simp only
    rw [if_neg (by omega)]

/-- The cases of C29 on concrete inputs: an interval of zero with repeat count
5 is too small, an interval of one second with repeat count 5 ends in "Unknown
error", and an interval of zero with repeat count 0 does too. -/
theorem too_small_examples :
    ConvertIso8601ToCron sampleFromString sampleNow "R5/PT1M/PT0S" =
      ("", some (.errorString "Too small a duration")) ∧
    ConvertIso8601ToCron sampleFromString sampleNow "R5/PT1M/PT1S" =
      ("", some (.errorString "Unknown error")) ∧
    ConvertIso8601ToCron sampleFromString sampleNow "R0/PT1M/PT0S" =
      ("", some (.errorString "Unknown error")) := by
  refine ⟨by decide, by decide, by decide⟩

/-! ## Errors of the enumeration decoders -/

/-- C22 as stated fails: the token FOO is rejected by both decoders, and
neither error message contains FOO. -/
theorem enum_error_omits_token :
    ¬ (∀ (self : Int) (raw s : String) (e : Error), jsonUnmarshalString raw = .ok s →
        (Operator.UnmarshalJSON self raw).2 = some e → containsText e.message s = true) ∧
    ¬ (∀ (self : Int) (raw s : String) (e : Error), jsonUnmarshalString raw = .ok s →
        (MountMode.UnmarshalJSON self raw).2 = some e → containsText e.message s = true) := by
  constructor
  · intro H
    have h := H EQ "\"FOO\"" "FOO" constraintViol (by decide) (by decide)
    revert h
    decide
  · intro H
    have h := H RO "\"FOO\"" "FOO" mountViol (by decide) (by decide)
    revert h
    decide

/-- C22, amended: the error of a rejected token does not depend on the token.
For every JSON string whose text is outside the closed set,
`Operator.UnmarshalJSON` returns the error with the fixed message "Bad
constraint.  Must be EQ,LIKE,UNLIKE" and `MountMode.UnmarshalJSON` the error
with the fixed message "Mount point must designate RW,RO": each message lists
the valid tokens and says nothing of the token received. -/
theorem enum_error_fixed_message (self : Int) (raw s : String)
    (h : jsonUnmarshalString raw = .ok s) :
    (s ≠ "EQ" → s ≠ "LIKE" → s ≠ "UNLIKE" →
      ∃ e, (Operator.UnmarshalJSON self raw).2 = some e ∧
        e.message = "Bad constraint.  Must be EQ,LIKE,UNLIKE") ∧
    (s ≠ "RO" → s ≠ "RW" →
      ∃ e, (MountMode.UnmarshalJSON self raw).2 = some e ∧
        e.message = "Mount point must designate RW,RO") := by
  constructor
  · intro h1 h2 h3
    refine ⟨constraintViol, ?_, rfl⟩
    unfold Operator.UnmarshalJSON
    rw [h]
    simp only [h1, h2, h3, if_false]
  · intro h1 h2
    refine ⟨mountViol, ?_, rfl⟩
    unfold MountMode.UnmarshalJSON
    rw [h]
    simp only [h1, h2, if_false]

/-- Witness for C22, amended: the token FOO. -/
theorem enum_error_fixed_message_witness :
    (∃ e, (Operator.UnmarshalJSON EQ "\"FOO\"").2 = some e ∧
      e.message = "Bad constraint.  Must be EQ,LIKE,UNLIKE") ∧
    (∃ e, (MountMode.UnmarshalJSON RO "\"FOO\"").2 = some e ∧
      e.message = "Mount point must designate RW,RO") :=
  ⟨(enum_error_fixed_message EQ "\"FOO\"" "FOO" (by decide)).1 (by decide) (by decide) (by decide),
   (enum_error_fixed_message RO "\"FOO\"" "FOO" (by decide)).2 (by decide) (by decide)⟩

/-! ## Setters -/

/-- C25: the setters of Run and Job are field-local. Each setter returns the
entity with the one field replaced by the value given and every other field as
it was, and the matching getter then returns that value; `AddArg` changes only
the argument list, to the previous list followed by the new argument. -/
theorem setters_field_local (r : Run) (j : Job)
    (artifacts : List Artifact) (cmd user item desc : String) (args : List String)
    (cpus : Float64) (mem disk delay : Int) (docker : Option Docker)
    (env : List (String × String)) (placement : Option Placement) (restart : Option Restart)
    (vols : List Volume) (run : Option Run) (label : Labels) :
    (r.SetArtifacts artifacts = { r with Artifacts_ := artifacts } ∧
      (r.SetArtifacts artifacts).Artifacts = artifacts) ∧
    (r.SetCmd cmd = { r with Cmd_ := cmd } ∧ (r.SetCmd cmd).Cmd = cmd) ∧
    (r.SetArgs args = { r with Args_ := args } ∧ (r.SetArgs args).Args = args) ∧
    (r.SetCpus cpus = { r with Cpus_ := cpus } ∧ (r.SetCpus cpus).Cpus = cpus) ∧
    (r.SetMem mem = { r with Mem_ := mem } ∧ (r.SetMem mem).Mem = mem) ∧
    (r.SetDisk disk = { r with Disk_ := disk } ∧ (r.SetDisk disk).Disk = disk) ∧
    (r.SetDocker docker = { r with Docker_ := docker } ∧ (r.SetDocker docker).Docker = docker) ∧
    (r.SetEnv env = { r with Env_ := env } ∧ (r.SetEnv env).Env = env) ∧
    (r.SetMaxLaunchDelay delay = { r with MaxLaunchDelay_ := delay } ∧
      (r.SetMaxLaunchDelay delay).MaxLaunchDelay = delay) ∧
    (r.SetPlacement placement = { r with Placement_ := placement } ∧
      (r.SetPlacement placement).Placement = placement) ∧
    (r.SetRestart restart = { r with Restart_ := restart } ∧
      (r.SetRestart restart).Restart = restart) ∧
    (r.SetUser user = { r with User_ := user } ∧ (r.SetUser user).User = user) ∧
    (r.SetVolumes vols = { r with Volumes_ := vols } ∧ (r.SetVolumes vols).Volumes = vols) ∧
    (r.AddArg item = { r with Args_ := r.Args_ ++ [item] } ∧
      (r.AddArg item).Args = r.Args ++ [item]) ∧
    (j.SetDescription desc = { j with Description_ := desc } ∧
      (j.SetDescription desc).Description = desc) ∧
    (j.SetRun run = { j with Run_ := run } ∧ (j.SetRun run).Run = run) ∧
    (j.SetLabel label = { j with Labels_ := some label } ∧
      (j.SetLabel label).Labels = some label) :=
  ⟨⟨rfl, rfl⟩, ⟨rfl, rfl⟩, ⟨rfl, rfl⟩, ⟨rfl, rfl⟩, ⟨rfl, rfl⟩, ⟨rfl, rfl⟩, ⟨rfl, rfl⟩, ⟨rfl, rfl⟩,
   ⟨rfl, rfl⟩, ⟨rfl, rfl⟩, ⟨rfl, rfl⟩, ⟨rfl, rfl⟩, ⟨rfl, rfl⟩, ⟨rfl, rfl⟩, ⟨rfl, rfl⟩, ⟨rfl, rfl⟩,
   ⟨rfl, rfl⟩⟩

/-- A chain of setters on the Run of the examples: only the fields set differ
from the start, and the argument list grows at its end. -/
theorem setters_examples :
    ((sampleRun.SetCmd "ls").SetMem 64).AddArg "-l" =
      { sampleRun with Cmd_ := "ls", Mem_ := 64, Args_ := ["-l"] } ∧
    (((sampleRun.AddArg "a").AddArg "b").Args = ["a", "b"]) ∧
    ((sampleRun.SetUser "root").Cmd = "nuke" ∧ (sampleRun.SetUser "root").Disk = 32) := by
  refine ⟨by decide, by decide, by decide, by decide⟩

/-! ## Decimal text of integers -/

theorem digitChar_facts (k : Nat) (h : k < 10) :
    (Nat.digitChar k).isDigit = true ∧ (Nat.digitChar k).toNat - 48 = k ∧
      Nat.digitChar k ≠ ' ' := by
  interval_cases k <;> decide

theorem isDigit_ne_sign (c : Char) (h : c.isDigit = true) : c ≠ '-' ∧ c ≠ '+' ∧ c ≠ ' ' := by
  refine ⟨?_, ?_, ?_⟩ <;> (intro hc; subst hc; revert h; decide)

theorem toDigitsCore_all (fuel : Nat) :
    ∀ (n : Nat) (ds : List Char), (∀ c ∈ ds, c.isDigit = true) →
      ∀ c ∈ Nat.toDigitsCore 10 fuel n ds, c.isDigit = true := by
  induction fuel with
  | zero => intro n ds h; simpa [Nat.toDigitsCore] using h
  | succ fuel ih =>
    intro n ds h
    have hd : ∀ c ∈ Nat.digitChar (n % 10) :: ds, c.isDigit = true := by
      intro c hc
      rcases List.mem_cons.mp hc with rfl | hc
      · exact (digitChar_facts (n % 10) (Nat.mod_lt _ (by norm_num))).1
      · exact h c hc
    simp only [Nat.toDigitsCore]
    split
    · exact hd
    · exact ih _ _ hd

theorem toDigitsCore_ne_nil (fuel : Nat) :
    ∀ (n : Nat) (ds : List Char), (ds ≠ [] ∨ 0 < fuel) → Nat.toDigitsCore 10 fuel n ds ≠ [] := by
  induction fuel with
  | zero =>
    intro n ds h
    rcases h with h | h
    · simpa [Nat.toDigitsCore] using h
    · omega
  | succ fuel ih =>
    intro n ds _
    simp only [Nat.toDigitsCore]
    split
    · simp
    · exact ih _ _ (Or.inl (by simp))

theorem toDigitsCore_value (fuel : Nat) :
    ∀ (n : Nat) (ds : List Char), n < fuel →
      List.foldl (fun acc c => acc * 10 + (c.toNat - 48)) 0 (Nat.toDigitsCore 10 fuel n ds) =
        List.foldl (fun acc c => acc * 10 + (c.toNat - 48)) n ds := by
  induction fuel with
  | zero => intro n ds h; omega
  | succ fuel ih =>
    intro n ds h
    have hv := (digitChar_facts (n % 10) (Nat.mod_lt _ (by norm_num))).2.1
    simp only [Nat.toDigitsCore]
    split
    · rename_i h0
      simp only [List.foldl_cons, hv]
      have : n % 10 = n := by omega
      rw [Nat.zero_mul, Nat.zero_add, this]
    · rename_i h0
      rw [ih (n / 10) _ (by omega)]
      simp only [List.foldl_cons, hv]
      have : n / 10 * 10 + n % 10 = n := by omega
      rw [this]

theorem repr_data (n : Nat) : (Nat.repr n).data = Nat.toDigits 10 n := rfl

theorem repr_all_digits (n : Nat) : ∀ c ∈ (Nat.repr n).data, c.isDigit = true := by
  rw [repr_data]
  exact toDigitsCore_all _ _ _ (by simp)

theorem repr_ne_nil (n : Nat) : (Nat.repr n).data ≠ [] := by
  rw [repr_data]
  exact toDigitsCore_ne_nil _ _ _ (Or.inr (by omega))

theorem repr_value (n : Nat) : digitsValue (Nat.repr n).data = n := by
  rw [repr_data]
  unfold digitsValue Nat.toDigits
  rw [toDigitsCore_value (n + 1) n [] (by omega)]
  rfl

theorem Atoi_digits (ds : List Char) (hne : ds ≠ []) (hall : ∀ c ∈ ds, c.isDigit = true)
    (hr : (digitsValue ds : Int) ≤ 2 ^ 63 - 1) :
    Atoi (String.mk ds) = .ok (digitsValue ds : Int) := by
  match ds, hne with
  | c :: r, _ =>
    have hc := isDigit_ne_sign c (hall c (List.mem_cons_self c r))
    have hall2 : (c :: r).all Char.isDigit = true := List.all_eq_true.mpr hall
    unfold Atoi
    simp only [if_neg hc.1, if_neg hc.2.1]
    rw [if_neg (by rw [hall2]; simp)]
    simp only [Bool.false_eq_true, if_false]
    have hv : List.foldl (fun acc c => acc * 10 + (c.toNat - 48)) 0 (c :: r) =
        digitsValue (c :: r) := rfl
    rw [hv]
    rw [if_neg]
    have h0 : (0 : Int) ≤ (digitsValue (c :: r) : Int) := Int.ofNat_nonneg _
    norm_num at hr ⊢
    omega

theorem Atoi_minus_digits (ds : List Char) (hne : ds ≠ []) (hall : ∀ c ∈ ds, c.isDigit = true)
    (hr : (digitsValue ds : Int) ≤ 2 ^ 63) :
    Atoi (String.mk ('-' :: ds)) = .ok (-(digitsValue ds : Int)) := by
  have hall2 : ds.all Char.isDigit = true := List.all_eq_true.mpr hall
  unfold Atoi
  dsimp only
  rw [if_pos rfl]
  dsimp only
  rw [if_neg (by rw [hall2]; simp [hne])]
  rw [if_pos rfl]
  have hv : List.foldl (fun acc c => acc * 10 + (c.toNat - 48)) 0 ds = digitsValue ds := rfl
  rw [hv]
  rw [if_neg]
  have h0 : (0 : Int) ≤ (digitsValue ds : Int) := Int.ofNat_nonneg _
  norm_num at hr ⊢
  omega

theorem Atoi_formatInt (n : Int) (h : -2 ^ 63 ≤ n ∧ n < 2 ^ 63) : Atoi (formatInt n) = .ok n := by
  unfold formatInt
  by_cases hn : n < 0
  · rw [if_pos hn]
    have hs : "-" ++ Nat.repr n.natAbs = String.mk ('-' :: (Nat.repr n.natAbs).data) := rfl
    have habs : (n.natAbs : Int) = -n := by omega
    rw [hs, Atoi_minus_digits _ (repr_ne_nil _) (repr_all_digits _)]
    · rw [repr_value, habs]
      congr 1
      omega
    · rw [repr_value, habs]
      norm_num at h ⊢
      omega
  · rw [if_neg hn]
    have hs : Nat.repr n.toNat = String.mk (Nat.repr n.toNat).data := rfl
    rw [hs, Atoi_digits _ (repr_ne_nil _) (repr_all_digits _)]
    · rw [repr_value]
      congr 1
      omega
    · rw [repr_value]
      norm_num at h ⊢
      omega

/-! ## Requests of the read operations -/

/-- C21: each read operation issues its request primitive once, with the
documented query parameters. On a recording client, whatever the replies,
`Jobs` adds to the log the one request GET /v1/jobs with embed =
[historySummary, activeRuns], `GetJob` the one request GET /v1/jobs/{id} with
embed = [historySummary, activeRuns, schedules], and `Runs` the one request
GET /v1/jobs/{id} with embed = [history, historySummary, activeRuns,
schedules] and the single value of `_timestamp`, the decimal text of `since`,
which `Atoi` reads back as `since`; and on every client the world after the
operation is the world after that one call of `apiGet`. -/
theorem read_operations_requests
    (answer : (k : ResultType) → Request → k.type → Reply k.type) (w : List Request)
    (jobId : String) (since : Int) (hrange : -2 ^ 63 ≤ since ∧ since < 2 ^ 63) :
    ((recordingClient answer).Jobs w).2 =
      w ++ [⟨"GET", "/v1/jobs", [("embed", ["historySummary", "activeRuns"])]⟩] ∧
    ((recordingClient answer).GetJob jobId w).2 =
      w ++ [⟨"GET", "/v1/jobs/" ++ jobId,
        [("embed", ["historySummary", "activeRuns", "schedules"])]⟩] ∧
    ((recordingClient answer).Runs jobId since w).2 =
      w ++ [⟨"GET", "/v1/jobs/" ++ jobId,
        [("_timestamp", [formatInt since]),
         ("embed", ["history", "historySummary", "activeRuns", "schedules"])]⟩] ∧
    Atoi (formatInt since) = .ok since ∧
    (∀ (World : Type) (client : Client World) (w1 : World),
      (client.Jobs w1).2 =
        (client.apiGet .jobs pathJobs [("embed", ["historySummary", "activeRuns"])] [] w1).2 ∧
      (client.GetJob jobId w1).2 =
        (client.apiGet .job (pathJob jobId)
          [("embed", ["historySummary", "activeRuns", "schedules"])] Job.zero w1).2 ∧
      (client.Runs jobId since w1).2 =
        (client.apiGet .job (pathJob jobId)
          [("_timestamp", [formatInt since]),
           ("embed", ["history", "historySummary", "activeRuns", "schedules"])] Job.zero w1).2) := by
  have hgen : ∀ {α β World : Type} (r : Reply α × World) (wrap : α → β),
      (match r.1.err with
        | some err => (((none : Option β), some err), r.2)
        | none => ((some (wrap r.1.result), none), r.2)).2 = r.2 := by
    intro α β World r wrap
    cases r.1.err <;> rfl
  refine ⟨?_, ?_, ?_, Atoi_formatInt since hrange, ?_⟩
  · exact hgen ((recordingClient answer).apiGet .jobs pathJobs
      [("embed", ["historySummary", "activeRuns"])] [] w) id
  · exact hgen ((recordingClient answer).apiGet .job (pathJob jobId)
      [("embed", ["historySummary", "activeRuns", "schedules"])] Job.zero w) id
  · exact hgen ((recordingClient answer).apiGet .job (pathJob jobId)
      [("_timestamp", [formatInt since]),
       ("embed", ["history", "historySummary", "activeRuns", "schedules"])] Job.zero w) id
  · intro World client w1
    refine ⟨?_, ?_, ?_⟩
    · exact hgen (client.apiGet .jobs pathJobs [("embed", ["historySummary", "activeRuns"])] [] w1)
        id
    · exact hgen (client.apiGet .job (pathJob jobId)
        [("embed", ["historySummary", "activeRuns", "schedules"])] Job.zero w1) id
    · exact hgen (client.apiGet .job (pathJob jobId)
        [("_timestamp", [formatInt since]),
         ("embed", ["history", "historySummary", "activeRuns", "schedules"])] Job.zero w1) id

/-- Witness for C21: the job "prod" and the negative timestamp -1500, on a
recording client that answers every request with status 200. -/
theorem read_operations_requests_witness :
    ((recordingClient (fun k _ r => sampleReply "" k r)).Runs "prod" (-1500) []).2 =
      [⟨"GET", "/v1/jobs/prod",
        [("_timestamp", ["-1500"]),
         ("embed", ["history", "historySummary", "activeRuns", "schedules"])]⟩] ∧
    Atoi (formatInt (-1500)) = .ok (-1500) :=
  ⟨by decide,
   (read_operations_requests (fun k _ r => sampleReply "" k r) [] "prod" (-1500)
     (by decide)).2.2.2.1⟩

/-! ## The text computed from the clock -/

theorem splitSpace_length (l : List Char) : (splitSpace l).length = l.count ' ' + 1 := by
  induction l with
  | nil => rfl
  | cons c cs ih =>
    unfold splitSpace
    by_cases hc : c = ' '
    · subst hc
      simp [ih]
    · rw [if_neg hc]
      have hcount : (c :: cs).count ' ' = cs.count ' ' := by
        rw [List.count_cons]
        simp [hc]
      cases hs : splitSpace cs with
      | nil => rw [hs] at ih; simp at ih
      | cons seg segs =>
        rw [hs] at ih
        simp only [List.length_cons] at ih ⊢
        rw [hcount]
        exact ih

theorem formatInt_no_space (n : Int) : (formatInt n).data.count ' ' = 0 := by
  unfold formatInt
  have hrepr : ∀ k : Nat, (Nat.repr k).data.count ' ' = 0 := by
    intro k
    rw [List.count_eq_zero]
    intro hmem
    exact (isDigit_ne_sign ' ' (repr_all_digits k ' ' hmem)).2.2 rfl
  split
  · have hs : "-" ++ Nat.repr n.natAbs = String.mk ('-' :: (Nat.repr n.natAbs).data) := rfl
    rw [hs]
    simp only [List.count_cons, hrepr]
    decide
  · exact hrepr _

theorem cron_text_fields (m h d M y : Int) :
    (cronFields ("%d %d %d %d * %d%" ++ formatInt m ++ " " ++ formatInt h ++ " " ++ formatInt d ++
      " " ++ formatInt M ++ " " ++ formatInt y)).length = 10 := by
  unfold cronFields
  rw [List.length_map, splitSpace_length]
  simp only [String.data_append, List.count_append, formatInt_no_space]
  decide

/-- C24: the text computed from the clock is the template itself followed by
the numbers. Whenever the clock is read as minute `m`, hour `h`, day `d`, month
`M` and year `y`, the text returned by `ImmediateCrontab`, the `Cron` of
`ImmediateSchedule` and the text returned by `ConvertIso8601ToCron` for an
input without three segments are the literal "%d %d %d %d * %d%" followed at
once by the decimal texts of `m`, `h`, `d`, `M`, `y` with one space between
them; that text has ten fields, the first being "%d", and so is not a
recurrence expression of five fields. -/
theorem format_current_time_literal (now : Time) (v : Scanned) (h : scanNow now = .ok v) :
    ImmediateCrontab now =
      "%d %d %d %d * %d%" ++ formatInt v.m ++ " " ++ formatInt v.h ++ " " ++ formatInt v.d ++
        " " ++ formatInt v.M ++ " " ++ formatInt v.y ∧
    (∃ sched, ImmediateSchedule now = (some sched, none) ∧
      sched.Cron =
        "%d %d %d %d * %d%" ++ formatInt v.m ++ " " ++ formatInt v.h ++ " " ++ formatInt v.d ++
          " " ++ formatInt v.M ++ " " ++ formatInt v.y) ∧
    (∀ (F : String → Option Int) (isoRep : String), (stringsSplit isoRep).length ≠ 3 →
      ConvertIso8601ToCron F now isoRep =
        ("%d %d %d %d * %d%" ++ formatInt v.m ++ " " ++ formatInt v.h ++ " " ++ formatInt v.d ++
          " " ++ formatInt v.M ++ " " ++ formatInt v.y, none)) ∧
    (cronFields (ImmediateCrontab now)).length = 10 ∧
    (cronFields (ImmediateCrontab now)).length ≠ 5 ∧
    (cronFields (ImmediateCrontab now)).head? = some "%d" := by
  have hcron : ImmediateCrontab now =
      "%d %d %d %d * %d%" ++ formatInt v.m ++ " " ++ formatInt v.h ++ " " ++ formatInt v.d ++
        " " ++ formatInt v.M ++ " " ++ formatInt v.y := by
    unfold ImmediateCrontab
    rw [h]
    rfl
  have hlen : (cronFields (ImmediateCrontab now)).length = 10 := by
    rw [hcron]
    exact cron_text_fields v.m v.h v.d v.M v.y
  refine ⟨hcron, ?_, ?_, hlen, by rw [hlen]; decide, ?_⟩
  · unfold ImmediateSchedule
    rw [h]
    exact ⟨_, rfl, rfl⟩
  · intro F isoRep h3
    rw [ConvertIso8601ToCron_not_three F now isoRep h3, h]
    rfl
  · rw [hcron]
    unfold cronFields
    have hd : ("%d %d %d %d * %d%" ++ formatInt v.m ++ " " ++ formatInt v.h ++ " " ++
        formatInt v.d ++ " " ++ formatInt v.M ++ " " ++ formatInt v.y).data =
        '%' :: 'd' :: ' ' :: ("%d %d %d * %d%" ++ formatInt v.m ++ " " ++ formatInt v.h ++ " " ++
          formatInt v.d ++ " " ++ formatInt v.M ++ " " ++ formatInt v.y).data := by
      simp only [String.data_append]
      rfl
    rw [hd]
    simp [splitSpace]

/-- Witness for C24: the instant 2016-11-19 01:35:28 UTC, whose text is
"%d %d %d %d * %d%35 1 19 11 2016". -/
theorem format_current_time_literal_witness :
    ImmediateCrontab sampleNow = "%d %d %d %d * %d%35 1 19 11 2016" ∧
    (cronFields (ImmediateCrontab sampleNow)).length = 10 ∧
    (cronFields (ImmediateCrontab sampleNow)).head? = some "%d" :=
  ⟨by decide,
   (format_current_time_literal sampleNow ⟨2016, 11, 19, 1, 35, 28⟩ (by decide)).2.2.2.1,
   (format_current_time_literal sampleNow ⟨2016, 11, 19, 1, 35, 28⟩ (by decide)).2.2.2.2.2⟩

/-! ## Fields of the immediate schedule -/

theorem repr_injective (a b : Nat) (h : Nat.repr a = Nat.repr b) : a = b := by
  have hv := congrArg (fun t : String => digitsValue t.data) h
  simp only [repr_value] at hv
  exact hv

theorem formatInt_injective (a b : Int) (h : formatInt a = formatInt b) : a = b := by
  unfold formatInt at h
  have hs : ∀ k : Nat, ("-" ++ Nat.repr k).data = '-' :: (Nat.repr k).data := fun _ => rfl
  have hneg : ∀ k n : Nat, "-" ++ Nat.repr k ≠ Nat.repr n := by
    intro k n heq
    have hd := congrArg String.data heq
    rw [hs] at hd
    have hmem : '-' ∈ (Nat.repr n).data := by
      rw [← hd]
      exact List.mem_cons_self _ _
    exact (isDigit_ne_sign '-' (repr_all_digits n '-' hmem)).1 rfl
  split_ifs at h with ha hb hb
  · have hd := congrArg String.data h
    rw [hs, hs] at hd
    have hk := repr_injective _ _ (String.ext (List.cons.inj hd).2)
    omega
  · exact absurd h (hneg _ _)
  · exact absurd h.symm (hneg _ _)
  · have hk := repr_injective _ _ h
    omega

theorem append_space_cancel (a : List Char) :
    ∀ (b r s : List Char), ' ' ∉ a → ' ' ∉ b → a ++ ' ' :: r = b ++ ' ' :: s → a = b ∧ r = s := by
  induction a with
  | nil =>
    intro b r s _ hb h
    cases b with
    | nil => exact ⟨rfl, (List.cons.inj h).2⟩
    | cons c cs =>
      exfalso
      have hc : ' ' = c := (List.cons.inj h).1
      exact hb (by rw [← hc]; exact List.mem_cons_self _ _)
  | cons x xs ih =>
    intro b r s ha hb h
    cases b with
    | nil =>
      exfalso
      have hc : x = ' ' := (List.cons.inj h).1
      exact ha (by rw [hc]; exact List.mem_cons_self _ _)
    | cons c cs =>
      have hh := List.cons.inj h
      have hrec := ih cs r s (fun hm => ha (List.mem_cons_of_mem _ hm))
        (fun hm => hb (List.mem_cons_of_mem _ hm)) hh.2
      exact ⟨by rw [hh.1, hrec.1], hrec.2⟩

theorem formatInt_space_free (n : Int) : ' ' ∉ (formatInt n).data :=
  List.count_eq_zero.mp (formatInt_no_space n)

theorem sprintCron_injective (v w : Scanned) (h : sprintCron v = sprintCron w) :
    v.m = w.m ∧ v.h = w.h ∧ v.d = w.d ∧ v.M = w.M ∧ v.y = w.y := by
  unfold sprintCron at h
  have hd := congrArg String.data h
  simp only [String.data_append, List.append_assoc] at hd
  have h0 := List.append_cancel_left hd
  have hsp : (" " : String).data = [' '] := rfl
  simp only [hsp, List.singleton_append] at h0
  obtain ⟨h1, h0⟩ := append_space_cancel _ _ _ _ (formatInt_space_free _) (formatInt_space_free _) h0
  obtain ⟨h2, h0⟩ := append_space_cancel _ _ _ _ (formatInt_space_free _) (formatInt_space_free _) h0
  obtain ⟨h3, h0⟩ := append_space_cancel _ _ _ _ (formatInt_space_free _) (formatInt_space_free _) h0
  obtain ⟨h4, h0⟩ := append_space_cancel _ _ _ _ (formatInt_space_free _) (formatInt_space_free _) h0
  exact ⟨formatInt_injective _ _ (String.ext h1), formatInt_injective _ _ (String.ext h2),
    formatInt_injective _ _ (String.ext h3), formatInt_injective _ _ (String.ext h4),
    formatInt_injective _ _ (String.ext h0)⟩

theorem ImmediateSchedule_some (now : Time) (sched : Schedule) (err : Option Error)
    (h : ImmediateSchedule now = (some sched, err)) :
    now.zoneOffset = 0 ∧ err = none ∧
    sched =
      { ID := sprintfScheduleID ⟨now.year, now.month, now.day, now.hour, now.minute, now.second⟩,
        Cron := sprintCron ⟨now.year, now.month, now.day, now.hour, now.minute, now.second⟩,
        ConcurrencyPolicy := "ALLOW", Enabled := true, StartingDeadlineSeconds := 60,
        Timezone := "GMT" } := by
  unfold ImmediateSchedule scanNow at h
  by_cases hz : now.zoneOffset = 0
  · rw [if_pos hz] at h
    simp only [Prod.mk.injEq, Option.some.injEq] at h
    exact ⟨hz, h.2.symm, h.1.symm⟩
  · rw [if_neg hz] at h
    simp at h

/-- C16: whenever `ImmediateSchedule` succeeds, the schedule has concurrency
policy "ALLOW", is enabled, has a starting deadline of 60 seconds and the
timezone "GMT", whatever the instant; its `Cron` is the text computed from the
minute, hour, day, month and year of that instant (the text "%d %d %d %d * %d%"
followed by these five numbers), which is the text that `ImmediateCrontab` and
`RunOnceNowSchedule` return for the same instant; and two instants at which
the call succeeds with the same `Cron` have the same minute, hour, day, month
and year. -/
theorem ImmediateSchedule_fields (now : Time) (sched : Schedule) (err : Option Error)
    (h : ImmediateSchedule now = (some sched, err)) :
    err = none ∧ sched.ConcurrencyPolicy = "ALLOW" ∧ sched.Enabled = true ∧
    sched.StartingDeadlineSeconds = 60 ∧ sched.Timezone = "GMT" ∧
    sched.Cron =
      "%d %d %d %d * %d%" ++ formatInt now.minute ++ " " ++ formatInt now.hour ++ " " ++
        formatInt now.day ++ " " ++ formatInt now.month ++ " " ++ formatInt now.year ∧
    sched.Cron = ImmediateCrontab now ∧ sched.Cron = RunOnceNowSchedule now ∧
    (∀ (now2 : Time) (sched2 : Schedule) (err2 : Option Error),
      ImmediateSchedule now2 = (some sched2, err2) → sched2.Cron = sched.Cron →
      now2.minute = now.minute ∧ now2.hour = now.hour ∧ now2.day = now.day ∧
        now2.month = now.month ∧ now2.year = now.year) := by
  obtain ⟨hzone, herr, hsched⟩ := ImmediateSchedule_some now sched err h
  subst hsched
  refine ⟨herr, rfl, rfl, rfl, rfl, rfl, ?_, ?_, ?_⟩
  · unfold ImmediateCrontab scanNow
    rw [if_pos hzone]
  · unfold RunOnceNowSchedule ImmediateCrontab scanNow
    rw [if_pos hzone]
  · intro now2 sched2 err2 h2 hcron
    obtain ⟨_, _, hsched2⟩ := ImmediateSchedule_some now2 sched2 err2 h2
    subst hsched2
    exact sprintCron_injective _ _ hcron

/-- Witness for C16: the instant 2016-11-19 01:35:28 UTC, at which the call
succeeds with the `Cron` "%d %d %d %d * %d%35 1 19 11 2016". -/
theorem ImmediateSchedule_fields_witness :
    ∃ sched, ImmediateSchedule sampleNow = (some sched, none) ∧
      sched.Cron = "%d %d %d %d * %d%35 1 19 11 2016" ∧
      sched.ConcurrencyPolicy = "ALLOW" ∧ sched.Enabled = true ∧
      sched.StartingDeadlineSeconds = 60 ∧ sched.Timezone = "GMT" ∧
      sched.Cron =
        "%d %d %d %d * %d%" ++ formatInt sampleNow.minute ++ " " ++ formatInt sampleNow.hour ++
          " " ++ formatInt sampleNow.day ++ " " ++ formatInt sampleNow.month ++ " " ++
          formatInt sampleNow.year ∧
      sched.Cron = ImmediateCrontab sampleNow ∧ sched.Cron = RunOnceNowSchedule sampleNow :=
  ⟨_, rfl, by decide,
    (ImmediateSchedule_fields sampleNow _ none rfl).2.1,
    (ImmediateSchedule_fields sampleNow _ none rfl).2.2.1,
    (ImmediateSchedule_fields sampleNow _ none rfl).2.2.2.1,
    (ImmediateSchedule_fields sampleNow _ none rfl).2.2.2.2.1,
    (ImmediateSchedule_fields sampleNow _ none rfl).2.2.2.2.2.1,
    (ImmediateSchedule_fields sampleNow _ none rfl).2.2.2.2.2.2.1,
    (ImmediateSchedule_fields sampleNow _ none rfl).2.2.2.2.2.2.2.1⟩

/-! ## Decoding of any Job payload -/

theorem keepFirst_none (s : Option Error) : keepFirst s none = s := by
  cases s <;> rfl

theorem matchKey_iff (name key : String) :
    matchKey name key = true ↔ key.data.map foldChar = name.data.map foldChar := by
  unfold matchKey
  simp only [Bool.or_eq_true, beq_iff_eq]
  constructor
  · rintro (h | h)
    · rw [h]
    · exact h
  · intro h
    exact Or.inr h

theorem matchKey_congr (name key key2 : String)
    (h : key.data.map foldChar = key2.data.map foldChar) : matchKey name key = matchKey name key2 := by
  rw [Bool.eq_iff_iff, matchKey_iff, matchKey_iff, h]

theorem decodeMembers_fits {α : Type} (field : α → String → JSON → Decoding α)
    (fits : String → JSON → Bool)
    (hstep : ∀ a key j, fits key j = true → ∃ a1, field a key j = .ok (a1, none)) :
    ∀ (ms : List (String × JSON)) (a : α) (saved : Option Error),
      ms.all (fun m => fits m.1 m.2) = true →
      ∃ a1, decodeMembers field a saved ms = .ok (a1, saved) := by
  intro ms
  induction ms with
  | nil =>
    intro a saved _
    exact ⟨a, rfl⟩
  | cons m ms ih =>
    intro a saved hall
    simp only [List.all_cons, Bool.and_eq_true] at hall
    obtain ⟨a2, h2⟩ := hstep a m.1 m.2 hall.1
    obtain ⟨a1, h1⟩ := ih a2 saved hall.2
    refine ⟨a1, ?_⟩
    simp only [decodeMembers, h2, keepFirst_none]
    exact h1

theorem decodeMembers_frame {α : Type} (field : α → String → JSON → Decoding α)
    (sel : String → Bool) (Q : α → Prop)
    (hframe : ∀ a key j a1 s, field a key j = .ok (a1, s) → sel key = false → Q a → Q a1) :
    ∀ (ms : List (String × JSON)) (a : α) (saved : Option Error) (a1 : α) (s : Option Error),
      lastValue sel ms = none → decodeMembers field a saved ms = .ok (a1, s) → Q a → Q a1 := by
  intro ms
  induction ms with
  | nil =>
    intro a saved a1 s _ h hq
    simp only [decodeMembers, Except.ok.injEq, Prod.mk.injEq] at h
    rw [← h.1]
    exact hq
  | cons m ms ih =>
    intro a saved a1 s hl h hq
    simp only [lastValue] at hl
    cases hlm : lastValue sel ms with
    | some v => rw [hlm] at hl; cases hl
    | none =>
      rw [hlm] at hl
      simp only at hl
      have hsel : sel m.1 = false := by
        cases hs : sel m.1 with
        | false => rfl
        | true => rw [hs] at hl; simp at hl
      simp only [decodeMembers] at h
      cases hf : field a m.1 m.2 with
      | error e => rw [hf] at h; cases h
      | ok p =>
        obtain ⟨a2, s2⟩ := p
        rw [hf] at h
        simp only at h
        exact ih a2 _ a1 s hlm h (hframe a m.1 m.2 a2 s2 hf hsel hq)

theorem decodeMembers_last {α : Type} (field : α → String → JSON → Decoding α)
    (sel : String → Bool) (Q : JSON → α → Prop)
    (hframe : ∀ v a key j a1 s, field a key j = .ok (a1, s) → sel key = false → Q v a → Q v a1)
    (hset : ∀ a key j a1 s, field a key j = .ok (a1, s) → sel key = true → Q j a1) :
    ∀ (ms : List (String × JSON)) (a : α) (saved : Option Error) (a1 : α) (s : Option Error)
      (v : JSON),
      lastValue sel ms = some v → decodeMembers field a saved ms = .ok (a1, s) → Q v a1 := by
  intro ms
  induction ms with
  | nil =>
    intro a saved a1 s v hl
    simp [lastValue] at hl
  | cons m ms ih =>
    intro a saved a1 s v hl h
    simp only [decodeMembers] at h
    cases hf : field a m.1 m.2 with
    | error e => rw [hf] at h; cases h
    | ok p =>
      obtain ⟨a2, s2⟩ := p
      rw [hf] at h
      simp only at h
      simp only [lastValue] at hl
      cases hlm : lastValue sel ms with
      | some v1 =>
        rw [hlm] at hl
        simp only [Option.some.injEq] at hl
        subst hl
        exact ih a2 _ a1 s v1 hlm h
      | none =>
        rw [hlm] at hl
        simp only at hl
        by_cases hs : sel m.1 = true
        · rw [if_pos hs] at hl
          simp only [Option.some.injEq] at hl
          subst hl
          exact decodeMembers_frame field sel (Q m.2) (hframe m.2) ms a2 _ a1 s hlm h
            (hset a m.1 m.2 a2 s2 hf hs)
        · rw [if_neg hs] at hl
          cases hl

theorem Labels_field_congr (l : Labels) (key key2 : String) (j : JSON)
    (h : key.data.map foldChar = key2.data.map foldChar) :
    Labels.field l key j = Labels.field l key2 j := by
  unfold Labels.field
  rw [matchKey_congr "location" key key2 h, matchKey_congr "owner" key key2 h]

theorem Job_field_congr (job : Job) (key key2 : String) (j : JSON)
    (h : key.data.map foldChar = key2.data.map foldChar) :
    Job.field job key j = Job.field job key2 j := by
  unfold Job.field
  rw [matchKey_congr "description" key key2 h, matchKey_congr "id" key key2 h,
    matchKey_congr "labels" key key2 h, matchKey_congr "run" key key2 h]

theorem Run_field_congr (r : Run) (key key2 : String) (j : JSON)
    (h : key.data.map foldChar = key2.data.map foldChar) :
    Run.field r key j = Run.field r key2 j := by
  unfold Run.field
  rw [matchKey_congr "artifacts" key key2 h, matchKey_congr "cmd" key key2 h,
    matchKey_congr "args" key key2 h, matchKey_congr "cpus" key key2 h,
    matchKey_congr "mem" key key2 h, matchKey_congr "disk" key key2 h,
    matchKey_congr "docker" key key2 h, matchKey_congr "env" key key2 h,
    matchKey_congr "maxLaunchDelay" key key2 h, matchKey_congr "placement" key key2 h,
    matchKey_congr "restart" key key2 h, matchKey_congr "user" key key2 h,
    matchKey_congr "volumes" key key2 h]

theorem Labels_field_keeps (l l1 : Labels) (key : String) (j : JSON) (s : Option Error)
    (h : Labels.field l key j = .ok (l1, s)) :
    (matchKey "location" key = false → l1.Location = l.Location) ∧
    (matchKey "owner" key = false → l1.Owner = l.Owner) := by
  unfold Labels.field at h
  split_ifs at h
  · obtain ⟨b, _, rfl⟩ := store_ok _ _ _ _ h
    refine ⟨?_, ?_⟩ <;> intro hn <;> first | rfl | simp_all
  · obtain ⟨b, _, rfl⟩ := store_ok _ _ _ _ h
    refine ⟨?_, ?_⟩ <;> intro hn <;> first | rfl | simp_all
  · unfold skipMember at h
    simp only [Except.ok.injEq, Prod.mk.injEq] at h
    rw [← h.1]
    exact ⟨fun _ => rfl, fun _ => rfl⟩

theorem Job_field_keeps (job job1 : Job) (key : String) (j : JSON) (s : Option Error)
    (h : Job.field job key j = .ok (job1, s)) :
    (matchKey "description" key = false → job1.Description_ = job.Description_) ∧
    (matchKey "id" key = false → job1.ID_ = job.ID_) ∧
    (matchKey "labels" key = false → job1.Labels_ = job.Labels_) ∧
    (matchKey "run" key = false → job1.Run_ = job.Run_) := by
  unfold Job.field at h
  split_ifs at h
  · obtain ⟨b, _, rfl⟩ := store_ok _ _ _ _ h
    refine ⟨?_, ?_, ?_, ?_⟩ <;> intro hn <;> first | rfl | simp_all
  · obtain ⟨b, _, rfl⟩ := store_ok _ _ _ _ h
    refine ⟨?_, ?_, ?_, ?_⟩ <;> intro hn <;> first | rfl | simp_all
  · obtain ⟨b, _, rfl⟩ := store_ok _ _ _ _ h
    refine ⟨?_, ?_, ?_, ?_⟩ <;> intro hn <;> first | rfl | simp_all
  · obtain ⟨b, _, rfl⟩ := store_ok _ _ _ _ h
    refine ⟨?_, ?_, ?_, ?_⟩ <;> intro hn <;> first | rfl | simp_all
  · unfold skipMember at h
    simp only [Except.ok.injEq, Prod.mk.injEq] at h
    rw [← h.1]
    exact ⟨fun _ => rfl, fun _ => rfl, fun _ => rfl, fun _ => rfl⟩

theorem Run_field_keeps (r r1 : Run) (key : String) (j : JSON) (s : Option Error)
    (h : Run.field r key j = .ok (r1, s)) :
    (matchKey "cmd" key = false → r1.Cmd_ = r.Cmd_) ∧
    (matchKey "cpus" key = false → r1.Cpus_ = r.Cpus_) ∧
    (matchKey "mem" key = false → r1.Mem_ = r.Mem_) ∧
    (matchKey "disk" key = false → r1.Disk_ = r.Disk_) ∧
    (matchKey "env" key = false → r1.Env_ = r.Env_) ∧
    (matchKey "maxLaunchDelay" key = false → r1.MaxLaunchDelay_ = r.MaxLaunchDelay_) ∧
    (matchKey "user" key = false → r1.User_ = r.User_) := by
  unfold Run.field at h
  by_cases hk0 : matchKey "artifacts" key = true
  · rw [if_pos hk0] at h
    obtain ⟨b, _, rfl⟩ := store_ok _ _ _ _ h
    exact ⟨fun _ => rfl, fun _ => rfl, fun _ => rfl, fun _ => rfl, fun _ => rfl, fun _ => rfl,
      fun _ => rfl⟩
  rw [if_neg hk0] at h
  by_cases hk1 : matchKey "cmd" key = true
  · rw [if_pos hk1] at h
    obtain ⟨b, _, rfl⟩ := store_ok _ _ _ _ h
    refine ⟨?_, ?_, ?_, ?_, ?_, ?_, ?_⟩ <;> intro hn <;> first | rfl | (rw [hn] at hk1; cases hk1)
  rw [if_neg hk1] at h
  by_cases hk2 : matchKey "args" key = true
  · rw [if_pos hk2] at h
    obtain ⟨b, _, rfl⟩ := store_ok _ _ _ _ h
    exact ⟨fun _ => rfl, fun _ => rfl, fun _ => rfl, fun _ => rfl, fun _ => rfl, fun _ => rfl,
      fun _ => rfl⟩
  rw [if_neg hk2] at h
  by_cases hk3 : matchKey "cpus" key = true
  · rw [if_pos hk3] at h
    obtain ⟨b, _, rfl⟩ := store_ok _ _ _ _ h
    refine ⟨?_, ?_, ?_, ?_, ?_, ?_, ?_⟩ <;> intro hn <;> first | rfl | (rw [hn] at hk3; cases hk3)
  rw [if_neg hk3] at h
  by_cases hk4 : matchKey "mem" key = true
  · rw [if_pos hk4] at h
    obtain ⟨b, _, rfl⟩ := store_ok _ _ _ _ h
    refine ⟨?_, ?_, ?_, ?_, ?_, ?_, ?_⟩ <;> intro hn <;> first | rfl | (rw [hn] at hk4; cases hk4)
  rw [if_neg hk4] at h
  by_cases hk5 : matchKey "disk" key = true
  · rw [if_pos hk5] at h
    obtain ⟨b, _, rfl⟩ := store_ok _ _ _ _ h
    refine ⟨?_, ?_, ?_, ?_, ?_, ?_, ?_⟩ <;> intro hn <;> first | rfl | (rw [hn] at hk5; cases hk5)
  rw [if_neg hk5] at h
  by_cases hk6 : matchKey "docker" key = true
  · rw [if_pos hk6] at h
    obtain ⟨b, _, rfl⟩ := store_ok _ _ _ _ h
    exact ⟨fun _ => rfl, fun _ => rfl, fun _ => rfl, fun _ => rfl, fun _ => rfl, fun _ => rfl,
      fun _ => rfl⟩
  rw [if_neg hk6] at h
  by_cases hk7 : matchKey "env" key = true
  · rw [if_pos hk7] at h
    obtain ⟨b, _, rfl⟩ := store_ok _ _ _ _ h
    refine ⟨?_, ?_, ?_, ?_, ?_, ?_, ?_⟩ <;> intro hn <;> first | rfl | (rw [hn] at hk7; cases hk7)
  rw [if_neg hk7] at h
  by_cases hk8 : matchKey "maxLaunchDelay" key = true
  · rw [if_pos hk8] at h
    obtain ⟨b, _, rfl⟩ := store_ok _ _ _ _ h
    refine ⟨?_, ?_, ?_, ?_, ?_, ?_, ?_⟩ <;> intro hn <;> first | rfl | (rw [hn] at hk8; cases hk8)
  rw [if_neg hk8] at h
  by_cases hk9 : matchKey "placement" key = true
  · rw [if_pos hk9] at h
    obtain ⟨b, _, rfl⟩ := store_ok _ _ _ _ h
    exact ⟨fun _ => rfl, fun _ => rfl, fun _ => rfl, fun _ => rfl, fun _ => rfl, fun _ => rfl,
      fun _ => rfl⟩
  rw [if_neg hk9] at h
  by_cases hk10 : matchKey "restart" key = true
  · rw [if_pos hk10] at h
    obtain ⟨b, _, rfl⟩ := store_ok _ _ _ _ h
    exact ⟨fun _ => rfl, fun _ => rfl, fun _ => rfl, fun _ => rfl, fun _ => rfl, fun _ => rfl,
      fun _ => rfl⟩
  rw [if_neg hk10] at h
  by_cases hk11 : matchKey "user" key = true
  · rw [if_pos hk11] at h
    obtain ⟨b, _, rfl⟩ := store_ok _ _ _ _ h
    refine ⟨?_, ?_, ?_, ?_, ?_, ?_, ?_⟩ <;> intro hn <;> first | rfl | (rw [hn] at hk11; cases hk11)
  rw [if_neg hk11] at h
  by_cases hk12 : matchKey "volumes" key = true
  · rw [if_pos hk12] at h
    obtain ⟨b, _, rfl⟩ := store_ok _ _ _ _ h
    exact ⟨fun _ => rfl, fun _ => rfl, fun _ => rfl, fun _ => rfl, fun _ => rfl, fun _ => rfl,
      fun _ => rfl⟩
  rw [if_neg hk12] at h
  unfold skipMember at h
  simp only [Except.ok.injEq, Prod.mk.injEq] at h
  rw [← h.1]
  exact ⟨fun _ => rfl, fun _ => rfl, fun _ => rfl, fun _ => rfl, fun _ => rfl, fun _ => rfl,
    fun _ => rfl⟩

theorem Labels_field_sets (l l1 : Labels) (key : String) (j : JSON) (s : Option Error)
    (h : Labels.field l key j = .ok (l1, s)) :
    (matchKey "location" key = true → decodeString l.Location j = .ok (l1.Location, s)) ∧
    (matchKey "owner" key = true → decodeString l.Owner j = .ok (l1.Owner, s)) := by
  unfold Labels.field at h
  by_cases hk0 : matchKey "location" key = true
  · rw [if_pos hk0] at h
    obtain ⟨b, hb, rfl⟩ := store_ok _ _ _ _ h
    exact ⟨fun _ => hb,
      fun hm => absurd (((matchKey_iff _ _).1 hk0).symm.trans ((matchKey_iff _ _).1 hm))
        (by decide)⟩
  rw [if_neg hk0] at h
  by_cases hk1 : matchKey "owner" key = true
  · rw [if_pos hk1] at h
    obtain ⟨b, hb, rfl⟩ := store_ok _ _ _ _ h
    exact ⟨fun hm => absurd (((matchKey_iff _ _).1 hk1).symm.trans ((matchKey_iff _ _).1 hm))
        (by decide),
      fun _ => hb⟩
  rw [if_neg hk1] at h
  exact ⟨fun hm => absurd hm hk0,
    fun hm => absurd hm hk1⟩

theorem Job_field_sets (job job1 : Job) (key : String) (j : JSON) (s : Option Error)
    (h : Job.field job key j = .ok (job1, s)) :
    (matchKey "description" key = true → decodeString job.Description_ j = .ok (job1.Description_, s)) ∧
    (matchKey "id" key = true → decodeString job.ID_ j = .ok (job1.ID_, s)) ∧
    (matchKey "labels" key = true → decodePtr Labels.field ⟨"", ""⟩ job.Labels_ j = .ok (job1.Labels_, s)) ∧
    (matchKey "run" key = true → decodePtr Run.field Run.zero job.Run_ j = .ok (job1.Run_, s)) := by
  unfold Job.field at h
  by_cases hk0 : matchKey "description" key = true
  · rw [if_pos hk0] at h
    obtain ⟨b, hb, rfl⟩ := store_ok _ _ _ _ h
    exact ⟨fun _ => hb,
      fun hm => absurd (((matchKey_iff _ _).1 hk0).symm.trans ((matchKey_iff _ _).1 hm))
        (by decide),
      fun hm => absurd (((matchKey_iff _ _).1 hk0).symm.trans ((matchKey_iff _ _).1 hm))
        (by decide),
      fun hm => absurd (((matchKey_iff _ _).1 hk0).symm.trans ((matchKey_iff _ _).1 hm))
        (by decide)⟩
  rw [if_neg hk0] at h
  by_cases hk1 : matchKey "id" key = true
  · rw [if_pos hk1] at h
    obtain ⟨b, hb, rfl⟩ := store_ok _ _ _ _ h
    exact ⟨fun hm => absurd (((matchKey_iff _ _).1 hk1).symm.trans ((matchKey_iff _ _).1 hm))
        (by decide),
      fun _ => hb,
      fun hm => absurd (((matchKey_iff _ _).1 hk1).symm.trans ((matchKey_iff _ _).1 hm))
        (by decide),
      fun hm => absurd (((matchKey_iff _ _).1 hk1).symm.trans ((matchKey_iff _ _).1 hm))
        (by decide)⟩
  rw [if_neg hk1] at h
  by_cases hk2 : matchKey "labels" key = true
  · rw [if_pos hk2] at h
    obtain ⟨b, hb, rfl⟩ := store_ok _ _ _ _ h
    exact ⟨fun hm => absurd (((matchKey_iff _ _).1 hk2).symm.trans ((matchKey_iff _ _).1 hm))
        (by decide),
      fun hm => absurd (((matchKey_iff _ _).1 hk2).symm.trans ((matchKey_iff _ _).1 hm))
        (by decide),
      fun _ => hb,
      fun hm => absurd (((matchKey_iff _ _).1 hk2).symm.trans ((matchKey_iff _ _).1 hm))
        (by decide)⟩
  rw [if_neg hk2] at h
  by_cases hk3 : matchKey "run" key = true
  · rw [if_pos hk3] at h
    obtain ⟨b, hb, rfl⟩ := store_ok _ _ _ _ h
    exact ⟨fun hm => absurd (((matchKey_iff _ _).1 hk3).symm.trans ((matchKey_iff _ _).1 hm))
        (by decide),
      fun hm => absurd (((matchKey_iff _ _).1 hk3).symm.trans ((matchKey_iff _ _).1 hm))
        (by decide),
      fun hm => absurd (((matchKey_iff _ _).1 hk3).symm.trans ((matchKey_iff _ _).1 hm))
        (by decide),
      fun _ => hb⟩
  rw [if_neg hk3] at h
  exact ⟨fun hm => absurd hm hk0,
    fun hm => absurd hm hk1,
    fun hm => absurd hm hk2,
    fun hm => absurd hm hk3⟩

theorem Run_field_sets (r r1 : Run) (key : String) (j : JSON) (s : Option Error)
    (h : Run.field r key j = .ok (r1, s)) :
    (matchKey "cmd" key = true → decodeString r.Cmd_ j = .ok (r1.Cmd_, s)) ∧
    (matchKey "cpus" key = true → decodeFloat r.Cpus_ j = .ok (r1.Cpus_, s)) ∧
    (matchKey "mem" key = true → decodeInt r.Mem_ j = .ok (r1.Mem_, s)) ∧
    (matchKey "disk" key = true → decodeInt r.Disk_ j = .ok (r1.Disk_, s)) ∧
    (matchKey "env" key = true → decodeMap r.Env_ j = .ok (r1.Env_, s)) ∧
    (matchKey "maxLaunchDelay" key = true → decodeInt r.MaxLaunchDelay_ j = .ok (r1.MaxLaunchDelay_, s)) ∧
    (matchKey "user" key = true → decodeString r.User_ j = .ok (r1.User_, s)) := by
  unfold Run.field at h
  by_cases hk0 : matchKey "artifacts" key = true
  · rw [if_pos hk0] at h
    obtain ⟨b, hb, rfl⟩ := store_ok _ _ _ _ h
    exact ⟨fun hm => absurd (((matchKey_iff _ _).1 hk0).symm.trans ((matchKey_iff _ _).1 hm))
        (by decide),
      fun hm => absurd (((matchKey_iff _ _).1 hk0).symm.trans ((matchKey_iff _ _).1 hm))
        (by decide),
      fun hm => absurd (((matchKey_iff _ _).1 hk0).symm.trans ((matchKey_iff _ _).1 hm))
        (by decide),
      fun hm => absurd (((matchKey_iff _ _).1 hk0).symm.trans ((matchKey_iff _ _).1 hm))
        (by decide),
      fun hm => absurd (((matchKey_iff _ _).1 hk0).symm.trans ((matchKey_iff _ _).1 hm))
        (by decide),
      fun hm => absurd (((matchKey_iff _ _).1 hk0).symm.trans ((matchKey_iff _ _).1 hm))
        (by decide),
      fun hm => absurd (((matchKey_iff _ _).1 hk0).symm.trans ((matchKey_iff _ _).1 hm))
        (by decide)⟩
  rw [if_neg hk0] at h
  by_cases hk1 : matchKey "cmd" key = true
  · rw [if_pos hk1] at h
    obtain ⟨b, hb, rfl⟩ := store_ok _ _ _ _ h
    exact ⟨fun _ => hb,
      fun hm => absurd (((matchKey_iff _ _).1 hk1).symm.trans ((matchKey_iff _ _).1 hm))
        (by decide),
      fun hm => absurd (((matchKey_iff _ _).1 hk1).symm.trans ((matchKey_iff _ _).1 hm))
        (by decide),
      fun hm => absurd (((matchKey_iff _ _).1 hk1).symm.trans ((matchKey_iff _ _).1 hm))
        (by decide),
      fun hm => absurd (((matchKey_iff _ _).1 hk1).symm.trans ((matchKey_iff _ _).1 hm))
        (by decide),
      fun hm => absurd (((matchKey_iff _ _).1 hk1).symm.trans ((matchKey_iff _ _).1 hm))
        (by decide),
      fun hm => absurd (((matchKey_iff _ _).1 hk1).symm.trans ((matchKey_iff _ _).1 hm))
        (by decide)⟩
  rw [if_neg hk1] at h
  by_cases hk2 : matchKey "args" key = true
  · rw [if_pos hk2] at h
    obtain ⟨b, hb, rfl⟩ := store_ok _ _ _ _ h
    exact ⟨fun hm => absurd (((matchKey_iff _ _).1 hk2).symm.trans ((matchKey_iff _ _).1 hm))
        (by decide),
      fun hm => absurd (((matchKey_iff _ _).1 hk2).symm.trans ((matchKey_iff _ _).1 hm))
        (by decide),
      fun hm => absurd (((matchKey_iff _ _).1 hk2).symm.trans ((matchKey_iff _ _).1 hm))
        (by decide),
      fun hm => absurd (((matchKey_iff _ _).1 hk2).symm.trans ((matchKey_iff _ _).1 hm))
        (by decide),
      fun hm => absurd (((matchKey_iff _ _).1 hk2).symm.trans ((matchKey_iff _ _).1 hm))
        (by decide),
      fun hm => absurd (((matchKey_iff _ _).1 hk2).symm.trans ((matchKey_iff _ _).1 hm))
        (by decide),
      fun hm => absurd (((matchKey_iff _ _).1 hk2).symm.trans ((matchKey_iff _ _).1 hm))
        (by decide)⟩
  rw [if_neg hk2] at h
  by_cases hk3 : matchKey "cpus" key = true
  · rw [if_pos hk3] at h
    obtain ⟨b, hb, rfl⟩ := store_ok _ _ _ _ h
    exact ⟨fun hm => absurd (((matchKey_iff _ _).1 hk3).symm.trans ((matchKey_iff _ _).1 hm))
        (by decide),
      fun _ => hb,
      fun hm => absurd (((matchKey_iff _ _).1 hk3).symm.trans ((matchKey_iff _ _).1 hm))
        (by decide),
      fun hm => absurd (((matchKey_iff _ _).1 hk3).symm.trans ((matchKey_iff _ _).1 hm))
        (by decide),
      fun hm => absurd (((matchKey_iff _ _).1 hk3).symm.trans ((matchKey_iff _ _).1 hm))
        (by decide),
      fun hm => absurd (((matchKey_iff _ _).1 hk3).symm.trans ((matchKey_iff _ _).1 hm))
        (by decide),
      fun hm => absurd (((matchKey_iff _ _).1 hk3).symm.trans ((matchKey_iff _ _).1 hm))
        (by decide)⟩
  rw [if_neg hk3] at h
  by_cases hk4 : matchKey "mem" key = true
  · rw [if_pos hk4] at h
    obtain ⟨b, hb, rfl⟩ := store_ok _ _ _ _ h
    exact ⟨fun hm => absurd (((matchKey_iff _ _).1 hk4).symm.trans ((matchKey_iff _ _).1 hm))
        (by decide),
      fun hm => absurd (((matchKey_iff _ _).1 hk4).symm.trans ((matchKey_iff _ _).1 hm))
        (by decide),
      fun _ => hb,
      fun hm => absurd (((matchKey_iff _ _).1 hk4).symm.trans ((matchKey_iff _ _).1 hm))
        (by decide),
      fun hm => absurd (((matchKey_iff _ _).1 hk4).symm.trans ((matchKey_iff _ _).1 hm))
        (by decide),
      fun hm => absurd (((matchKey_iff _ _).1 hk4).symm.trans ((matchKey_iff _ _).1 hm))
        (by decide),
      fun hm => absurd (((matchKey_iff _ _).1 hk4).symm.trans ((matchKey_iff _ _).1 hm))
        (by decide)⟩
  rw [if_neg hk4] at h
  by_cases hk5 : matchKey "disk" key = true
  · rw [if_pos hk5] at h
    obtain ⟨b, hb, rfl⟩ := store_ok _ _ _ _ h
    exact ⟨fun hm => absurd (((matchKey_iff _ _).1 hk5).symm.trans ((matchKey_iff _ _).1 hm))
        (by decide),
      fun hm => absurd (((matchKey_iff _ _).1 hk5).symm.trans ((matchKey_iff _ _).1 hm))
        (by decide),
      fun hm => absurd (((matchKey_iff _ _).1 hk5).symm.trans ((matchKey_iff _ _).1 hm))
        (by decide),
      fun _ => hb,
      fun hm => absurd (((matchKey_iff _ _).1 hk5).symm.trans ((matchKey_iff _ _).1 hm))
        (by decide),
      fun hm => absurd (((matchKey_iff _ _).1 hk5).symm.trans ((matchKey_iff _ _).1 hm))
        (by decide),
      fun hm => absurd (((matchKey_iff _ _).1 hk5).symm.trans ((matchKey_iff _ _).1 hm))
        (by decide)⟩
  rw [if_neg hk5] at h
  by_cases hk6 : matchKey "docker" key = true
  · rw [if_pos hk6] at h
    obtain ⟨b, hb, rfl⟩ := store_ok _ _ _ _ h
    exact ⟨fun hm => absurd (((matchKey_iff _ _).1 hk6).symm.trans ((matchKey_iff _ _).1 hm))
        (by decide),
      fun hm => absurd (((matchKey_iff _ _).1 hk6).symm.trans ((matchKey_iff _ _).1 hm))
        (by decide),
      fun hm => absurd (((matchKey_iff _ _).1 hk6).symm.trans ((matchKey_iff _ _).1 hm))
        (by decide),
      fun hm => absurd (((matchKey_iff _ _).1 hk6).symm.trans ((matchKey_iff _ _).1 hm))
        (by decide),
      fun hm => absurd (((matchKey_iff _ _).1 hk6).symm.trans ((matchKey_iff _ _).1 hm))
        (by decide),
      fun hm => absurd (((matchKey_iff _ _).1 hk6).symm.trans ((matchKey_iff _ _).1 hm))
        (by decide),
      fun hm => absurd (((matchKey_iff _ _).1 hk6).symm.trans ((matchKey_iff _ _).1 hm))
        (by decide)⟩
  rw [if_neg hk6] at h
  by_cases hk7 : matchKey "env" key = true
  · rw [if_pos hk7] at h
    obtain ⟨b, hb, rfl⟩ := store_ok _ _ _ _ h
    exact ⟨fun hm => absurd (((matchKey_iff _ _).1 hk7).symm.trans ((matchKey_iff _ _).1 hm))
        (by decide),
      fun hm => absurd (((matchKey_iff _ _).1 hk7).symm.trans ((matchKey_iff _ _).1 hm))
        (by decide),
      fun hm => absurd (((matchKey_iff _ _).1 hk7).symm.trans ((matchKey_iff _ _).1 hm))
        (by decide),
      fun hm => absurd (((matchKey_iff _ _).1 hk7).symm.trans ((matchKey_iff _ _).1 hm))
        (by decide),
      fun _ => hb,
      fun hm => absurd (((matchKey_iff _ _).1 hk7).symm.trans ((matchKey_iff _ _).1 hm))
        (by decide),
      fun hm => absurd (((matchKey_iff _ _).1 hk7).symm.trans ((matchKey_iff _ _).1 hm))
        (by decide)⟩
  rw [if_neg hk7] at h
  by_cases hk8 : matchKey "maxLaunchDelay" key = true
  · rw [if_pos hk8] at h
    obtain ⟨b, hb, rfl⟩ := store_ok _ _ _ _ h
    exact ⟨fun hm => absurd (((matchKey_iff _ _).1 hk8).symm.trans ((matchKey_iff _ _).1 hm))
        (by decide),
      fun hm => absurd (((matchKey_iff _ _).1 hk8).symm.trans ((matchKey_iff _ _).1 hm))
        (by decide),
      fun hm => absurd (((matchKey_iff _ _).1 hk8).symm.trans ((matchKey_iff _ _).1 hm))
        (by decide),
      fun hm => absurd (((matchKey_iff _ _).1 hk8).symm.trans ((matchKey_iff _ _).1 hm))
        (by decide),
      fun hm => absurd (((matchKey_iff _ _).1 hk8).symm.trans ((matchKey_iff _ _).1 hm))
        (by decide),
      fun _ => hb,
      fun hm => absurd (((matchKey_iff _ _).1 hk8).symm.trans ((matchKey_iff _ _).1 hm))
        (by decide)⟩
  rw [if_neg hk8] at h
  by_cases hk9 : matchKey "placement" key = true
  · rw [if_pos hk9] at h
    obtain ⟨b, hb, rfl⟩ := store_ok _ _ _ _ h
    exact ⟨fun hm => absurd (((matchKey_iff _ _).1 hk9).symm.trans ((matchKey_iff _ _).1 hm))
        (by decide),
      fun hm => absurd (((matchKey_iff _ _).1 hk9).symm.trans ((matchKey_iff _ _).1 hm))
        (by decide),
      fun hm => absurd (((matchKey_iff _ _).1 hk9).symm.trans ((matchKey_iff _ _).1 hm))
        (by decide),
      fun hm => absurd (((matchKey_iff _ _).1 hk9).symm.trans ((matchKey_iff _ _).1 hm))
        (by decide),
      fun hm => absurd (((matchKey_iff _ _).1 hk9).symm.trans ((matchKey_iff _ _).1 hm))
        (by decide),
      fun hm => absurd (((matchKey_iff _ _).1 hk9).symm.trans ((matchKey_iff _ _).1 hm))
        (by decide),
      fun hm => absurd (((matchKey_iff _ _).1 hk9).symm.trans ((matchKey_iff _ _).1 hm))
        (by decide)⟩
  rw [if_neg hk9] at h
  by_cases hk10 : matchKey "restart" key = true
  · rw [if_pos hk10] at h
    obtain ⟨b, hb, rfl⟩ := store_ok _ _ _ _ h
    exact ⟨fun hm => absurd (((matchKey_iff _ _).1 hk10).symm.trans ((matchKey_iff _ _).1 hm))
        (by decide),
      fun hm => absurd (((matchKey_iff _ _).1 hk10).symm.trans ((matchKey_iff _ _).1 hm))
        (by decide),
      fun hm => absurd (((matchKey_iff _ _).1 hk10).symm.trans ((matchKey_iff _ _).1 hm))
        (by decide),
      fun hm => absurd (((matchKey_iff _ _).1 hk10).symm.trans ((matchKey_iff _ _).1 hm))
        (by decide),
      fun hm => absurd (((matchKey_iff _ _).1 hk10).symm.trans ((matchKey_iff _ _).1 hm))
        (by decide),
      fun hm => absurd (((matchKey_iff _ _).1 hk10).symm.trans ((matchKey_iff _ _).1 hm))
        (by decide),
      fun hm => absurd (((matchKey_iff _ _).1 hk10).symm.trans ((matchKey_iff _ _).1 hm))
        (by decide)⟩
  rw [if_neg hk10] at h
  by_cases hk11 : matchKey "user" key = true
  · rw [if_pos hk11] at h
    obtain ⟨b, hb, rfl⟩ := store_ok _ _ _ _ h
    exact ⟨fun hm => absurd (((matchKey_iff _ _).1 hk11).symm.trans ((matchKey_iff _ _).1 hm))
        (by decide),
      fun hm => absurd (((matchKey_iff _ _).1 hk11).symm.trans ((matchKey_iff _ _).1 hm))
        (by decide),
      fun hm => absurd (((matchKey_iff _ _).1 hk11).symm.trans ((matchKey_iff _ _).1 hm))
        (by decide),
      fun hm => absurd (((matchKey_iff _ _).1 hk11).symm.trans ((matchKey_iff _ _).1 hm))
        (by decide),
      fun hm => absurd (((matchKey_iff _ _).1 hk11).symm.trans ((matchKey_iff _ _).1 hm))
        (by decide),
      fun hm => absurd (((matchKey_iff _ _).1 hk11).symm.trans ((matchKey_iff _ _).1 hm))
        (by decide),
      fun _ => hb⟩
  rw [if_neg hk11] at h
  by_cases hk12 : matchKey "volumes" key = true
  · rw [if_pos hk12] at h
    obtain ⟨b, hb, rfl⟩ := store_ok _ _ _ _ h
    exact ⟨fun hm => absurd (((matchKey_iff _ _).1 hk12).symm.trans ((matchKey_iff _ _).1 hm))
        (by decide),
      fun hm => absurd (((matchKey_iff _ _).1 hk12).symm.trans ((matchKey_iff _ _).1 hm))
        (by decide),
      fun hm => absurd (((matchKey_iff _ _).1 hk12).symm.trans ((matchKey_iff _ _).1 hm))
        (by decide),
      fun hm => absurd (((matchKey_iff _ _).1 hk12).symm.trans ((matchKey_iff _ _).1 hm))
        (by decide),
      fun hm => absurd (((matchKey_iff _ _).1 hk12).symm.trans ((matchKey_iff _ _).1 hm))
        (by decide),
      fun hm => absurd (((matchKey_iff _ _).1 hk12).symm.trans ((matchKey_iff _ _).1 hm))
        (by decide),
      fun hm => absurd (((matchKey_iff _ _).1 hk12).symm.trans ((matchKey_iff _ _).1 hm))
        (by decide)⟩
  rw [if_neg hk12] at h
  exact ⟨fun hm => absurd hm hk1,
    fun hm => absurd hm hk3,
    fun hm => absurd hm hk4,
    fun hm => absurd hm hk5,
    fun hm => absurd hm hk7,
    fun hm => absurd hm hk8,
    fun hm => absurd hm hk11⟩

theorem decodeString_value (old lit x v : String) (s : Option Error)
    (h : decodeString old (.string lit) = .ok (x, s)) (hv : jsonUnquote lit = some v) : x = v := by
  simp only [decodeString, hv, Except.ok.injEq, Prod.mk.injEq] at h
  exact h.1.symm

theorem decodeInt_value (old x n : Int) (lit : String) (f : Option Float64) (s : Option Error)
    (h : decodeInt old (.number lit f) = .ok (x, s)) (hn : Atoi lit = .ok n) : x = n := by
  simp only [decodeInt, hn, Except.ok.injEq, Prod.mk.injEq] at h
  exact h.1.symm

theorem decodeFloat_value (old x v : Float64) (lit : String) (s : Option Error)
    (h : decodeFloat old (.number lit (some v)) = .ok (x, s)) : x = v := by
  simp only [decodeFloat, Except.ok.injEq, Prod.mk.injEq] at h
  exact h.1.symm

theorem decodePtr_object {α : Type} (field : α → String → JSON → Decoding α) (zero : α)
    (old p : Option α) (raw : String) (ms : List (String × JSON)) (s : Option Error)
    (h : decodePtr field zero old (.object raw ms) = .ok (p, s)) :
    ∃ v, p = some v ∧ decodeMembers field (old.getD zero) none ms = .ok (v, s) := by
  simp only [decodePtr] at h
  cases hd : decodeMembers field (old.getD zero) none ms with
  | error e => rw [hd] at h; cases h
  | ok q =>
    obtain ⟨v, s1⟩ := q
    rw [hd] at h
    simp only [Except.ok.injEq, Prod.mk.injEq] at h
    exact ⟨v, h.1.symm, by rw [h.2]⟩

theorem decodeMembers_string {α : Type} (field : α → String → JSON → Decoding α) (name : String)
    (proj : α → String)
    (hkeep : ∀ a key j a1 s, field a key j = .ok (a1, s) → matchKey name key = false →
      proj a1 = proj a)
    (hsets : ∀ a key j a1 s, field a key j = .ok (a1, s) → matchKey name key = true →
      decodeString (proj a) j = .ok (proj a1, s))
    (ms : List (String × JSON)) (a : α) (saved : Option Error) (a1 : α) (s : Option Error)
    (h : decodeMembers field a saved ms = .ok (a1, s)) (lit v : String)
    (hl : lastValue (matchKey name) ms = some (.string lit)) (hv : jsonUnquote lit = some v) :
    proj a1 = v := by
  refine decodeMembers_last field (matchKey name)
    (fun j b => ∀ lit v, j = .string lit → jsonUnquote lit = some v → proj b = v)
    ?_ ?_ ms a saved a1 s _ hl h lit v rfl hv
  · intro w b key j b1 s1 hf hsel hq lit1 v1 hj hv1
    rw [hkeep b key j b1 s1 hf hsel]
    exact hq lit1 v1 hj hv1
  · intro b key j b1 s1 hf hsel lit1 v1 hj hv1
    subst hj
    exact decodeString_value _ _ _ _ _ (hsets b key _ b1 s1 hf hsel) hv1

theorem decodeMembers_int {α : Type} (field : α → String → JSON → Decoding α) (name : String)
    (proj : α → Int)
    (hkeep : ∀ a key j a1 s, field a key j = .ok (a1, s) → matchKey name key = false →
      proj a1 = proj a)
    (hsets : ∀ a key j a1 s, field a key j = .ok (a1, s) → matchKey name key = true →
      decodeInt (proj a) j = .ok (proj a1, s))
    (ms : List (String × JSON)) (a : α) (saved : Option Error) (a1 : α) (s : Option Error)
    (h : decodeMembers field a saved ms = .ok (a1, s)) (lit : String) (f : Option Float64)
    (n : Int) (hl : lastValue (matchKey name) ms = some (.number lit f))
    (hn : Atoi lit = .ok n) : proj a1 = n := by
  refine decodeMembers_last field (matchKey name)
    (fun j b => ∀ lit f n, j = .number lit f → Atoi lit = .ok n → proj b = n)
    ?_ ?_ ms a saved a1 s _ hl h lit f n rfl hn
  · intro w b key j b1 s1 hf hsel hq lit1 f1 n1 hj hn1
    rw [hkeep b key j b1 s1 hf hsel]
    exact hq lit1 f1 n1 hj hn1
  · intro b key j b1 s1 hf hsel lit1 f1 n1 hj hn1
    subst hj
    exact decodeInt_value _ _ _ _ _ _ (hsets b key _ b1 s1 hf hsel) hn1

theorem decodeMembers_float {α : Type} (field : α → String → JSON → Decoding α) (name : String)
    (proj : α → Float64)
    (hkeep : ∀ a key j a1 s, field a key j = .ok (a1, s) → matchKey name key = false →
      proj a1 = proj a)
    (hsets : ∀ a key j a1 s, field a key j = .ok (a1, s) → matchKey name key = true →
      decodeFloat (proj a) j = .ok (proj a1, s))
    (ms : List (String × JSON)) (a : α) (saved : Option Error) (a1 : α) (s : Option Error)
    (h : decodeMembers field a saved ms = .ok (a1, s)) (lit : String) (x : Float64)
    (hl : lastValue (matchKey name) ms = some (.number lit (some x))) : proj a1 = x := by
  refine decodeMembers_last field (matchKey name)
    (fun j b => ∀ lit x, j = .number lit (some x) → proj b = x)
    ?_ ?_ ms a saved a1 s _ hl h lit x rfl
  · intro w b key j b1 s1 hf hsel hq lit1 x1 hj
    rw [hkeep b key j b1 s1 hf hsel]
    exact hq lit1 x1 hj
  · intro b key j b1 s1 hf hsel lit1 x1 hj
    subst hj
    exact decodeFloat_value _ _ _ _ _ (hsets b key _ b1 s1 hf hsel)

theorem mem_mapSet_self (k v : String) (m : List (String × String)) : (k, v) ∈ mapSet k v m := by
  induction m with
  | nil => simp [mapSet]
  | cons e es ih =>
    unfold mapSet
    by_cases he : e.1 = k
    · rw [if_pos he]
      exact List.mem_cons_self _ _
    · rw [if_neg he]
      exact List.mem_cons_of_mem _ ih

theorem mem_mapSet_of_ne (k v k2 v2 : String) (m : List (String × String)) (hne : k2 ≠ k)
    (h : (k, v) ∈ m) : (k, v) ∈ mapSet k2 v2 m := by
  induction m with
  | nil => cases h
  | cons e es ih =>
    unfold mapSet
    by_cases he : e.1 = k2
    · rw [if_pos he]
      rcases List.mem_cons.1 h with heq | hmem
      · exfalso
        rw [← heq] at he
        exact hne he.symm
      · exact List.mem_cons_of_mem _ hmem
    · rw [if_neg he]
      rcases List.mem_cons.1 h with heq | hmem
      · rw [heq]
        exact List.mem_cons_self _ _
      · exact List.mem_cons_of_mem _ (ih hmem)

theorem decodeEntries_frame (key v : String) (es : List (String × JSON)) :
    ∀ (m : List (String × String)) (saved : Option Error) (env : List (String × String))
      (s : Option Error),
      lastValue (fun k => k == key) es = none → decodeEntries m saved es = .ok (env, s) →
      (key, v) ∈ m → (key, v) ∈ env := by
  induction es with
  | nil =>
    intro m saved env s _ h hm
    simp only [decodeEntries, Except.ok.injEq, Prod.mk.injEq] at h
    rw [← h.1]
    exact hm
  | cons e es ih =>
    intro m saved env s hl h hm
    simp only [lastValue] at hl
    cases hlm : lastValue (fun k => k == key) es with
    | some w => rw [hlm] at hl; cases hl
    | none =>
      rw [hlm] at hl
      simp only at hl
      have hne : e.1 ≠ key := by
        intro heq
        rw [heq] at hl
        simp at hl
      simp only [decodeEntries] at h
      cases hd : decodeString "" e.2 with
      | error err => rw [hd] at h; cases h
      | ok p =>
        obtain ⟨x, s1⟩ := p
        rw [hd] at h
        simp only at h
        exact ih _ _ env s hlm h (mem_mapSet_of_ne key v e.1 x m hne hm)

theorem decodeEntries_last (key lit v : String) (hv : jsonUnquote lit = some v)
    (es : List (String × JSON)) :
    ∀ (m : List (String × String)) (saved : Option Error) (env : List (String × String))
      (s : Option Error),
      lastValue (fun k => k == key) es = some (.string lit) →
      decodeEntries m saved es = .ok (env, s) → (key, v) ∈ env := by
  induction es with
  | nil =>
    intro m saved env s hl
    simp [lastValue] at hl
  | cons e es ih =>
    intro m saved env s hl h
    simp only [decodeEntries] at h
    cases hd : decodeString "" e.2 with
    | error err => rw [hd] at h; cases h
    | ok p =>
      obtain ⟨x, s1⟩ := p
      rw [hd] at h
      simp only at h
      simp only [lastValue] at hl
      cases hlm : lastValue (fun k => k == key) es with
      | some w =>
        rw [hlm] at hl
        simp only [Option.some.injEq] at hl
        subst hl
        exact ih _ _ env s hlm h
      | none =>
        rw [hlm] at hl
        simp only at hl
        by_cases hk : (e.1 == key) = true
        · rw [if_pos hk] at hl
          simp only [Option.some.injEq] at hl
          have hkey : e.1 = key := by simpa using hk
          rw [hl] at hd
          have hx : x = v := decodeString_value _ _ _ _ _ hd hv
          refine decodeEntries_frame key v es _ _ env s hlm h ?_
          rw [hkey, hx]
          exact mem_mapSet_self key v m
        · rw [if_neg hk] at hl
          cases hl

theorem decodeString_fits (old : String) (j : JSON) (h : j.fitsString = true) :
    ∃ x, decodeString old j = .ok (x, none) := by
  cases j with
  | null => exact ⟨old, rfl⟩
  | string lit =>
    cases hu : jsonUnquote lit with
    | none => simp [JSON.fitsString, hu] at h
    | some v => exact ⟨v, by simp only [decodeString, hu]⟩
  | bool b => simp [JSON.fitsString] at h
  | number lit f => simp [JSON.fitsString] at h
  | array raw elems => simp [JSON.fitsString] at h
  | object raw ms => simp [JSON.fitsString] at h

theorem decodeInt_fits (old : Int) (j : JSON) (h : j.fitsInt = true) :
    ∃ x, decodeInt old j = .ok (x, none) := by
  cases j with
  | null => exact ⟨old, rfl⟩
  | number lit f =>
    cases ha : Atoi lit with
    | error e => simp [JSON.fitsInt, ha] at h
    | ok n => exact ⟨n, by simp only [decodeInt, ha]⟩
  | bool b => simp [JSON.fitsInt] at h
  | string lit => simp [JSON.fitsInt] at h
  | array raw elems => simp [JSON.fitsInt] at h
  | object raw ms => simp [JSON.fitsInt] at h

theorem decodeFloat_fits (old : Float64) (j : JSON) (h : j.fitsFloat = true) :
    ∃ x, decodeFloat old j = .ok (x, none) := by
  cases j with
  | null => exact ⟨old, rfl⟩
  | number lit f =>
    cases f with
    | none => simp [JSON.fitsFloat] at h
    | some x => exact ⟨x, rfl⟩
  | bool b => simp [JSON.fitsFloat] at h
  | string lit => simp [JSON.fitsFloat] at h
  | array raw elems => simp [JSON.fitsFloat] at h
  | object raw ms => simp [JSON.fitsFloat] at h

theorem decodeEntries_fits (es : List (String × JSON)) :
    ∀ (m : List (String × String)) (saved : Option Error),
      es.all (fun e => e.2.fitsString) = true →
      ∃ env, decodeEntries m saved es = .ok (env, saved) := by
  induction es with
  | nil =>
    intro m saved _
    exact ⟨m, rfl⟩
  | cons e es ih =>
    intro m saved hall
    simp only [List.all_cons, Bool.and_eq_true] at hall
    obtain ⟨x, hx⟩ := decodeString_fits "" e.2 hall.1
    obtain ⟨env, henv⟩ := ih (mapSet e.1 x m) saved hall.2
    refine ⟨env, ?_⟩
    simp only [decodeEntries, hx, keepFirst_none]
    exact henv

theorem decodeMap_fits (old : List (String × String)) (j : JSON) (h : j.fitsStringMap = true) :
    ∃ env, decodeMap old j = .ok (env, none) := by
  cases j with
  | null => exact ⟨[], rfl⟩
  | object raw es =>
    simp only [JSON.fitsStringMap] at h
    exact decodeEntries_fits es old none h
  | bool b => simp [JSON.fitsStringMap] at h
  | number lit f => simp [JSON.fitsStringMap] at h
  | string lit => simp [JSON.fitsStringMap] at h
  | array raw elems => simp [JSON.fitsStringMap] at h

theorem labelsMemberFits_congr (key key2 : String) (j : JSON)
    (h : key.data.map foldChar = key2.data.map foldChar) :
    labelsMemberFits key j = labelsMemberFits key2 j := by
  unfold labelsMemberFits
  rw [matchKey_congr "location" key key2 h, matchKey_congr "owner" key key2 h]

theorem runMemberFits_congr (key key2 : String) (j : JSON)
    (h : key.data.map foldChar = key2.data.map foldChar) :
    runMemberFits key j = runMemberFits key2 j := by
  unfold runMemberFits
  rw [matchKey_congr "cmd" key key2 h, matchKey_congr "user" key key2 h,
    matchKey_congr "cpus" key key2 h, matchKey_congr "mem" key key2 h,
    matchKey_congr "disk" key key2 h, matchKey_congr "maxLaunchDelay" key key2 h,
    matchKey_congr "env" key key2 h]

theorem jobMemberFits_congr (key key2 : String) (j : JSON)
    (h : key.data.map foldChar = key2.data.map foldChar) :
    jobMemberFits key j = jobMemberFits key2 j := by
  unfold jobMemberFits
  rw [matchKey_congr "description" key key2 h, matchKey_congr "id" key key2 h,
    matchKey_congr "labels" key key2 h, matchKey_congr "run" key key2 h]

theorem Labels_field_fits (l : Labels) (key : String) (j : JSON)
    (hfits : labelsMemberFits key j = true) : ∃ l1, Labels.field l key j = .ok (l1, none) := by
  unfold Labels.field
  by_cases hk0 : matchKey "location" key = true
  · rw [if_pos hk0]
    have hf : j.fitsString = true := by
      rw [labelsMemberFits_congr key "location" j ((matchKey_iff _ _).1 hk0)] at hfits
      exact hfits
    obtain ⟨x, hx⟩ := decodeString_fits l.Location j hf
    exact ⟨_, by rw [hx]; rfl⟩
  rw [if_neg hk0]
  by_cases hk1 : matchKey "owner" key = true
  · rw [if_pos hk1]
    have hf : j.fitsString = true := by
      rw [labelsMemberFits_congr key "owner" j ((matchKey_iff _ _).1 hk1)] at hfits
      exact hfits
    obtain ⟨x, hx⟩ := decodeString_fits l.Owner j hf
    exact ⟨_, by rw [hx]; rfl⟩
  rw [if_neg hk1]
  exact ⟨l, rfl⟩

theorem Run_field_fits (r : Run) (key : String) (j : JSON)
    (hfits : runMemberFits key j = true) (hopt : notOptionalRunKey key = true) :
    ∃ r1, Run.field r key j = .ok (r1, none) := by
  simp only [notOptionalRunKey, optionalRunKeys, List.all_cons, List.all_nil, Bool.and_true,
    Bool.and_eq_true, Bool.not_eq_true', ] at hopt
  obtain ⟨hd, hp, hr, hv, ha, hg⟩ := hopt
  unfold Run.field
  simp only [hd, hp, hr, hv, ha, hg, Bool.false_eq_true, if_false]
  by_cases hk0 : matchKey "cmd" key = true
  · rw [if_pos hk0]
    have hf : j.fitsString = true := by
      rw [runMemberFits_congr key "cmd" j ((matchKey_iff _ _).1 hk0)] at hfits
      exact hfits
    obtain ⟨x, hx⟩ := decodeString_fits r.Cmd_ j hf
    exact ⟨_, by rw [hx]; rfl⟩
  rw [if_neg hk0]
  by_cases hk1 : matchKey "cpus" key = true
  · rw [if_pos hk1]
    have hf : j.fitsFloat = true := by
      rw [runMemberFits_congr key "cpus" j ((matchKey_iff _ _).1 hk1)] at hfits
      exact hfits
    obtain ⟨x, hx⟩ := decodeFloat_fits r.Cpus_ j hf
    exact ⟨_, by rw [hx]; rfl⟩
  rw [if_neg hk1]
  by_cases hk2 : matchKey "mem" key = true
  · rw [if_pos hk2]
    have hf : j.fitsInt = true := by
      rw [runMemberFits_congr key "mem" j ((matchKey_iff _ _).1 hk2)] at hfits
      exact hfits
    obtain ⟨x, hx⟩ := decodeInt_fits r.Mem_ j hf
    exact ⟨_, by rw [hx]; rfl⟩
  rw [if_neg hk2]
  by_cases hk3 : matchKey "disk" key = true
  · rw [if_pos hk3]
    have hf : j.fitsInt = true := by
      rw [runMemberFits_congr key "disk" j ((matchKey_iff _ _).1 hk3)] at hfits
      exact hfits
    obtain ⟨x, hx⟩ := decodeInt_fits r.Disk_ j hf
    exact ⟨_, by rw [hx]; rfl⟩
  rw [if_neg hk3]
  by_cases hk4 : matchKey "env" key = true
  · rw [if_pos hk4]
    have hf : j.fitsStringMap = true := by
      rw [runMemberFits_congr key "env" j ((matchKey_iff _ _).1 hk4)] at hfits
      exact hfits
    obtain ⟨x, hx⟩ := decodeMap_fits r.Env_ j hf
    exact ⟨_, by rw [hx]; rfl⟩
  rw [if_neg hk4]
  by_cases hk5 : matchKey "maxLaunchDelay" key = true
  · rw [if_pos hk5]
    have hf : j.fitsInt = true := by
      rw [runMemberFits_congr key "maxLaunchDelay" j ((matchKey_iff _ _).1 hk5)] at hfits
      exact hfits
    obtain ⟨x, hx⟩ := decodeInt_fits r.MaxLaunchDelay_ j hf
    exact ⟨_, by rw [hx]; rfl⟩
  rw [if_neg hk5]
  by_cases hk6 : matchKey "user" key = true
  · rw [if_pos hk6]
    have hf : j.fitsString = true := by
      rw [runMemberFits_congr key "user" j ((matchKey_iff _ _).1 hk6)] at hfits
      exact hfits
    obtain ⟨x, hx⟩ := decodeString_fits r.User_ j hf
    exact ⟨_, by rw [hx]; rfl⟩
  rw [if_neg hk6]
  exact ⟨r, rfl⟩

theorem decodePtr_fits {α : Type} (field : α → String → JSON → Decoding α) (zero : α)
    (old : Option α) (j : JSON) (fits : String → JSON → Bool)
    (hstep : ∀ a key j, fits key j = true → ∃ a1, field a key j = .ok (a1, none))
    (hj : j = .null ∨ ∃ raw ms, j = .object raw ms ∧ ms.all (fun m => fits m.1 m.2) = true) :
    ∃ p, decodePtr field zero old j = .ok (p, none) := by
  rcases hj with rfl | ⟨raw, ms, rfl, hall⟩
  · exact ⟨none, rfl⟩
  · obtain ⟨a1, h1⟩ := decodeMembers_fits field fits hstep ms (old.getD zero) none hall
    exact ⟨some a1, by simp only [decodePtr, h1]⟩

theorem Job_field_fits (job : Job) (key : String) (j : JSON)
    (hm : (!matchKey "run" key ||
      match j with
      | .object _ ms => ms.all (fun e => notOptionalRunKey e.1)
      | _ => true) = true)
    (hfits : jobMemberFits key j = true) :
    ∃ job1, Job.field job key j = .ok (job1, none) := by
  unfold Job.field
  by_cases hk0 : matchKey "description" key = true
  · rw [if_pos hk0]
    have hf : j.fitsString = true := by
      rw [jobMemberFits_congr key "description" j ((matchKey_iff _ _).1 hk0)] at hfits
      exact hfits
    obtain ⟨x, hx⟩ := decodeString_fits job.Description_ j hf
    exact ⟨_, by rw [hx]; rfl⟩
  rw [if_neg hk0]
  by_cases hk1 : matchKey "id" key = true
  · rw [if_pos hk1]
    have hf : j.fitsString = true := by
      rw [jobMemberFits_congr key "id" j ((matchKey_iff _ _).1 hk1)] at hfits
      exact hfits
    obtain ⟨x, hx⟩ := decodeString_fits job.ID_ j hf
    exact ⟨_, by rw [hx]; rfl⟩
  rw [if_neg hk1]
  by_cases hk2 : matchKey "labels" key = true
  · rw [if_pos hk2]
    have hf : j.fitsLabels = true := by
      rw [jobMemberFits_congr key "labels" j ((matchKey_iff _ _).1 hk2)] at hfits
      exact hfits
    have hj : j = .null ∨ ∃ raw ms, j = .object raw ms ∧
        ms.all (fun m => labelsMemberFits m.1 m.2) = true := by
      cases j with
      | null => exact Or.inl rfl
      | object raw ms => exact Or.inr ⟨raw, ms, rfl, hf⟩
      | bool b => simp [JSON.fitsLabels] at hf
      | number lit f => simp [JSON.fitsLabels] at hf
      | string lit => simp [JSON.fitsLabels] at hf
      | array raw elems => simp [JSON.fitsLabels] at hf
    obtain ⟨p, hp⟩ :=
      decodePtr_fits Labels.field ⟨"", ""⟩ job.Labels_ j labelsMemberFits Labels_field_fits hj
    exact ⟨_, by rw [hp]; rfl⟩
  rw [if_neg hk2]
  by_cases hk3 : matchKey "run" key = true
  · rw [if_pos hk3]
    have hf : j.fitsRun = true := by
      rw [jobMemberFits_congr key "run" j ((matchKey_iff _ _).1 hk3)] at hfits
      exact hfits
    simp only [hk3, Bool.not_true, Bool.false_or] at hm
    have hj : j = .null ∨ ∃ raw ms, j = .object raw ms ∧
        ms.all (fun m => runMemberFits m.1 m.2 && notOptionalRunKey m.1) = true := by
      cases j with
      | null => exact Or.inl rfl
      | object raw ms =>
        refine Or.inr ⟨raw, ms, rfl, ?_⟩
        simp only [JSON.fitsRun] at hf
        simp only at hm
        rw [List.all_eq_true] at hf hm ⊢
        intro m hmem
        rw [Bool.and_eq_true]
        exact ⟨hf m hmem, hm m hmem⟩
      | bool b => simp [JSON.fitsRun] at hf
      | number lit f => simp [JSON.fitsRun] at hf
      | string lit => simp [JSON.fitsRun] at hf
      | array raw elems => simp [JSON.fitsRun] at hf
    obtain ⟨p, hp⟩ :=
      decodePtr_fits Run.field Run.zero job.Run_ j
        (fun k v => runMemberFits k v && notOptionalRunKey k)
        (fun a k v hkv => by
          rw [Bool.and_eq_true] at hkv
          exact Run_field_fits a k v hkv.1 hkv.2) hj
    exact ⟨_, by rw [hp]; rfl⟩
  rw [if_neg hk3]
  exact ⟨job, rfl⟩

theorem Labels_decodeMembers_populated (lms : List (String × JSON)) (l0 l : Labels)
    (saved s : Option Error) (h : decodeMembers Labels.field l0 saved lms = .ok (l, s)) :
    (∀ lit v, lastValue (matchKey "location") lms = some (.string lit) →
      jsonUnquote lit = some v → l.Location = v) ∧
    (∀ lit v, lastValue (matchKey "owner") lms = some (.string lit) →
      jsonUnquote lit = some v → l.Owner = v) := by
  constructor
  · intro lit v hl hv
    exact decodeMembers_string Labels.field "location" (fun a => a.Location)
      (fun a key j a1 s hf hsel => (Labels_field_keeps a a1 key j s hf).1 hsel)
      (fun a key j a1 s hf hsel => (Labels_field_sets a a1 key j s hf).1 hsel)
      lms l0 saved l s h lit v hl hv
  · intro lit v hl hv
    exact decodeMembers_string Labels.field "owner" (fun a => a.Owner)
      (fun a key j a1 s hf hsel => (Labels_field_keeps a a1 key j s hf).2 hsel)
      (fun a key j a1 s hf hsel => (Labels_field_sets a a1 key j s hf).2 hsel)
      lms l0 saved l s h lit v hl hv

theorem Run_decodeMembers_populated (rms : List (String × JSON)) (r0 r : Run)
    (saved s : Option Error) (h : decodeMembers Run.field r0 saved rms = .ok (r, s)) :
    (∀ lit v, lastValue (matchKey "cmd") rms = some (.string lit) →
      jsonUnquote lit = some v → r.Cmd_ = v) ∧
    (∀ lit x, lastValue (matchKey "cpus") rms = some (.number lit (some x)) → r.Cpus_ = x) ∧
    (∀ lit f n, lastValue (matchKey "mem") rms = some (.number lit f) →
      Atoi lit = .ok n → r.Mem_ = n) ∧
    (∀ lit f n, lastValue (matchKey "disk") rms = some (.number lit f) →
      Atoi lit = .ok n → r.Disk_ = n) ∧
    (∀ rawE entries key lit v, lastValue (matchKey "env") rms = some (.object rawE entries) →
      lastValue (fun k => k == key) entries = some (.string lit) → jsonUnquote lit = some v →
      (key, v) ∈ r.Env_) ∧
    (∀ lit f n, lastValue (matchKey "maxLaunchDelay") rms = some (.number lit f) →
      Atoi lit = .ok n → r.MaxLaunchDelay_ = n) ∧
    (∀ lit v, lastValue (matchKey "user") rms = some (.string lit) →
      jsonUnquote lit = some v → r.User_ = v) := by
  refine ⟨?_, ?_, ?_, ?_, ?_, ?_, ?_⟩
  · intro lit v hl hv
    exact decodeMembers_string Run.field "cmd" (fun a => a.Cmd_)
      (fun a key j a1 s hf hsel => (Run_field_keeps a a1 key j s hf).1 hsel)
      (fun a key j a1 s hf hsel => (Run_field_sets a a1 key j s hf).1 hsel)
      rms r0 saved r s h lit v hl hv
  · intro lit x hl
    exact decodeMembers_float Run.field "cpus" (fun a => a.Cpus_)
      (fun a key j a1 s hf hsel => (Run_field_keeps a a1 key j s hf).2.1 hsel)
      (fun a key j a1 s hf hsel => (Run_field_sets a a1 key j s hf).2.1 hsel)
      rms r0 saved r s h lit x hl
  · intro lit f n hl hn
    exact decodeMembers_int Run.field "mem" (fun a => a.Mem_)
      (fun a key j a1 s hf hsel => (Run_field_keeps a a1 key j s hf).2.2.1 hsel)
      (fun a key j a1 s hf hsel => (Run_field_sets a a1 key j s hf).2.2.1 hsel)
      rms r0 saved r s h lit f n hl hn
  · intro lit f n hl hn
    exact decodeMembers_int Run.field "disk" (fun a => a.Disk_)
      (fun a key j a1 s hf hsel => (Run_field_keeps a a1 key j s hf).2.2.2.1 hsel)
      (fun a key j a1 s hf hsel => (Run_field_sets a a1 key j s hf).2.2.2.1 hsel)
      rms r0 saved r s h lit f n hl hn
  · intro rawE entries key lit v hl hle hv
    refine decodeMembers_last Run.field (matchKey "env")
      (fun j b => ∀ rawE entries, j = .object rawE entries →
        lastValue (fun k => k == key) entries = some (.string lit) → (key, v) ∈ b.Env_)
      ?_ ?_ rms r0 saved r s _ hl h rawE entries rfl hle
    · intro w b k j b1 s1 hf hsel hq raw1 es1 hj hl1
      rw [(Run_field_keeps b b1 k j s1 hf).2.2.2.2.1 hsel]
      exact hq raw1 es1 hj hl1
    · intro b k j b1 s1 hf hsel raw1 es1 hj hl1
      subst hj
      have hmap := (Run_field_sets b b1 k _ s1 hf).2.2.2.2.1 hsel
      simp only [decodeMap] at hmap
      exact decodeEntries_last key lit v hv es1 _ _ _ _ hl1 hmap
  · intro lit f n hl hn
    exact decodeMembers_int Run.field "maxLaunchDelay" (fun a => a.MaxLaunchDelay_)
      (fun a key j a1 s hf hsel => (Run_field_keeps a a1 key j s hf).2.2.2.2.2.1 hsel)
      (fun a key j a1 s hf hsel => (Run_field_sets a a1 key j s hf).2.2.2.2.2.1 hsel)
      rms r0 saved r s h lit f n hl hn
  · intro lit v hl hv
    exact decodeMembers_string Run.field "user" (fun a => a.User_)
      (fun a key j a1 s hf hsel => (Run_field_keeps a a1 key j s hf).2.2.2.2.2.2 hsel)
      (fun a key j a1 s hf hsel => (Run_field_sets a a1 key j s hf).2.2.2.2.2.2 hsel)
      rms r0 saved r s h lit v hl hv

theorem keepFirst_eq_none (saved new : Option Error) (h : keepFirst saved new = none) :
    saved = none ∧ new = none := by
  cases saved with
  | none => exact ⟨rfl, h⟩
  | some e => cases h

theorem decodeMembers_saved {α : Type} (field : α → String → JSON → Decoding α) :
    ∀ (ms : List (String × JSON)) (a : α) (saved : Option Error) (a1 : α),
      decodeMembers field a saved ms = .ok (a1, none) → saved = none := by
  intro ms
  induction ms with
  | nil =>
    intro a saved a1 h
    simp only [decodeMembers, Except.ok.injEq, Prod.mk.injEq] at h
    exact h.2
  | cons m ms ih =>
    intro a saved a1 h
    simp only [decodeMembers] at h
    cases hf : field a m.1 m.2 with
    | error e => rw [hf] at h; cases h
    | ok p =>
      obtain ⟨a2, s2⟩ := p
      rw [hf] at h
      simp only at h
      exact (keepFirst_eq_none _ _ (ih a2 _ a1 h)).1

theorem decodeMembers_ok_fits {α : Type} (field : α → String → JSON → Decoding α)
    (fits : String → JSON → Bool)
    (hstep : ∀ a key j a1, field a key j = .ok (a1, none) → fits key j = true) :
    ∀ (ms : List (String × JSON)) (a : α) (saved : Option Error) (a1 : α),
      decodeMembers field a saved ms = .ok (a1, none) →
      ms.all (fun m => fits m.1 m.2) = true := by
  intro ms
  induction ms with
  | nil =>
    intro a saved a1 _
    rfl
  | cons m ms ih =>
    intro a saved a1 h
    simp only [decodeMembers] at h
    cases hf : field a m.1 m.2 with
    | error e => rw [hf] at h; cases h
    | ok p =>
      obtain ⟨a2, s2⟩ := p
      rw [hf] at h
      simp only at h
      have hs2 : s2 = none := (keepFirst_eq_none _ _ (decodeMembers_saved field ms a2 _ a1 h)).2
      rw [hs2] at hf
      simp only [List.all_cons, Bool.and_eq_true]
      exact ⟨hstep a m.1 m.2 a2 hf, ih a2 _ a1 h⟩

theorem decodeString_ok_fits (old x : String) (j : JSON)
    (h : decodeString old j = .ok (x, none)) : j.fitsString = true := by
  cases j with
  | null => rfl
  | string lit =>
    cases hu : jsonUnquote lit with
    | none => simp [decodeString, hu] at h
    | some v => simp [JSON.fitsString, hu]
  | bool b => simp [decodeString] at h
  | number lit f => simp [decodeString] at h
  | array raw elems => simp [decodeString] at h
  | object raw ms => simp [decodeString] at h

theorem decodeInt_ok_fits (old x : Int) (j : JSON)
    (h : decodeInt old j = .ok (x, none)) : j.fitsInt = true := by
  cases j with
  | null => rfl
  | number lit f =>
    cases ha : Atoi lit with
    | error e => simp [decodeInt, ha] at h
    | ok n => simp [JSON.fitsInt, ha]
  | bool b => simp [decodeInt] at h
  | string lit => simp [decodeInt] at h
  | array raw elems => simp [decodeInt] at h
  | object raw ms => simp [decodeInt] at h

theorem decodeFloat_ok_fits (old x : Float64) (j : JSON)
    (h : decodeFloat old j = .ok (x, none)) : j.fitsFloat = true := by
  cases j with
  | null => rfl
  | number lit f =>
    cases f with
    | none => simp [decodeFloat] at h
    | some v => rfl
  | bool b => simp [decodeFloat] at h
  | string lit => simp [decodeFloat] at h
  | array raw elems => simp [decodeFloat] at h
  | object raw ms => simp [decodeFloat] at h

theorem decodeEntries_saved (es : List (String × JSON)) :
    ∀ (m : List (String × String)) (saved : Option Error) (env : List (String × String)),
      decodeEntries m saved es = .ok (env, none) → saved = none := by
  induction es with
  | nil =>
    intro m saved env h
    simp only [decodeEntries, Except.ok.injEq, Prod.mk.injEq] at h
    exact h.2
  | cons e es ih =>
    intro m saved env h
    simp only [decodeEntries] at h
    cases hd : decodeString "" e.2 with
    | error err => rw [hd] at h; cases h
    | ok p =>
      obtain ⟨x, s1⟩ := p
      rw [hd] at h
      simp only at h
      exact (keepFirst_eq_none _ _ (ih _ _ env h)).1

theorem decodeEntries_ok_fits (es : List (String × JSON)) :
    ∀ (m : List (String × String)) (saved : Option Error) (env : List (String × String)),
      decodeEntries m saved es = .ok (env, none) → es.all (fun e => e.2.fitsString) = true := by
  induction es with
  | nil =>
    intro m saved env _
    rfl
  | cons e es ih =>
    intro m saved env h
    simp only [decodeEntries] at h
    cases hd : decodeString "" e.2 with
    | error err => rw [hd] at h; cases h
    | ok p =>
      obtain ⟨x, s1⟩ := p
      rw [hd] at h
      simp only at h
      have hs1 : s1 = none := (keepFirst_eq_none _ _ (decodeEntries_saved es _ _ env h)).2
      rw [hs1] at hd
      simp only [List.all_cons, Bool.and_eq_true]
      exact ⟨decodeString_ok_fits "" x e.2 hd, ih _ _ env h⟩

theorem decodeMap_ok_fits (old env : List (String × String)) (j : JSON)
    (h : decodeMap old j = .ok (env, none)) : j.fitsStringMap = true := by
  cases j with
  | null => rfl
  | object raw es =>
    simp only [decodeMap] at h
    exact decodeEntries_ok_fits es old none env h
  | bool b => simp [decodeMap] at h
  | number lit f => simp [decodeMap] at h
  | string lit => simp [decodeMap] at h
  | array raw elems => simp [decodeMap] at h

theorem decodePtr_ok_fits {α : Type} (field : α → String → JSON → Decoding α) (zero : α)
    (old p : Option α) (j : JSON) (fits : String → JSON → Bool)
    (hstep : ∀ a key j a1, field a key j = .ok (a1, none) → fits key j = true)
    (h : decodePtr field zero old j = .ok (p, none)) :
    j = .null ∨ ∃ raw ms, j = .object raw ms ∧ ms.all (fun m => fits m.1 m.2) = true := by
  cases j with
  | null => exact Or.inl rfl
  | object raw ms =>
    obtain ⟨v, _, hv⟩ := decodePtr_object field zero old p raw ms none h
    exact Or.inr ⟨raw, ms, rfl, decodeMembers_ok_fits field fits hstep ms _ none v hv⟩
  | bool b => simp [decodePtr] at h
  | number lit f => simp [decodePtr] at h
  | string lit => simp [decodePtr] at h
  | array raw elems => simp [decodePtr] at h

theorem Labels_field_ok_fits (l : Labels) (key : String) (j : JSON) (l1 : Labels)
    (h : Labels.field l key j = .ok (l1, none)) : labelsMemberFits key j = true := by
  by_cases hk0 : matchKey "location" key = true
  · rw [labelsMemberFits_congr key "location" j ((matchKey_iff _ _).1 hk0)]
    exact decodeString_ok_fits _ _ j ((Labels_field_sets l l1 key j none h).1 hk0)
  by_cases hk1 : matchKey "owner" key = true
  · rw [labelsMemberFits_congr key "owner" j ((matchKey_iff _ _).1 hk1)]
    exact decodeString_ok_fits _ _ j ((Labels_field_sets l l1 key j none h).2 hk1)
  unfold labelsMemberFits
  simp only [hk0, hk1, Bool.or_self, Bool.false_eq_true, if_false]

theorem Run_field_ok_fits (r : Run) (key : String) (j : JSON) (r1 : Run)
    (h : Run.field r key j = .ok (r1, none)) : runMemberFits key j = true := by
  have hs := Run_field_sets r r1 key j none h
  by_cases hk0 : matchKey "cmd" key = true
  · rw [runMemberFits_congr key "cmd" j ((matchKey_iff _ _).1 hk0)]
    exact decodeString_ok_fits _ _ j (hs.1 hk0)
  by_cases hk1 : matchKey "cpus" key = true
  · rw [runMemberFits_congr key "cpus" j ((matchKey_iff _ _).1 hk1)]
    exact decodeFloat_ok_fits _ _ j (hs.2.1 hk1)
  by_cases hk2 : matchKey "mem" key = true
  · rw [runMemberFits_congr key "mem" j ((matchKey_iff _ _).1 hk2)]
    exact decodeInt_ok_fits _ _ j (hs.2.2.1 hk2)
  by_cases hk3 : matchKey "disk" key = true
  · rw [runMemberFits_congr key "disk" j ((matchKey_iff _ _).1 hk3)]
    exact decodeInt_ok_fits _ _ j (hs.2.2.2.1 hk3)
  by_cases hk4 : matchKey "env" key = true
  · rw [runMemberFits_congr key "env" j ((matchKey_iff _ _).1 hk4)]
    exact decodeMap_ok_fits _ _ j (hs.2.2.2.2.1 hk4)
  by_cases hk5 : matchKey "maxLaunchDelay" key = true
  · rw [runMemberFits_congr key "maxLaunchDelay" j ((matchKey_iff _ _).1 hk5)]
    exact decodeInt_ok_fits _ _ j (hs.2.2.2.2.2.1 hk5)
  by_cases hk6 : matchKey "user" key = true
  · rw [runMemberFits_congr key "user" j ((matchKey_iff _ _).1 hk6)]
    exact decodeString_ok_fits _ _ j (hs.2.2.2.2.2.2 hk6)
  unfold runMemberFits
  simp only [hk0, hk1, hk2, hk3, hk4, hk5, hk6, Bool.or_self, Bool.false_eq_true, if_false]

theorem Job_field_ok_fits (job : Job) (key : String) (j : JSON) (job1 : Job)
    (h : Job.field job key j = .ok (job1, none)) : jobMemberFits key j = true := by
  have hs := Job_field_sets job job1 key j none h
  by_cases hk0 : matchKey "description" key = true
  · rw [jobMemberFits_congr key "description" j ((matchKey_iff _ _).1 hk0)]
    exact decodeString_ok_fits _ _ j (hs.1 hk0)
  by_cases hk1 : matchKey "id" key = true
  · rw [jobMemberFits_congr key "id" j ((matchKey_iff _ _).1 hk1)]
    exact decodeString_ok_fits _ _ j (hs.2.1 hk1)
  by_cases hk2 : matchKey "labels" key = true
  · rw [jobMemberFits_congr key "labels" j ((matchKey_iff _ _).1 hk2)]
    rcases decodePtr_ok_fits Labels.field ⟨"", ""⟩ job.Labels_ job1.Labels_ j labelsMemberFits
      Labels_field_ok_fits (hs.2.2.1 hk2) with rfl | ⟨raw, ms, rfl, hall⟩
    · rfl
    · exact hall
  by_cases hk3 : matchKey "run" key = true
  · rw [jobMemberFits_congr key "run" j ((matchKey_iff _ _).1 hk3)]
    rcases decodePtr_ok_fits Run.field Run.zero job.Run_ job1.Run_ j runMemberFits
      Run_field_ok_fits (hs.2.2.2 hk3) with rfl | ⟨raw, ms, rfl, hall⟩
    · rfl
    · exact hall
  unfold jobMemberFits
  simp only [hk0, hk1, hk2, hk3, Bool.or_self, Bool.false_eq_true, if_false]

theorem jsonUnmarshalJob_object (raw : String) (members : List (String × JSON)) (job : Job) :
    jsonUnmarshalJob (.object raw members) = .ok job ↔
      decodeMembers Job.field Job.zero none members = .ok (job, none) := by
  unfold jsonUnmarshalJob
  simp only [decodeStruct]
  cases hd : decodeMembers Job.field Job.zero none members with
  | error e => simp
  | ok p =>
    obtain ⟨job1, s⟩ := p
    cases s with
    | some e => simp
    | none => simp

theorem Job_decodeMembers_fits (raw : String) (members : List (String × JSON))
    (hfits : isJobPayload members = true)
    (hkeys : runLacksOptionalKeys (.object raw members) = true) :
    ∃ job, decodeMembers Job.field Job.zero none members = .ok (job, none) := by
  simp only [runLacksOptionalKeys] at hkeys
  unfold isJobPayload at hfits
  refine decodeMembers_fits Job.field
    (fun k v => jobMemberFits k v &&
      (!matchKey "run" k ||
        match v with
        | .object _ ms => ms.all (fun e => notOptionalRunKey e.1)
        | _ => true))
    (fun a k v hkv => by
      rw [Bool.and_eq_true] at hkv
      exact Job_field_fits a k v hkv.2 hkv.1) members Job.zero none ?_
  rw [List.all_eq_true] at hfits hkeys ⊢
  intro m hmem
  rw [Bool.and_eq_true]
  exact ⟨hfits m hmem, hkeys m hmem⟩

theorem Job_decodeMembers_populated (members : List (String × JSON)) (job0 job : Job)
    (saved s : Option Error) (h : decodeMembers Job.field job0 saved members = .ok (job, s)) :
    (∀ lit v, lastValue (matchKey "id") members = some (.string lit) →
      jsonUnquote lit = some v → job.ID_ = v) ∧
    (∀ lit v, lastValue (matchKey "description") members = some (.string lit) →
      jsonUnquote lit = some v → job.Description_ = v) ∧
    (∀ rawL lms, lastValue (matchKey "labels") members = some (.object rawL lms) →
      ∃ l, job.Labels_ = some l ∧
        (∀ lit v, lastValue (matchKey "location") lms = some (.string lit) →
          jsonUnquote lit = some v → l.Location = v) ∧
        (∀ lit v, lastValue (matchKey "owner") lms = some (.string lit) →
          jsonUnquote lit = some v → l.Owner = v)) ∧
    (∀ rawR rms, lastValue (matchKey "run") members = some (.object rawR rms) →
      ∃ r, job.Run_ = some r ∧
        (∀ lit v, lastValue (matchKey "cmd") rms = some (.string lit) →
          jsonUnquote lit = some v → r.Cmd_ = v) ∧
        (∀ lit x, lastValue (matchKey "cpus") rms = some (.number lit (some x)) →
          r.Cpus_ = x) ∧
        (∀ lit f n, lastValue (matchKey "mem") rms = some (.number lit f) →
          Atoi lit = .ok n → r.Mem_ = n) ∧
        (∀ lit f n, lastValue (matchKey "disk") rms = some (.number lit f) →
          Atoi lit = .ok n → r.Disk_ = n) ∧
        (∀ rawE entries key lit v,
          lastValue (matchKey "env") rms = some (.object rawE entries) →
          lastValue (fun k => k == key) entries = some (.string lit) →
          jsonUnquote lit = some v → (key, v) ∈ r.Env_) ∧
        (∀ lit f n, lastValue (matchKey "maxLaunchDelay") rms = some (.number lit f) →
          Atoi lit = .ok n → r.MaxLaunchDelay_ = n) ∧
        (∀ lit v, lastValue (matchKey "user") rms = some (.string lit) →
          jsonUnquote lit = some v → r.User_ = v)) := by
  refine ⟨?_, ?_, ?_, ?_⟩
  · intro lit v hl hv
    exact decodeMembers_string Job.field "id" (fun a => a.ID_)
      (fun a key j a1 s hf hsel => (Job_field_keeps a a1 key j s hf).2.1 hsel)
      (fun a key j a1 s hf hsel => (Job_field_sets a a1 key j s hf).2.1 hsel)
      members job0 saved job s h lit v hl hv
  · intro lit v hl hv
    exact decodeMembers_string Job.field "description" (fun a => a.Description_)
      (fun a key j a1 s hf hsel => (Job_field_keeps a a1 key j s hf).1 hsel)
      (fun a key j a1 s hf hsel => (Job_field_sets a a1 key j s hf).1 hsel)
      members job0 saved job s h lit v hl hv
  · intro rawL lms hl
    refine decodeMembers_last Job.field (matchKey "labels")
      (fun j b => ∀ rawL lms, j = .object rawL lms →
        ∃ l, b.Labels_ = some l ∧
          (∀ lit v, lastValue (matchKey "location") lms = some (.string lit) →
            jsonUnquote lit = some v → l.Location = v) ∧
          (∀ lit v, lastValue (matchKey "owner") lms = some (.string lit) →
            jsonUnquote lit = some v → l.Owner = v))
      ?_ ?_ members job0 saved job s _ hl h rawL lms rfl
    · intro w b k j b1 s1 hf hsel hq raw1 ms1 hj
      rw [(Job_field_keeps b b1 k j s1 hf).2.2.1 hsel]
      exact hq raw1 ms1 hj
    · intro b k j b1 s1 hf hsel raw1 ms1 hj
      subst hj
      obtain ⟨v, hp, hv⟩ := decodePtr_object Labels.field ⟨"", ""⟩ b.Labels_ b1.Labels_ raw1 ms1 s1
        ((Job_field_sets b b1 k _ s1 hf).2.2.1 hsel)
      exact ⟨v, hp, Labels_decodeMembers_populated ms1 _ v none s1 hv⟩
  · intro rawR rms hl
    refine decodeMembers_last Job.field (matchKey "run")
      (fun j b => ∀ rawR rms, j = .object rawR rms →
        ∃ r, b.Run_ = some r ∧
          (∀ lit v, lastValue (matchKey "cmd") rms = some (.string lit) →
            jsonUnquote lit = some v → r.Cmd_ = v) ∧
          (∀ lit x, lastValue (matchKey "cpus") rms = some (.number lit (some x)) →
            r.Cpus_ = x) ∧
          (∀ lit f n, lastValue (matchKey "mem") rms = some (.number lit f) →
            Atoi lit = .ok n → r.Mem_ = n) ∧
          (∀ lit f n, lastValue (matchKey "disk") rms = some (.number lit f) →
            Atoi lit = .ok n → r.Disk_ = n) ∧
          (∀ rawE entries key lit v,
            lastValue (matchKey "env") rms = some (.object rawE entries) →
            lastValue (fun k => k == key) entries = some (.string lit) →
            jsonUnquote lit = some v → (key, v) ∈ r.Env_) ∧
          (∀ lit f n, lastValue (matchKey "maxLaunchDelay") rms = some (.number lit f) →
            Atoi lit = .ok n → r.MaxLaunchDelay_ = n) ∧
          (∀ lit v, lastValue (matchKey "user") rms = some (.string lit) →
            jsonUnquote lit = some v → r.User_ = v))
      ?_ ?_ members job0 saved job s _ hl h rawR rms rfl
    · intro w b k j b1 s1 hf hsel hq raw1 ms1 hj
      rw [(Job_field_keeps b b1 k j s1 hf).2.2.2 hsel]
      exact hq raw1 ms1 hj
    · intro b k j b1 s1 hf hsel raw1 ms1 hj
      subst hj
      obtain ⟨v, hp, hv⟩ := decodePtr_object Run.field Run.zero b.Run_ b1.Run_ raw1 ms1 s1
        ((Job_field_sets b b1 k _ s1 hf).2.2.2 hsel)
      exact ⟨v, hp, Run_decodeMembers_populated ms1 _ v none s1 hv⟩

/-- C14, amended: decoding tolerates absent optional fields. Keys select fields
up to the case of letters. For every Job payload in which no run object has a
key selecting docker, placement, restart, volumes, artifacts or args, the
decoding succeeds exactly when the values under the keys of Job, Labels and Run
have the JSON type of their field (or are null); and the decoded Job has a Run
(if any) in which Docker, Placement and Restart are absent and Volumes,
Artifacts and Args are empty, while for each of id, description, labels
(location, owner), run, cmd, cpus, mem, disk, env, maxLaunchDelay and user the
last member whose key selects the field populates it with the value written in
the payload. -/
theorem Job_decode_tolerates_absent (raw : String) (members : List (String × JSON))
    (hkeys : runLacksOptionalKeys (.object raw members) = true) :
    ((∃ job, jsonUnmarshalJob (.object raw members) = .ok job) ↔ isJobPayload members = true) ∧
    (∀ job, jsonUnmarshalJob (.object raw members) = .ok job →
      (∀ r, job.Run_ = some r →
        r.Docker_ = none ∧ r.Placement_ = none ∧ r.Restart_ = none ∧ r.Volumes_ = [] ∧
          r.Artifacts_ = [] ∧ r.Args_ = []) ∧
      (∀ lit v, lastValue (matchKey "id") members = some (.string lit) →
        jsonUnquote lit = some v → job.ID_ = v) ∧
      (∀ lit v, lastValue (matchKey "description") members = some (.string lit) →
        jsonUnquote lit = some v → job.Description_ = v) ∧
      (∀ rawL lms, lastValue (matchKey "labels") members = some (.object rawL lms) →
        ∃ l, job.Labels_ = some l ∧
          (∀ lit v, lastValue (matchKey "location") lms = some (.string lit) →
            jsonUnquote lit = some v → l.Location = v) ∧
          (∀ lit v, lastValue (matchKey "owner") lms = some (.string lit) →
            jsonUnquote lit = some v → l.Owner = v)) ∧
      (∀ rawR rms, lastValue (matchKey "run") members = some (.object rawR rms) →
        ∃ r, job.Run_ = some r ∧
          (∀ lit v, lastValue (matchKey "cmd") rms = some (.string lit) →
            jsonUnquote lit = some v → r.Cmd_ = v) ∧
          (∀ lit x, lastValue (matchKey "cpus") rms = some (.number lit (some x)) →
            r.Cpus_ = x) ∧
          (∀ lit f n, lastValue (matchKey "mem") rms = some (.number lit f) →
            Atoi lit = .ok n → r.Mem_ = n) ∧
          (∀ lit f n, lastValue (matchKey "disk") rms = some (.number lit f) →
            Atoi lit = .ok n → r.Disk_ = n) ∧
          (∀ rawE entries key lit v,
            lastValue (matchKey "env") rms = some (.object rawE entries) →
            lastValue (fun k => k == key) entries = some (.string lit) →
            jsonUnquote lit = some v → (key, v) ∈ r.Env_) ∧
          (∀ lit f n, lastValue (matchKey "maxLaunchDelay") rms = some (.number lit f) →
            Atoi lit = .ok n → r.MaxLaunchDelay_ = n) ∧
          (∀ lit v, lastValue (matchKey "user") rms = some (.string lit) →
            jsonUnquote lit = some v → r.User_ = v))) := by
  refine ⟨⟨?_, ?_⟩, ?_⟩
  · rintro ⟨job, hjob⟩
    exact decodeMembers_ok_fits Job.field jobMemberFits Job_field_ok_fits members Job.zero none job
      ((jsonUnmarshalJob_object raw members job).1 hjob)
  · intro hfits
    obtain ⟨job, hjob⟩ := Job_decodeMembers_fits raw members hfits hkeys
    exact ⟨job, (jsonUnmarshalJob_object raw members job).2 hjob⟩
  · intro job hjob
    exact ⟨fun r hr => jsonUnmarshalJob_absent (.object raw members) job r hkeys hjob hr,
      Job_decodeMembers_populated members Job.zero job none none
        ((jsonUnmarshalJob_object raw members job).1 hjob)⟩

/-- Witness for C14, amended: the payload with description "Job without
arguments", id "job.without.arguments", labels olympus and zeus, and a run
object with cmd "run", cpus 0.5, disk 128, env CONNECT=direct and MON=test,
maxLaunchDelay 3600, mem 32 and user "root". -/
theorem Job_decode_tolerates_absent_witness :
    runLacksOptionalKeys (.object sampleJobRaw sampleJobMembers) = true ∧
    isJobPayload sampleJobMembers = true ∧
    jsonUnmarshalJob (.object sampleJobRaw sampleJobMembers) =
      .ok { Description_ := "Job without arguments", ID_ := "job.without.arguments",
            Labels_ := some { Location := "olympus", Owner := "zeus" },
            Run_ := some { Artifacts_ := [], Cmd_ := "run", Args_ := [],
                           Cpus_ := ⟨0x3FE0000000000000⟩, Mem_ := 32, Disk_ := 128,
                           Docker_ := none, Env_ := [("CONNECT", "direct"), ("MON", "test")],
                           MaxLaunchDelay_ := 3600, Placement_ := none, Restart_ := none,
                           User_ := "root", Volumes_ := [] } } ∧
    ((∃ job, jsonUnmarshalJob (.object sampleJobRaw sampleJobMembers) = .ok job) ↔
      isJobPayload sampleJobMembers = true) ∧
    (∀ job, jsonUnmarshalJob (.object sampleJobRaw sampleJobMembers) = .ok job →
      job.ID_ = "job.without.arguments" ∧
      ∃ r, job.Run_ = some r ∧ r.Cmd_ = "run" ∧ r.Mem_ = 32 ∧ ("MON", "test") ∈ r.Env_ ∧
        r.Docker_ = none ∧ r.Volumes_ = []) :=
  ⟨by decide, by decide, rfl,
    (Job_decode_tolerates_absent sampleJobRaw sampleJobMembers (by decide)).1,
    fun job hjob => by
      obtain ⟨habs, hid, _, _, hrun⟩ :=
        (Job_decode_tolerates_absent sampleJobRaw sampleJobMembers (by decide)).2 job hjob
      obtain ⟨r, hr, hcmd, _, hmem, _, henv, _, _⟩ := hrun _ _ rfl
      exact ⟨hid "\"job.without.arguments\"" "job.without.arguments" rfl (by decide), r, hr,
        hcmd "\"run\"" "run" rfl (by decide),
        hmem "32" (some ⟨0x4040000000000000⟩) 32 rfl (by decide),
        henv _ _ "MON" "\"test\"" "test" rfl rfl (by decide),
        (habs r hr).1, (habs r hr).2.2.2.1⟩⟩

end metronome
